import Mathlib

/-!
# XMLTV grabber (`src/epggrab/xmltv.c`): a verification development

A shallow embedding of the XMLTV ingestion code of tvheadend and theorems about it.

Conventions of the embedding.

* A C string is the list of its characters before the terminating NUL (`List Char`);
  texts stored in the tag tree and in the guide store are `String`s, handed to the
  scalar decoders through `String.toList`.
* A C `int` used as a truth value (`save`, the result of a setter) is a `Bool`;
  `|=` is `||` and `return 0` is `false`.
* C `int` arithmetic is `Int` arithmetic followed by `wrap32` (two's complement
  wrap-around); `time_t` is `Int`.
* A pointer that may be `NULL` is an `Option`.
* Functions of the C library (`sscanf`, `timegm`) are modelled after the C standard
  and glibc; `mktime`, which depends on the local time zone, and the globals
  `dispatch_clock` and `md5sum` are parameters.
-/

namespace Xmltv

/-! ## Machine integers -/

/-- Two's complement wrap-around of an integer into the range of a 32-bit `int`. -/
def wrap32 (x : Int) : Int := (x + 2147483648) % 4294967296 - 2147483648

/-- Saturation of an integer into the range of a 64-bit `long`, as `strtol` does. -/
def clamp64 (x : Int) : Int :=
  if x < -9223372036854775808 then -9223372036854775808
  else if x > 9223372036854775807 then 9223372036854775807
  else x

/-! ## C library: character classes, `sscanf`, `timegm` -/

/-- The test `c >= '0' && c <= '9'`. -/
def is_digit (c : Char) : Bool := decide ('0' ≤ c) && decide (c ≤ '9')

/-- The value `c - '0'` of a character. -/
def digit_val (c : Char) : Int := (c.toNat : Int) - 48

/-- The C library's `isspace` in the C locale. -/
def is_space (c : Char) : Bool :=
  c == ' ' || c == '\t' || c == '\n' || c == '\x0b' || c == '\x0c' || c == '\r'

/-- Skipping of leading white space, done by every `%d` and by a blank in a format. -/
def skip_space : List Char → List Char
  | [] => []
  | c :: t => if is_space c then skip_space t else c :: t

/-- The digits of a `%d` item: at most `width` of them when a width is given
(`none` is no limit). Returns the digits read and the rest of the input. -/
def scan_digits : Option Nat → List Char → List Char × List Char
  | _, [] => ([], [])
  | some 0, s => ([], s)
  | w, c :: t =>
    if is_digit c then
      let r := scan_digits (w.map Nat.pred) t
      (c :: r.1, r.2)
    else ([], c :: t)

/-- The decimal value of a run of digits. -/
def digits_value (ds : List Char) : Int :=
  ds.foldl (fun acc c => acc * 10 + digit_val c) 0

/-- Outcome of one conversion of `sscanf`. -/
inductive scan_result where
  /-- The input ended before the item began: an input failure. -/
  | input_failure
  /-- The input does not have the form of the item: a matching failure. -/
  | matching_failure
  /-- The item was converted: its value and the rest of the input. -/
  | ok (value : Int) (rest : List Char)

/-- One `%d` conversion of `sscanf`, with an optional maximum field width: white space
is skipped (it does not count in the width), an optional sign and a non-empty run of
digits are read within the width, and the value is stored in an `int` as glibc does
(saturated as a `long`, then truncated). -/
def scan_int (width : Option Nat) (s : List Char) : scan_result :=
  match skip_space s with
  | [] => .input_failure
  | c :: t =>
    let signed := c == '+' || c == '-'
    let body := if signed then t else c :: t
    let w := if signed then width.map Nat.pred else width
    let r := scan_digits w body
    if r.1.isEmpty then .matching_failure
    else
      let v := digits_value r.1
      .ok (wrap32 (clamp64 (if c == '-' then -v else v))) r.2

/-- The fields of `struct tm` that the code uses. -/
structure tm where
  tm_year : Int
  tm_mon : Int
  tm_mday : Int
  tm_hour : Int
  tm_min : Int
  tm_sec : Int
  tm_isdst : Int
  deriving DecidableEq, Repr

/-- Days from 1970-01-01 to the first day of month `m` (0-based, any integer: it is
normalised into a year carry) of year `y` of the proleptic Gregorian calendar. -/
def days_from_civil (y m : Int) : Int :=
  let y1 := y + m / 12
  let m1 := m % 12
  let y2 := if m1 < 2 then y1 - 1 else y1
  let mp := if m1 < 2 then m1 + 10 else m1 - 2
  let era := y2 / 400
  let yoe := y2 - era * 400
  let doy := (153 * mp + 2) / 5
  era * 146097 + (yoe * 365 + yoe / 4 - yoe / 100 + doy) - 719468

/-- The C library's `timegm`: the fields are read as UTC; the month is normalised into
the year and the other fields count linearly, as glibc does. -/
def timegm (t : tm) : Int :=
  (days_from_civil (t.tm_year + 1900) t.tm_mon + (t.tm_mday - 1)) * 86400
    + t.tm_hour * 3600 + t.tm_min * 60 + t.tm_sec

/-! ## `_xmltv_str2time` -/

/-- The seven variables that `sscanf` may assign in `_xmltv_str2time`. -/
structure scan_fields where
  year : Int
  mon : Int
  mday : Int
  hour : Int
  min : Int
  sec : Int
  tz : Int
  deriving DecidableEq, Repr

/-- The call `sscanf(str, "%04d%02d%02d%02d%02d%02d %d", ...)`: the number of items
assigned (`-1`, that is `EOF`, when the input ends before the first conversion) and
the variables after the call. `tm` was cleared by `memset`; `tz0` is the indeterminate
initial value of the local variable `tz`. -/
def xmltv_sscanf (tz0 : Int) (str : List Char) : Int × scan_fields :=
  let f0 : scan_fields := ⟨0, 0, 0, 0, 0, 0, tz0⟩
  match scan_int (some 4) str with
  | .input_failure => (-1, f0)
  | .matching_failure => (0, f0)
  | .ok year s1 =>
  match scan_int (some 2) s1 with
  | .input_failure | .matching_failure => (1, { f0 with year := year })
  | .ok mon s2 =>
  match scan_int (some 2) s2 with
  | .input_failure | .matching_failure => (2, { f0 with year := year, mon := mon })
  | .ok mday s3 =>
  match scan_int (some 2) s3 with
  | .input_failure | .matching_failure =>
    (3, { f0 with year := year, mon := mon, mday := mday })
  | .ok hour s4 =>
  match scan_int (some 2) s4 with
  | .input_failure | .matching_failure =>
    (4, { f0 with year := year, mon := mon, mday := mday, hour := hour })
  | .ok min s5 =>
  match scan_int (some 2) s5 with
  | .input_failure | .matching_failure =>
    (5, { f0 with year := year, mon := mon, mday := mday, hour := hour, min := min })
  | .ok sec s6 =>
  match scan_int none (skip_space s6) with
  | .input_failure | .matching_failure => (6, ⟨year, mon, mday, hour, min, sec, tz0⟩)
  | .ok tz _ => (7, ⟨year, mon, mday, hour, min, sec, tz⟩)

/-- The function `_xmltv_str2time` (xmltv.c, lines 57-83). `mktime` is the C library's
conversion of a local civil time and `tz0` the indeterminate initial value of `tz`. -/
def _xmltv_str2time (mktime : tm → Int) (tz0 : Int) (str : List Char) : Int :=
  let (r, f) := xmltv_sscanf tz0 str
  let t : tm :=
    { tm_year := wrap32 (f.year - 1900), tm_mon := wrap32 (f.mon - 1), tm_mday := f.mday,
      tm_hour := f.hour, tm_min := f.min, tm_sec := f.sec, tm_isdst := -1 }
  let tz := wrap32 (wrap32 (Int.tmod f.tz 100) + wrap32 (wrap32 (Int.tdiv f.tz 100) * 60))
  if r = 6 then mktime t
  else if r = 7 then timegm t - wrap32 (tz * 60)
  else 0

/-! ## The `xmltv_ns` episode numbering -/

/-- The second loop of `xmltv_ns_get_parse_num` (after the slash): reads the digits of
`b` up to and including the next dot, or up to the end of the string. Returns `b` and
the remaining string. -/
def xmltv_ns_get_parse_num_b : List Char → Int → Int × List Char
  | [], b => (b, [])
  | c :: s, b =>
    if c = '.' then (b, s)
    else if is_digit c then
      let b0 := if b = -1 then 0 else b
      xmltv_ns_get_parse_num_b s (wrap32 (wrap32 (wrap32 (b0 * 10) + c.toNat) - 48))
    else xmltv_ns_get_parse_num_b s b

/-- The first loop of `xmltv_ns_get_parse_num`: reads the digits of `a` up to the next
dot, slash or end of string; after a slash the second loop reads `b`. Returns `a`, `b`
and the remaining string. -/
def xmltv_ns_get_parse_num_a : List Char → Int → Int × Int × List Char
  | [], a => (a, -1, [])
  | c :: s, a =>
    if c = '.' then (a, -1, s)
    else if c = '/' then
      let r := xmltv_ns_get_parse_num_b s (-1)
      (a, r.1, r.2)
    else if is_digit c then
      let a0 := if a = -1 then 0 else a
      xmltv_ns_get_parse_num_a s (wrap32 (wrap32 (wrap32 (a0 * 10) + c.toNat) - 48))
    else xmltv_ns_get_parse_num_a s a

/-- The function `xmltv_ns_get_parse_num` (xmltv.c, lines 119-168): the values stored
through `ap` and `bp`, and the returned pointer as the remaining string. -/
def xmltv_ns_get_parse_num (s : List Char) : Int × Int × List Char :=
  let r := xmltv_ns_get_parse_num_a s (-1)
  (wrap32 (r.1 + 1), wrap32 (r.2.1 + 1), r.2.2)

/-- The six outputs of `parse_xmltv_ns_episode`. -/
structure episode_num where
  sn : Int
  sc : Int
  en : Int
  ec : Int
  pn : Int
  pc : Int
  deriving DecidableEq, Repr

/-- The function `parse_xmltv_ns_episode` (xmltv.c, lines 173-180). -/
def parse_xmltv_ns_episode (s : List Char) : episode_num :=
  let r1 := xmltv_ns_get_parse_num s
  let r2 := xmltv_ns_get_parse_num r1.2.2
  let r3 := xmltv_ns_get_parse_num r2.2.2
  { sn := r1.1, sc := r1.2.1, en := r2.1, ec := r2.2.1, pn := r3.1, pc := r3.2.1 }

/-! ## The tag tree (`htsmsg_t`) -/

/-- A field value of a message: a string, a nested message, or a value of another type
(integer, binary, list) that the accessors used here do not read. -/
inductive htsmsg_value where
  | str (s : String)
  | map (fields : List (String × htsmsg_value))
  | other

/-- A message is the ordered list of its named fields. -/
abbrev htsmsg_t := List (String × htsmsg_value)

/-- A field of a message: its name (`hmf_name`) and value. -/
abbrev htsmsg_field_t := String × htsmsg_value

/-- Modelled from the spec: `htsmsg_field_find` of htsmsg.c, the first field of the
message with the given name. -/
def htsmsg_field_find (msg : htsmsg_t) (name : String) : Option htsmsg_field_t :=
  msg.find? (fun f => f.1 == name)

/-- Modelled from the spec: `htsmsg_get_map_by_field` of htsmsg.c ("get child map"),
the nested message of a field, or `NULL` when the field is not a map. -/
def htsmsg_get_map_by_field (f : htsmsg_field_t) : Option htsmsg_t :=
  match f.2 with
  | .map m => some m
  | _ => none

/-- Modelled from the spec: `htsmsg_get_map` of htsmsg.c ("get child map by name"). -/
def htsmsg_get_map (msg : htsmsg_t) (name : String) : Option htsmsg_t :=
  (htsmsg_field_find msg name).bind htsmsg_get_map_by_field

/-- Modelled from the spec: `htsmsg_get_str` of htsmsg.c ("get attribute string by
name"), the string of the first field of that name, or `NULL`. -/
def htsmsg_get_str (msg : htsmsg_t) (name : String) : Option String :=
  match htsmsg_field_find msg name with
  | some (_, .str s) => some s
  | _ => none

/-- Modelled from the spec: `htsmsg_xml_get_cdata_str` of htsmsg_xml.c ("get character
data string"), the `cdata` string of the child tag of the given name. -/
def htsmsg_xml_get_cdata_str (tags : htsmsg_t) (name : String) : Option String :=
  (htsmsg_get_map tags name).bind (fun sub => htsmsg_get_str sub "cdata")

/-! ## `get_episode_info` -/

/-- The variables that `get_episode_info` writes through its pointer arguments. -/
structure episode_info where
  screen : Option String
  num : episode_num

/-- The body of the loop of `get_episode_info` for one field. -/
def get_episode_info_field (f : htsmsg_field_t) (acc : episode_info) : episode_info :=
  match htsmsg_get_map_by_field f with
  | none => acc
  | some c =>
    if f.1 ≠ "episode-num" then acc
    else match htsmsg_get_map c "attrib" with
    | none => acc
    | some a =>
      match htsmsg_get_str c "cdata" with
      | none => acc
      | some cdata =>
        match htsmsg_get_str a "system" with
        | none => acc
        | some sys =>
          if sys = "onscreen" then { acc with screen := some cdata }
          else if sys = "xmltv_ns" then { acc with num := parse_xmltv_ns_episode cdata.toList }
          else acc

/-- The function `get_episode_info` (xmltv.c, lines 185-205): the loop over the fields
of `tags`, in order. -/
def get_episode_info (tags : htsmsg_t) (acc : episode_info) : episode_info :=
  tags.foldl (fun acc f => get_episode_info_field f acc) acc

/-! ## The guide store (external collaborator) -/

/-- A real tunable channel (`channel_t`), known by a number. -/
abbrev channel_t := Nat

/-- A guide channel (`epggrab_channel_t`): display name, icon and the link to a real
tunable channel. -/
structure epggrab_channel_t where
  name : Option String
  icon : Option String
  channel : Option channel_t
  deriving DecidableEq, Repr

/-- An episode (`epg_episode_t`). -/
structure epg_episode_t where
  title : Option String
  description : Option String
  genre : List String
  number : Int
  part_number : Int
  part_count : Int
  deriving DecidableEq, Repr

/-- A broadcast (`epg_broadcast_t`): its link to an episode, by the episode's key. -/
structure epg_broadcast_t where
  episode : Option String
  deriving DecidableEq, Repr

/-- The guide store: guide channels by id, episodes by digest key, broadcasts by
(channel, start, stop), and the log of "channel updated" notifications. A handle to a
record is its key. -/
structure guide_store where
  channels : String → Option epggrab_channel_t
  episodes : String → Option epg_episode_t
  broadcasts : channel_t × Int × Int → Option epg_broadcast_t
  updated : List String

/-- Replacement of the value of a map at one key. -/
def upd {κ α : Type} [DecidableEq κ] (f : κ → α) (k : κ) (v : α) : κ → α :=
  fun x => if x = k then v else f x

/-- Modelled from the spec: `epggrab_module_channel_find` of epggrab.c, the
find-or-create of a guide channel by id (§4.5: "find-or-create a Channel (creation
flag recorded)"). Returns the handle, the creation flag and the store. A created
channel has no name, no icon and no link to a real channel. -/
def epggrab_module_channel_find (id : String) (create : Bool) (st : guide_store) :
    Option String × Bool × guide_store :=
  match st.channels id with
  | some _ => (some id, false, st)
  | none =>
    if create then
      (some id, true, { st with channels := upd st.channels id (some ⟨none, none, none⟩) })
    else (none, false, st)

/-- The function `_xmltv_channel_find` (xmltv.c, lines 43-47). -/
def _xmltv_channel_find (id : String) (create : Bool) (st : guide_store) :
    Option String × Bool × guide_store :=
  epggrab_module_channel_find id create st

/-- Modelled from the spec: `epggrab_channel_set_name` of epggrab.c, which stores the
display name and reports a change exactly when the stored value differs (§3, §4.5). -/
def epggrab_channel_set_name (ch : String) (name : String) (st : guide_store) :
    Bool × guide_store :=
  match st.channels ch with
  | none => (false, st)
  | some r =>
    if r.name = some name then (false, st)
    else (true, { st with channels := upd st.channels ch (some { r with name := some name }) })

/-- Modelled from the spec: `epggrab_channel_set_icon` of epggrab.c, which stores the
icon URL and reports a change exactly when the stored value differs (§3, §4.5). -/
def epggrab_channel_set_icon (ch : String) (icon : String) (st : guide_store) :
    Bool × guide_store :=
  match st.channels ch with
  | none => (false, st)
  | some r =>
    if r.icon = some icon then (false, st)
    else (true, { st with channels := upd st.channels ch (some { r with icon := some icon }) })

/-- Modelled from the spec: `epggrab_channel_updated` of epggrab.c, the notification of
the registry that a channel was updated (§4.5); the store records it. -/
def epggrab_channel_updated (ch : String) (st : guide_store) : guide_store :=
  { st with updated := ch :: st.updated }

/-- Modelled from the spec: `epg_episode_find_by_uri` of epg.c, the find-or-create of
an episode by its key (§4.3). Returns the handle, the creation flag and the store. -/
def epg_episode_find_by_uri (uri : String) (create : Bool) (st : guide_store) :
    Option String × Bool × guide_store :=
  match st.episodes uri with
  | some _ => (some uri, false, st)
  | none =>
    if create then
      (some uri, true, { st with episodes := upd st.episodes uri (some ⟨none, none, [], 0, 0, 0⟩) })
    else (none, false, st)

/-- A setter of the store on an episode: the record is replaced when the new record
differs from the stored one, and that is when a change is reported. -/
def episode_set (ee : String) (f : epg_episode_t → epg_episode_t) (st : guide_store) :
    Bool × guide_store :=
  match st.episodes ee with
  | none => (false, st)
  | some r =>
    if f r = r then (false, st)
    else (true, { st with episodes := upd st.episodes ee (some (f r)) })

/-- Modelled from the spec: `epg_episode_set_title` of epg.c (§4.3: merge the field,
"recording whether the stored value actually changed"). -/
def epg_episode_set_title (ee : String) (title : String) (st : guide_store) :
    Bool × guide_store :=
  episode_set ee (fun r => { r with title := some title }) st

/-- Modelled from the spec: `epg_episode_set_description` of epg.c (§4.3). -/
def epg_episode_set_description (ee : String) (desc : String) (st : guide_store) :
    Bool × guide_store :=
  episode_set ee (fun r => { r with description := some desc }) st

/-- Modelled from the spec: `epg_episode_set_genre_str` of epg.c (§4.3), which takes
the `NULL`-terminated array of genre names as a list. -/
def epg_episode_set_genre_str (ee : String) (genre : List String) (st : guide_store) :
    Bool × guide_store :=
  episode_set ee (fun r => { r with genre := genre }) st

/-- Modelled from the spec: `epg_episode_set_part` of epg.c (§4.3), part number and
part count. -/
def epg_episode_set_part (ee : String) (pn pc : Int) (st : guide_store) :
    Bool × guide_store :=
  episode_set ee (fun r => { r with part_number := pn, part_count := pc }) st

/-- Modelled from the spec: `epg_episode_set_number` of epg.c (§4.3). -/
def epg_episode_set_number (ee : String) (en : Int) (st : guide_store) :
    Bool × guide_store :=
  episode_set ee (fun r => { r with number := en }) st

/-- Modelled from the spec: `epg_broadcast_find_by_time` of epg.c, the find-or-create
of a broadcast keyed by (channel, interval) (§4.4). Returns the handle, the creation
flag and the store. -/
def epg_broadcast_find_by_time (ch : channel_t) (start stop : Int) (create : Bool)
    (st : guide_store) : Option (channel_t × Int × Int) × Bool × guide_store :=
  match st.broadcasts (ch, start, stop) with
  | some _ => (some (ch, start, stop), false, st)
  | none =>
    if create then
      (some (ch, start, stop), true,
        { st with broadcasts := upd st.broadcasts (ch, start, stop) (some ⟨none⟩) })
    else (none, false, st)

/-- Modelled from the spec: `epg_broadcast_set_episode` of epg.c, which links the
broadcast to the episode "if not already linked or if the link differs" (§4.4). -/
def epg_broadcast_set_episode (ebc : channel_t × Int × Int) (ee : String)
    (st : guide_store) : Bool × guide_store :=
  match st.broadcasts ebc with
  | none => (false, st)
  | some r =>
    if r.episode = some ee then (false, st)
    else (true, { st with broadcasts := upd st.broadcasts ebc (some { r with episode := some ee }) })

/-! ## Statistics -/

/-- The counters of one category (`epggrab_stats_part_t`). The type is declared in
epggrab.h, outside this file; the counters are taken as natural numbers, so an
increment never wraps. -/
structure epggrab_stats_part_t where
  created : Nat
  modified : Nat
  total : Nat
  deriving DecidableEq, Repr

/-- The statistics accumulator (`epggrab_stats_t`), with the categories this file
counts. -/
structure epggrab_stats_t where
  channels : epggrab_stats_part_t
  episodes : epggrab_stats_part_t
  broadcasts : epggrab_stats_part_t
  deriving DecidableEq, Repr

/-- The increment `total++`. -/
def epggrab_stats_part_t.inc_total (p : epggrab_stats_part_t) : epggrab_stats_part_t :=
  { p with total := p.total + 1 }

/-- The increment `created++`. -/
def epggrab_stats_part_t.inc_created (p : epggrab_stats_part_t) : epggrab_stats_part_t :=
  { p with created := p.created + 1 }

/-- The increment `modified++`. -/
def epggrab_stats_part_t.inc_modified (p : epggrab_stats_part_t) : epggrab_stats_part_t :=
  { p with modified := p.modified + 1 }

/-- What the code reads from outside the file: the global `dispatch_clock`, the local
time conversion `mktime`, the digest `md5sum`, and the indeterminate initial value of
the variable `tz` of `_xmltv_str2time`. -/
structure xmltv_env where
  dispatch_clock : Int
  mktime : tm → Int
  md5sum : String → String
  tz0 : Int

/-! ## The reconcilers -/

/-- The function `_xmltv_parse_programme_tags` (xmltv.c, lines 210-259). Returns the
result `save | save2`, the statistics and the store. -/
def _xmltv_parse_programme_tags (env : xmltv_env) (ch : channel_t) (tags : htsmsg_t)
    (start stop : Int) (stats : epggrab_stats_t) (st : guide_store) :
    Bool × epggrab_stats_t × guide_store :=
  let title := htsmsg_xml_get_cdata_str tags "title"
  let desc := htsmsg_xml_get_cdata_str tags "desc"
  let info := get_episode_info tags ⟨none, ⟨0, 0, 0, 0, 0, 0⟩⟩
  match title with
  | none => (false, stats, st)
  | some title =>
    let uri := env.md5sum (desc.getD title)
    match epg_episode_find_by_uri uri true st with
    | (none, _, st) => (false, stats, st)
    | (some ee, save, st) =>
      let stats := { stats with episodes := stats.episodes.inc_total }
      let stats := if save then { stats with episodes := stats.episodes.inc_created } else stats
      let category := htsmsg_xml_get_cdata_str tags "category"
      let r := epg_episode_set_title ee title st
      let (save, st) := (save || r.1, r.2)
      let (save, st) :=
        match desc with
        | some d => let r := epg_episode_set_description ee d st; (save || r.1, r.2)
        | none => (save, st)
      let (save, st) :=
        match category with
        | some c => let r := epg_episode_set_genre_str ee [c] st; (save || r.1, r.2)
        | none => (save, st)
      let (save, st) :=
        if info.num.pn ≠ 0 then
          let r := epg_episode_set_part ee info.num.pn info.num.pc st; (save || r.1, r.2)
        else (save, st)
      let (save, st) :=
        if info.num.en ≠ 0 then
          let r := epg_episode_set_number ee info.num.en st; (save || r.1, r.2)
        else (save, st)
      let stats := if save then { stats with episodes := stats.episodes.inc_modified } else stats
      match epg_broadcast_find_by_time ch start stop true st with
      | (none, _, st) => (save, stats, st)
      | (some ebc, save2, st) =>
        let stats := { stats with broadcasts := stats.broadcasts.inc_total }
        let stats :=
          if save2 then { stats with broadcasts := stats.broadcasts.inc_created } else stats
        let r := epg_broadcast_set_episode ebc ee st
        let (save2, st) := (save2 || r.1, r.2)
        let stats :=
          if save2 then { stats with broadcasts := stats.broadcasts.inc_modified } else stats
        (save || save2, stats, st)

/-- The function `_xmltv_parse_programme` (xmltv.c, lines 264-289). -/
def _xmltv_parse_programme (env : xmltv_env) (body : Option htsmsg_t)
    (stats : epggrab_stats_t) (st : guide_store) : Bool × epggrab_stats_t × guide_store :=
  match body with
  | none => (false, stats, st)
  | some body =>
  match htsmsg_get_map body "attrib" with
  | none => (false, stats, st)
  | some attribs =>
  match htsmsg_get_map body "tags" with
  | none => (false, stats, st)
  | some tags =>
  match htsmsg_get_str attribs "channel" with
  | none => (false, stats, st)
  | some chid =>
  match _xmltv_channel_find chid false st with
  | (none, _, st) => (false, stats, st)
  | (some ch, _, st) =>
  match (st.channels ch).bind (fun r => r.channel) with
  | none => (false, stats, st)
  | some channel =>
  match htsmsg_get_str attribs "start" with
  | none => (false, stats, st)
  | some s =>
  let start := _xmltv_str2time env.mktime env.tz0 s.toList
  match htsmsg_get_str attribs "stop" with
  | none => (false, stats, st)
  | some s =>
  let stop := _xmltv_str2time env.mktime env.tz0 s.toList
  if stop ≤ start ∨ stop < env.dispatch_clock then (false, stats, st)
  else _xmltv_parse_programme_tags env channel tags start stop stats st

/-- The function `_xmltv_parse_channel` (xmltv.c, lines 294-325). -/
def _xmltv_parse_channel (body : Option htsmsg_t) (stats : epggrab_stats_t)
    (st : guide_store) : Bool × epggrab_stats_t × guide_store :=
  match body with
  | none => (false, stats, st)
  | some body =>
  match htsmsg_get_map body "attrib" with
  | none => (false, stats, st)
  | some attribs =>
  match htsmsg_get_str attribs "id" with
  | none => (false, stats, st)
  | some id =>
  match htsmsg_get_map body "tags" with
  | none => (false, stats, st)
  | some tags =>
  match _xmltv_channel_find id true st with
  | (none, _, st) => (false, stats, st)
  | (some ch, save, st) =>
    let stats := { stats with channels := stats.channels.inc_total }
    let stats := if save then { stats with channels := stats.channels.inc_created } else stats
    let (save, st) :=
      match htsmsg_xml_get_cdata_str tags "display-name" with
      | some name => let r := epggrab_channel_set_name ch name st; (save || r.1, r.2)
      | none => (save, st)
    let icon :=
      ((htsmsg_get_map tags "icon").bind (fun subtag => htsmsg_get_map subtag "attrib")).bind
        (fun attribs => htsmsg_get_str attribs "src")
    let (save, st) :=
      match icon with
      | some icon => let r := epggrab_channel_set_icon ch icon st; (save || r.1, r.2)
      | none => (save, st)
    if save then
      (save, { stats with channels := stats.channels.inc_modified }, epggrab_channel_updated ch st)
    else (save, stats, st)

/-- The body of the loop of `_xmltv_parse_tv` for one field: the dispatch on the tag
name. -/
def _xmltv_parse_tv_field (env : xmltv_env) (f : htsmsg_field_t)
    (acc : Bool × epggrab_stats_t × guide_store) : Bool × epggrab_stats_t × guide_store :=
  if f.1 = "channel" then
    let r := _xmltv_parse_channel (htsmsg_get_map_by_field f) acc.2.1 acc.2.2
    (acc.1 || r.1, r.2)
  else if f.1 = "programme" then
    let r := _xmltv_parse_programme env (htsmsg_get_map_by_field f) acc.2.1 acc.2.2
    (acc.1 || r.1, r.2)
  else acc

/-- The function `_xmltv_parse_tv` (xmltv.c, lines 330-348). -/
def _xmltv_parse_tv (env : xmltv_env) (body : htsmsg_t) (stats : epggrab_stats_t)
    (st : guide_store) : Bool × epggrab_stats_t × guide_store :=
  match htsmsg_get_map body "tags" with
  | none => (false, stats, st)
  | some tags => tags.foldl (fun acc f => _xmltv_parse_tv_field env f acc) (false, stats, st)

/-! ## Grabber discovery -/

/-- Modelled from the spec: the capability flags of a module (epggrab.h), by name;
`zero` is the cleared byte that `calloc` leaves. -/
inductive epggrab_module_flags where
  | zero
  | EPGGRAB_MODULE_SIMPLE
  | EPGGRAB_MODULE_EXTERNAL
  deriving DecidableEq, Repr

/-- The entry points and the channel namespace that a module descriptor may point to,
by name. -/
inductive module_ref where
  | epggrab_module_grab
  | epggrab_module_trans_xml
  | _xmltv_parse
  | _xmltv_channels
  deriving DecidableEq, Repr

/-- A module descriptor (`epggrab_module_t`), with the fields that
`_xmltv_load_grabbers` assigns; a field cleared by `calloc` is `none`. -/
structure epggrab_module_t where
  id : Option String
  path : Option String
  name : Option String
  channels : Option module_ref
  flags : epggrab_module_flags
  grab : Option module_ref
  trans : Option module_ref
  parse : Option module_ref
  deriving DecidableEq, Repr

/-- The C string that starts at offset `p` of a buffer: the characters up to the next
NUL. -/
def c_str_at (buf : List Char) (p : Nat) : List Char :=
  (buf.drop p).takeWhile (fun c => c != '\x00')

/-- The descriptor that the loop of `_xmltv_load_grabbers` builds from the strings at
`&outbuf[p]` and `&outbuf[n]`. -/
def grabber_module (path label : List Char) : epggrab_module_t :=
  { id := some (String.mk path)
    path := some (String.mk path)
    name := some (String.mk ("XMLTV: ".toList ++ label))
    channels := some module_ref._xmltv_channels
    flags := epggrab_module_flags.EPGGRAB_MODULE_SIMPLE
    grab := some module_ref.epggrab_module_grab
    trans := some module_ref.epggrab_module_trans_xml
    parse := some module_ref._xmltv_parse }

/-- The loop `while (i < outlen)` of `_xmltv_load_grabbers` (xmltv.c, lines 383-403),
run for at most `fuel` tests of its condition. The module list is a Lean list whose
head is the head of the C list. The result is `none` when the code leaves defined
behaviour: a read at an offset outside the buffer, or `sprintf` writing more than the
200 bytes allocated for the name ("XMLTV: ", the label and the NUL); and when the fuel
runs out. -/
def _xmltv_load_grabbers_loop (outlen : Nat) :
    Nat → List Char → Nat → Nat → Nat → List epggrab_module_t → Option (List epggrab_module_t)
  | 0, _, _, _, _, _ => none
  | fuel + 1, outbuf, i, p, n, list =>
    if i < outlen then
      match outbuf[i]? with
      | none => none
      | some c =>
        if c = '\n' ∨ c = '\x00' then
          let outbuf := outbuf.set i '\x00'
          let path := c_str_at outbuf p
          let label := c_str_at outbuf n
          if 7 + label.length + 1 > 200 then none
          else
            _xmltv_load_grabbers_loop outlen fuel outbuf (i + 1) (i + 1) (i + 1)
              (grabber_module path label :: list)
        else if c = '|' then
          _xmltv_load_grabbers_loop outlen fuel (outbuf.set i '\x00') (i + 1) p (i + 1) list
        else _xmltv_load_grabbers_loop outlen fuel outbuf (i + 1) p n list
    else some list

/-- The function `_xmltv_load_grabbers` (xmltv.c, lines 368-405). `ret` is the `int`
that `spawn_and_store_stdout` returns (the captured length, or `-1` on failure) and
`outbuf` the bytes readable through the pointer it stored; the assignment to the
`size_t outlen` converts `ret` modulo `2^64`. The loop is given `outlen + 1` tests of
its condition, which it cannot exceed because `i` grows by one at every turn. -/
def _xmltv_load_grabbers (ret : Int) (outbuf : List Char) (list : List epggrab_module_t) :
    Option (List epggrab_module_t) :=
  let outlen : Nat := (ret % 18446744073709551616).toNat
  if outlen < 1 then some list
  else _xmltv_load_grabbers_loop outlen (outlen + 1) outbuf 0 0 0 list

/-! ## Sample data for the concrete instances -/

/-- A store that knows the guide channel `c1`, linked to the real channel 7, and the
unlinked guide channel `c2`; no episode and no broadcast. -/
def sample_store : guide_store :=
  { channels := fun id =>
      if id = "c1" then some ⟨some "One", none, some 7⟩
      else if id = "c2" then some ⟨none, none, none⟩
      else none
    episodes := fun _ => none
    broadcasts := fun _ => none
    updated := [] }

/-- An environment whose local time is UTC, whose digest is the identity and whose
dispatch clock reads 2023-01-01 00:00:00 UTC. -/
def sample_env : xmltv_env :=
  { dispatch_clock := 1672531200, mktime := timegm, md5sum := id, tz0 := 0 }

/-- All counters at zero. -/
def zero_stats : epggrab_stats_t := ⟨⟨0, 0, 0⟩, ⟨0, 0, 0⟩, ⟨0, 0, 0⟩⟩

/-- A child tag with character data only. -/
def cdata_tag (name text : String) : htsmsg_field_t :=
  (name, .map [("cdata", .str text)])

/-- A `programme` element with the given attributes and child tags. -/
def programme_body (channel start stop : String) (tags : htsmsg_t) : htsmsg_t :=
  [("attrib", .map [("channel", .str channel), ("start", .str start), ("stop", .str stop)]),
   ("tags", .map tags)]

/-! ## Decimal rendering of the fields of a timestamp -/

/-- The character of a decimal digit. -/
def digit_char (d : Nat) : Char := Char.ofNat (48 + d)

/-- The two-digit rendering of a number below 100. -/
def two_digits (n : Nat) : List Char := [digit_char (n / 10), digit_char (n % 10)]

/-- The four-digit rendering of a number below 10000. -/
def four_digits (n : Nat) : List Char := two_digits (n / 100) ++ two_digits (n % 100)

/-- The text `YYYYMMDDHHMMSS`, a blank, a sign and the offset `HHMM`. -/
def timestamp_text (Y M D h m s : Nat) (neg : Bool) (oh om : Nat) : List Char :=
  four_digits Y ++ two_digits M ++ two_digits D ++ two_digits h ++ two_digits m
    ++ two_digits s ++ [' ', if neg then '-' else '+'] ++ two_digits oh ++ two_digits om

/-! ## What a reconciliation writes -/

/-- The record of a newly created episode. -/
def blank_episode : epg_episode_t := ⟨none, none, [], 0, 0, 0⟩

/-- The episode record after the merge of the fields of one programme entry: the
fields present in the entry replace the stored ones, in the order of the setters. -/
def merged_episode (title : String) (desc category : Option String) (pn pc en : Int)
    (r : epg_episode_t) : epg_episode_t :=
  let r := { r with title := some title }
  let r := match desc with
    | some d => { r with description := some d }
    | none => r
  let r := match category with
    | some c => { r with genre := [c] }
    | none => r
  let r := if pn ≠ 0 then { r with part_number := pn, part_count := pc } else r
  if en ≠ 0 then { r with number := en } else r

/-- The five conditional setter calls of `_xmltv_parse_programme_tags` (xmltv.c, lines
238-242). -/
def episode_merge_steps (ee title : String) (desc category : Option String) (pn pc en : Int)
    (save : Bool) (st : guide_store) : Bool × guide_store :=
  let r := epg_episode_set_title ee title st
  let (save, st) := (save || r.1, r.2)
  let (save, st) :=
    match desc with
    | some d => let r := epg_episode_set_description ee d st; (save || r.1, r.2)
    | none => (save, st)
  let (save, st) :=
    match category with
    | some c => let r := epg_episode_set_genre_str ee [c] st; (save || r.1, r.2)
    | none => (save, st)
  let (save, st) :=
    if pn ≠ 0 then
      let r := epg_episode_set_part ee pn pc st; (save || r.1, r.2)
    else (save, st)
  if en ≠ 0 then
    let r := epg_episode_set_number ee en st; (save || r.1, r.2)
  else (save, st)

/-- The create-or-find of the broadcast and its link to the episode in
`_xmltv_parse_programme_tags` (xmltv.c, lines 250-258). -/
def broadcast_steps (ch : channel_t) (start stop : Int) (ee : String) (save : Bool)
    (stats : epggrab_stats_t) (st : guide_store) : Bool × epggrab_stats_t × guide_store :=
  match epg_broadcast_find_by_time ch start stop true st with
  | (none, _, st) => (save, stats, st)
  | (some ebc, save2, st) =>
    let stats := { stats with broadcasts := stats.broadcasts.inc_total }
    let stats :=
      if save2 then { stats with broadcasts := stats.broadcasts.inc_created } else stats
    let r := epg_broadcast_set_episode ebc ee st
    let (save2, st) := (save2 || r.1, r.2)
    let stats :=
      if save2 then { stats with broadcasts := stats.broadcasts.inc_modified } else stats
    (save || save2, stats, st)

/-- The counters of a category after one find-or-create and merge: `total` grows by
one, `created` when the record did not exist, `modified` when the stored record
changed. -/
def counted (p : epggrab_stats_part_t) (created modified : Bool) : epggrab_stats_part_t :=
  { created := p.created + (if created then 1 else 0)
    modified := p.modified + (if modified then 1 else 0)
    total := p.total + 1 }

/-- The key under which `_xmltv_parse_programme_tags` looks up the episode of a tag
set with the given title: the digest of `desc ?: title`. -/
def programme_key (env : xmltv_env) (tags : htsmsg_t) (title : String) : String :=
  env.md5sum ((htsmsg_xml_get_cdata_str tags "desc").getD title)

/-- The episode record that a tag set with the given title leaves in the store, from
the record found (`none` when the episode is created). -/
def programme_episode (tags : htsmsg_t) (title : String) (old : Option epg_episode_t) :
    epg_episode_t :=
  merged_episode title (htsmsg_xml_get_cdata_str tags "desc")
    (htsmsg_xml_get_cdata_str tags "category")
    (get_episode_info tags ⟨none, ⟨0, 0, 0, 0, 0, 0⟩⟩).num.pn
    (get_episode_info tags ⟨none, ⟨0, 0, 0, 0, 0, 0⟩⟩).num.pc
    (get_episode_info tags ⟨none, ⟨0, 0, 0, 0, 0, 0⟩⟩).num.en
    (old.getD blank_episode)

/-! ## Records of the discovery output -/

/-- A character that is neither a record terminator nor a field separator. -/
def is_plain (c : Char) : Bool := c != '\n' && c != '\x00' && c != '|'

/-- A record of the discovery output: the path, the label when there is one, and the
terminator of the record. -/
structure grabber_record where
  path : List Char
  label : Option (List Char)
  term : Char
  deriving DecidableEq, Repr

/-- The text of a record: `path` or `path|label`, then the terminator. -/
def grabber_record.render (r : grabber_record) : List Char :=
  match r.label with
  | some l => r.path ++ '|' :: (l ++ [r.term])
  | none => r.path ++ [r.term]

/-- The text shown after `XMLTV: ` in the name: the label when present, else the path. -/
def grabber_record.shown (r : grabber_record) : List Char := r.label.getD r.path

/-- A record is well formed when its terminator is a newline or a NUL and its path and
label are made of plain characters. -/
def grabber_record.well_formed (r : grabber_record) : Bool :=
  (r.term == '\n' || r.term == '\x00') && r.path.all is_plain
    && (r.label.getD []).all is_plain

/-- The descriptor that the specification gives for a record. -/
def grabber_record.descriptor (r : grabber_record) : epggrab_module_t :=
  grabber_module r.path r.shown

/-- The text of a sequence of records. -/
def render_records : List grabber_record → List Char
  | [] => []
  | r :: rs => r.render ++ render_records rs

/-! ## The entries of a document and what they write -/

/-- What a `channel` element asks the store to hold: the id and, when given, the
display name and the icon. -/
structure channel_entry where
  id : String
  name : Option String
  icon : Option String
  deriving DecidableEq, Repr

/-- What a `programme` element asks the store to hold, once its channel is resolved
and its interval accepted: the broadcast (channel, start, stop), the episode key and
the episode fields that the entry gives. -/
structure programme_entry where
  channel : channel_t
  start : Int
  stop : Int
  key : String
  title : String
  desc : Option String
  category : Option String
  pn : Int
  pc : Int
  en : Int
  deriving DecidableEq, Repr

/-- An entry of a document that reaches the store. -/
inductive xmltv_entry where
  | channel (c : channel_entry)
  | programme (p : programme_entry)
  deriving DecidableEq, Repr

/-- The guards of `_xmltv_parse_channel`: the entry of a `channel` element, or `none`
when the element is skipped. -/
def resolve_channel (body : Option htsmsg_t) : Option channel_entry :=
  match body with
  | none => none
  | some body =>
  match htsmsg_get_map body "attrib" with
  | none => none
  | some attribs =>
  match htsmsg_get_str attribs "id" with
  | none => none
  | some id =>
  match htsmsg_get_map body "tags" with
  | none => none
  | some tags =>
    some ⟨id, htsmsg_xml_get_cdata_str tags "display-name",
      ((htsmsg_get_map tags "icon").bind (fun subtag => htsmsg_get_map subtag "attrib")).bind
        (fun attribs => htsmsg_get_str attribs "src")⟩

/-- The link of a guide channel to a real channel (`ch->channel`), `none` when the
guide channel is unknown or not linked. -/
def channel_link (st : guide_store) (chid : String) : Option channel_t :=
  (st.channels chid).bind (fun r => r.channel)

/-- The guards of `_xmltv_parse_programme` and the title test of
`_xmltv_parse_programme_tags`: the entry of a `programme` element, or `none` when the
element is skipped. -/
def resolve_programme (env : xmltv_env) (st : guide_store) (body : Option htsmsg_t) :
    Option programme_entry :=
  match body with
  | none => none
  | some body =>
  match htsmsg_get_map body "attrib" with
  | none => none
  | some attribs =>
  match htsmsg_get_map body "tags" with
  | none => none
  | some tags =>
  match htsmsg_get_str attribs "channel" with
  | none => none
  | some chid =>
  match channel_link st chid with
  | none => none
  | some channel =>
  match htsmsg_get_str attribs "start" with
  | none => none
  | some s1 =>
  match htsmsg_get_str attribs "stop" with
  | none => none
  | some s2 =>
  if _xmltv_str2time env.mktime env.tz0 s2.toList ≤ _xmltv_str2time env.mktime env.tz0 s1.toList
      ∨ _xmltv_str2time env.mktime env.tz0 s2.toList < env.dispatch_clock then none
  else
    match htsmsg_xml_get_cdata_str tags "title" with
    | none => none
    | some title =>
      some
        { channel := channel
          start := _xmltv_str2time env.mktime env.tz0 s1.toList
          stop := _xmltv_str2time env.mktime env.tz0 s2.toList
          key := programme_key env tags title
          title := title
          desc := htsmsg_xml_get_cdata_str tags "desc"
          category := htsmsg_xml_get_cdata_str tags "category"
          pn := (get_episode_info tags ⟨none, ⟨0, 0, 0, 0, 0, 0⟩⟩).num.pn
          pc := (get_episode_info tags ⟨none, ⟨0, 0, 0, 0, 0, 0⟩⟩).num.pc
          en := (get_episode_info tags ⟨none, ⟨0, 0, 0, 0, 0, 0⟩⟩).num.en }

/-- The dispatch of `_xmltv_parse_tv` on the name of a field: the entry of the field,
or `none` when the field is ignored or skipped. -/
def resolve_field (env : xmltv_env) (st : guide_store) (f : htsmsg_field_t) :
    Option xmltv_entry :=
  if f.1 = "channel" then (resolve_channel (htsmsg_get_map_by_field f)).map xmltv_entry.channel
  else if f.1 = "programme" then
    (resolve_programme env st (htsmsg_get_map_by_field f)).map xmltv_entry.programme
  else none

/-- The entries of a document that reach the store, in document order. -/
def document_entries (env : xmltv_env) (st : guide_store) (body : htsmsg_t) :
    List xmltv_entry :=
  ((htsmsg_get_map body "tags").getD []).filterMap (resolve_field env st)

/-- The guide channel record after the merge of a `channel` element. -/
def merged_channel (name icon : Option String) (r : epggrab_channel_t) : epggrab_channel_t :=
  let r := match name with
    | some n => { r with name := some n }
    | none => r
  match icon with
  | some i => { r with icon := some i }
  | none => r

/-- The two conditional setter calls and the end of `_xmltv_parse_channel` (xmltv.c,
lines 311-324). -/
def channel_merge_steps (ch : String) (name icon : Option String) (save : Bool)
    (stats : epggrab_stats_t) (st : guide_store) : Bool × epggrab_stats_t × guide_store :=
  let (save, st) :=
    match name with
    | some name => let r := epggrab_channel_set_name ch name st; (save || r.1, r.2)
    | none => (save, st)
  let (save, st) :=
    match icon with
    | some icon => let r := epggrab_channel_set_icon ch icon st; (save || r.1, r.2)
    | none => (save, st)
  if save then
    (save, { stats with channels := stats.channels.inc_modified }, epggrab_channel_updated ch st)
  else (save, stats, st)

/-- What a channel entry does to the statistics and the store. -/
def apply_channel (c : channel_entry) (stats : epggrab_stats_t) (st : guide_store) :
    Bool × epggrab_stats_t × guide_store :=
  let old := st.channels c.id
  let new := merged_channel c.name c.icon (old.getD ⟨none, none, none⟩)
  (decide (old ≠ some new),
   { stats with channels := counted stats.channels old.isNone (decide (old ≠ some new)) },
   { st with
     channels := upd st.channels c.id (some new),
     updated := if old ≠ some new then c.id :: st.updated else st.updated })

/-- What a programme entry does to the statistics and the store. -/
def apply_programme (p : programme_entry) (stats : epggrab_stats_t) (st : guide_store) :
    Bool × epggrab_stats_t × guide_store :=
  let old := st.episodes p.key
  let ep := merged_episode p.title p.desc p.category p.pn p.pc p.en (old.getD blank_episode)
  let oldb := st.broadcasts (p.channel, p.start, p.stop)
  (decide (old ≠ some ep) || decide (oldb ≠ some ⟨some p.key⟩),
   { channels := stats.channels,
     episodes := counted stats.episodes old.isNone (decide (old ≠ some ep)),
     broadcasts := counted stats.broadcasts oldb.isNone (decide (oldb ≠ some ⟨some p.key⟩)) },
   { st with
     episodes := upd st.episodes p.key (some ep),
     broadcasts := upd st.broadcasts (p.channel, p.start, p.stop) (some ⟨some p.key⟩) })

/-- What an entry does to the statistics and the store. -/
def apply_entry (e : xmltv_entry) (stats : epggrab_stats_t) (st : guide_store) :
    Bool × epggrab_stats_t × guide_store :=
  match e with
  | .channel c => apply_channel c stats st
  | .programme p => apply_programme p stats st

/-- Two optional values agree when they are equal wherever both are given. -/
def agree {α : Type} [DecidableEq α] (a b : Option α) : Bool :=
  match a, b with
  | some x, some y => decide (x = y)
  | _, _ => true

/-- Two entries are compatible when they do not ask the store to hold different values
in one record: channel entries with the same id agree on name and icon; programme
entries with the same episode key have the same title and agree on description,
category, part and number wherever both give one; programme entries with the same
channel and interval have the same episode key. -/
def xmltv_entry.compatible : xmltv_entry → xmltv_entry → Bool
  | .channel a, .channel b => decide (a.id = b.id → agree a.name b.name ∧ agree a.icon b.icon)
  | .programme a, .programme b =>
    decide (a.key = b.key →
      a.title = b.title ∧ agree a.desc b.desc ∧ agree a.category b.category ∧
      (a.pn ≠ 0 → b.pn ≠ 0 → a.pn = b.pn ∧ a.pc = b.pc) ∧
      (a.en ≠ 0 → b.en ≠ 0 → a.en = b.en)) &&
    decide ((a.channel, a.start, a.stop) = (b.channel, b.start, b.stop) → a.key = b.key)
  | _, _ => true

/-- A document is free of conflicts, in a store, when its entries are pairwise
compatible. -/
def conflict_free (env : xmltv_env) (st : guide_store) (body : htsmsg_t) : Prop :=
  (document_entries env st body).Pairwise (fun a b => a.compatible b = true)

/-- The store holds what an entry asks for: for a channel entry the guide channel
exists with the name and icon given; for a programme entry the episode exists with the
fields given and the broadcast is linked to it. -/
def xmltv_entry.settled (e : xmltv_entry) (st : guide_store) : Prop :=
  match e with
  | .channel c => ∃ r, st.channels c.id = some r ∧ merged_channel c.name c.icon r = r
  | .programme p =>
    (∃ r, st.episodes p.key = some r ∧
      merged_episode p.title p.desc p.category p.pn p.pc p.en r = r) ∧
    st.broadcasts (p.channel, p.start, p.stop) = some ⟨some p.key⟩

/-- The loop of `_xmltv_parse_tv` over the entries of a document. -/
def run_entries (es : List xmltv_entry) (acc : Bool × epggrab_stats_t × guide_store) :
    Bool × epggrab_stats_t × guide_store :=
  es.foldl (fun acc e =>
    (acc.1 || (apply_entry e acc.2.1 acc.2.2).1, (apply_entry e acc.2.1 acc.2.2).2)) acc

/-- No created and no modified counter differs between two accumulators. -/
def same_changes (s t : epggrab_stats_t) : Prop :=
  t.channels.created = s.channels.created ∧ t.channels.modified = s.channels.modified ∧
  t.episodes.created = s.episodes.created ∧ t.episodes.modified = s.episodes.modified ∧
  t.broadcasts.created = s.broadcasts.created ∧ t.broadcasts.modified = s.broadcasts.modified

/-- A document with two programmes on the linked channel `c1` that share the
description `Plot` and have the titles `A` and `B`. -/
def shared_description_document : htsmsg_t :=
  [("tags", .map
    [("programme", .map (programme_body "c1" "20300101000000 +0000" "20300101010000 +0000"
        [cdata_tag "title" "A", cdata_tag "desc" "Plot"])),
     ("programme", .map (programme_body "c1" "20300101010000 +0000" "20300101020000 +0000"
        [cdata_tag "title" "B", cdata_tag "desc" "Plot"]))])]

/-- A document with a channel element for `c1`, two programmes on it with different
descriptions, a programme on the unlinked channel `c2` and an element that is neither a
channel nor a programme. -/
def plain_document : htsmsg_t :=
  [("tags", .map
    [("channel", .map [("attrib", .map [("id", .str "c1")]),
        ("tags", .map [cdata_tag "display-name" "Channel One",
          ("icon", .map [("attrib", .map [("src", .str "http://icons/one.png")])])])]),
     ("programme", .map (programme_body "c1" "20300101000000 +0000" "20300101010000 +0000"
        [cdata_tag "title" "A", cdata_tag "desc" "First plot",
          ("episode-num", .map [("attrib", .map [("system", .str "xmltv_ns")]),
            ("cdata", .str "0.4.1/2")])])),
     ("credits", .map []),
     ("programme", .map (programme_body "c2" "20300101000000 +0000" "20300101010000 +0000"
        [cdata_tag "title" "C"])),
     ("programme", .map (programme_body "c1" "20300101010000 +0000" "20300101020000 +0000"
        [cdata_tag "title" "B", cdata_tag "category" "News"]))])]

/-- The two records of the buffer of the specification: `/bin/a|Grabber A` and
`/bin/b`, each ended by a newline. -/
def spec_records : List grabber_record :=
  [⟨"/bin/a".toList, some "Grabber A".toList, '\n'⟩, ⟨"/bin/b".toList, none, '\n'⟩]

/-- The result of the reconciliation that `_xmltv_parse_tv` dispatches for one field, in
a given state of the statistics and the store: that of `_xmltv_parse_channel` for a
`channel`, of `_xmltv_parse_programme` for a `programme`; no reconciliation is
dispatched for another field. -/
def dispatched_changed (env : xmltv_env) (f : htsmsg_field_t) (stats : epggrab_stats_t)
    (st : guide_store) : Prop :=
  (f.1 = "channel" ∧
    (_xmltv_parse_channel (htsmsg_get_map_by_field f) stats st).1 = true) ∨
  (f.1 ≠ "channel" ∧ f.1 = "programme" ∧
    (_xmltv_parse_programme env (htsmsg_get_map_by_field f) stats st).1 = true)

/-! ## Segments of an episode number -/

/-- The first dot-separated segment of a string: the text before its first dot. -/
def first_segment (s : List Char) : List Char := s.takeWhile (fun c => c != '.')

/-- The text that follows the first dot of a string; empty when it has no dot. -/
def after_first_dot (s : List Char) : List Char := (s.dropWhile (fun c => c != '.')).drop 1

/-- The string `t` is the string `s` with space characters inserted at some
positions. -/
inductive space_inserted : List Char → List Char → Prop where
  | nil : space_inserted [] []
  | keep (c : Char) {s t : List Char} : space_inserted s t → space_inserted (c :: s) (c :: t)
  | insert {s t : List Char} : space_inserted s t → space_inserted s (' ' :: t)

/-! ## The order of the counters -/

/-- The counters of one category are in order: created, modified, total. -/
def part_ordered (p : epggrab_stats_part_t) : Prop :=
  p.created ≤ p.modified ∧ p.modified ≤ p.total

/-- The counters of the three categories are in order. -/
def stats_ordered (s : epggrab_stats_t) : Prop :=
  part_ordered s.channels ∧ part_ordered s.episodes ∧ part_ordered s.broadcasts

/-- From `p` to `q` no counter of the category decreases, what is counted as created is
counted as modified, and what is counted as modified is counted in the total. -/
def part_step (p q : epggrab_stats_part_t) : Prop :=
  p.created ≤ q.created ∧ p.modified ≤ q.modified ∧ p.total ≤ q.total ∧
  q.created - p.created ≤ q.modified - p.modified ∧
  q.modified - p.modified ≤ q.total - p.total

/-- The relation `part_step` for the three categories. -/
def stats_step (s t : epggrab_stats_t) : Prop :=
  part_step s.channels t.channels ∧ part_step s.episodes t.episodes ∧
  part_step s.broadcasts t.broadcasts

/-! ## Tag sets that differ in season and count information -/

/-- The text after the slash of a component, slash included: empty, or a slash and a
text without a dot. -/
def is_denominator (d : List Char) : Prop :=
  (d = [] ∨ ∃ c, d = '/' :: c) ∧ ∀ x ∈ d, x ≠ '.'

/-- Two `xmltv_ns` texts differ only in the season component or in the episode-count
denominator: either neither has a dot (each is a season component alone), or they are
`S1.E D1 T` and `S2.E D2 T` with season components `S1`, `S2`, the same episode numerator
`E`, episode-count denominators `D1`, `D2` and the same rest `T`, which is empty or begins
with the dot before the part component. -/
def season_count_variant (t1 t2 : List Char) : Prop :=
  ((∀ x ∈ t1, x ≠ '.') ∧ (∀ x ∈ t2, x ≠ '.')) ∨
  ∃ s1 s2 e d1 d2 t,
    t1 = s1 ++ '.' :: (e ++ (d1 ++ t)) ∧ t2 = s2 ++ '.' :: (e ++ (d2 ++ t)) ∧
    (∀ x ∈ s1, x ≠ '.') ∧ (∀ x ∈ s2, x ≠ '.') ∧ (∀ x ∈ e, x ≠ '.' ∧ x ≠ '/') ∧
    is_denominator d1 ∧ is_denominator d2 ∧ (t = [] ∨ ∃ p, t = '.' :: p)

/-- Two `episode-num` fields with the same attributes that differ only in what the
reconciliation does not use: the text of an `onscreen` number, or the season component
and the episode-count denominator of an `xmltv_ns` number. -/
def episode_num_variant (f g : htsmsg_field_t) : Prop :=
  f.1 = "episode-num" ∧ g.1 = "episode-num" ∧
  ∃ cf cg a sys t1 t2,
    f.2 = htsmsg_value.map cf ∧ g.2 = htsmsg_value.map cg ∧
    htsmsg_get_map cf "attrib" = some a ∧ htsmsg_get_map cg "attrib" = some a ∧
    htsmsg_get_str a "system" = some sys ∧
    htsmsg_get_str cf "cdata" = some t1 ∧ htsmsg_get_str cg "cdata" = some t2 ∧
    (sys = "onscreen" ∨ (sys = "xmltv_ns" ∧ season_count_variant t1.toList t2.toList))

/-- An `episode-num` field whose `system` attribute is `onscreen`. -/
def is_onscreen (f : htsmsg_field_t) : Prop :=
  f.1 = "episode-num" ∧
  ∃ cf a, f.2 = htsmsg_value.map cf ∧ htsmsg_get_map cf "attrib" = some a ∧
    htsmsg_get_str a "system" = some "onscreen"

/-- Two tag sets differ only in season and count information: they have the same
fields in the same order, except for `episode-num` fields that are variants of each
other and for `onscreen` `episode-num` fields that only one of them has. -/
inductive season_variant_tags : htsmsg_t → htsmsg_t → Prop where
  | nil : season_variant_tags [] []
  | same (f : htsmsg_field_t) {l1 l2 : htsmsg_t} :
      season_variant_tags l1 l2 → season_variant_tags (f :: l1) (f :: l2)
  | variant {f g : htsmsg_field_t} {l1 l2 : htsmsg_t} :
      episode_num_variant f g → season_variant_tags l1 l2 →
      season_variant_tags (f :: l1) (g :: l2)
  | left {f : htsmsg_field_t} {l1 l2 : htsmsg_t} :
      is_onscreen f → season_variant_tags l1 l2 → season_variant_tags (f :: l1) l2
  | right {g : htsmsg_field_t} {l1 l2 : htsmsg_t} :
      is_onscreen g → season_variant_tags l1 l2 → season_variant_tags l1 (g :: l2)

/-- An `episode-num` element with its `system` attribute and its text. -/
def episode_num_tag (system text : String) : htsmsg_field_t :=
  ("episode-num", .map [("attrib", .map [("system", .str system)]), ("cdata", .str text)])

/-- Two states of the variables of `get_episode_info` agree on the episode number, the
part number and the part count. -/
def same_numbers (a b : episode_info) : Prop :=
  a.num.en = b.num.en ∧ a.num.pn = b.num.pn ∧ a.num.pc = b.num.pc

/-- A programme with an `xmltv_ns` number with a season and an `onscreen` number. -/
def first_season_tags : htsmsg_t :=
  [cdata_tag "title" "News", cdata_tag "desc" "Evening news",
   episode_num_tag "xmltv_ns" "1.4.0/2", episode_num_tag "onscreen" "S2E5"]

/-- The same programme with another season, an episode count, another `onscreen`
number and a second `onscreen` number. -/
def other_season_tags : htsmsg_t :=
  [cdata_tag "title" "News", cdata_tag "desc" "Evening news",
   episode_num_tag "xmltv_ns" "7/9.4/12.0/2", episode_num_tag "onscreen" "Season 8",
   episode_num_tag "onscreen" "Episode 5"]

/-! # Theorems -/

/-! ## The time decoder -/

/-- The indeterminate initial value of `tz` never reaches the result of
`_xmltv_str2time`: it is read only when the scan has assigned `tz`. -/
theorem str2time_initial_tz_unused (mktime : tm → Int) (a b : Int) (s : List Char) :
    _xmltv_str2time mktime a s = _xmltv_str2time mktime b s := by
  unfold _xmltv_str2time xmltv_sscanf
  cases scan_int (some 4) s with
  | input_failure => rfl
  | matching_failure => rfl
  | ok year s1 =>
    simp only
    cases scan_int (some 2) s1 with
    | input_failure => rfl
    | matching_failure => rfl
    | ok mon s2 =>
      simp only
      cases scan_int (some 2) s2 with
      | input_failure => rfl
      | matching_failure => rfl
      | ok mday s3 =>
        simp only
        cases scan_int (some 2) s3 with
        | input_failure => rfl
        | matching_failure => rfl
        | ok hour s4 =>
          simp only
          cases scan_int (some 2) s4 with
          | input_failure => rfl
          | matching_failure => rfl
          | ok min s5 =>
            simp only
            cases scan_int (some 2) s5 with
            | input_failure => rfl
            | matching_failure => rfl
            | ok sec s6 =>
              simp only
              cases scan_int none (skip_space s6) with
              | input_failure => rfl
              | matching_failure => rfl
              | ok tz s7 => rfl

/-! ## The guards of `_xmltv_parse_programme` -/

theorem channel_find_nocreate_store (id : String) (st : guide_store) :
    (_xmltv_channel_find id false st).2.2 = st := by
  unfold _xmltv_channel_find epggrab_module_channel_find
  cases st.channels id <;> simp

/-- A programme entry with its three attributes either is skipped before the interval
check or reaches it with a resolved channel. -/
theorem parse_programme_reaches_guard (env : xmltv_env) (body attribs : htsmsg_t)
    (s1 s2 : String) (stats : epggrab_stats_t) (st : guide_store)
    (hattr : htsmsg_get_map body "attrib" = some attribs)
    (hstart : htsmsg_get_str attribs "start" = some s1)
    (hstop : htsmsg_get_str attribs "stop" = some s2) :
    _xmltv_parse_programme env (some body) stats st = (false, stats, st) ∨
    ∃ channel tags,
      _xmltv_parse_programme env (some body) stats st =
        if _xmltv_str2time env.mktime env.tz0 s2.toList
              ≤ _xmltv_str2time env.mktime env.tz0 s1.toList
            ∨ _xmltv_str2time env.mktime env.tz0 s2.toList < env.dispatch_clock
        then (false, stats, st)
        else _xmltv_parse_programme_tags env channel tags
          (_xmltv_str2time env.mktime env.tz0 s1.toList)
          (_xmltv_str2time env.mktime env.tz0 s2.toList) stats st := by
  unfold _xmltv_parse_programme
  simp only [hattr]
  cases htsmsg_get_map body "tags" with
  | none => exact Or.inl rfl
  | some tags =>
    cases htsmsg_get_str attribs "channel" with
    | none => exact Or.inl rfl
    | some chid =>
      have hst := channel_find_nocreate_store chid st
      rcases hfind : _xmltv_channel_find chid false st with ⟨h, sv, st1⟩
      rw [hfind] at hst
      simp only at hst
      subst hst
      simp only [hfind]
      cases h with
      | none => exact Or.inl rfl
      | some ch =>
        simp only
        cases (st1.channels ch).bind (fun r => r.channel) with
        | none => exact Or.inl rfl
        | some channel =>
          simp only [hstart, hstop]
          exact Or.inr ⟨channel, tags, rfl⟩

/-! ## C1: interval validity -/

/-- C1: a programme entry whose decoded interval has `stop <= start`, or whose stop is
earlier than the dispatch clock, is rejected by `_xmltv_parse_programme`: the result is
0, the store (episodes and broadcasts included) is the one it was given, and the
statistics are unchanged. -/
theorem C1_invalid_interval_rejected (env : xmltv_env) (body attribs : htsmsg_t)
    (s1 s2 : String) (stats : epggrab_stats_t) (st : guide_store)
    (hattr : htsmsg_get_map body "attrib" = some attribs)
    (hstart : htsmsg_get_str attribs "start" = some s1)
    (hstop : htsmsg_get_str attribs "stop" = some s2)
    (hbad : _xmltv_str2time env.mktime env.tz0 s2.toList
              ≤ _xmltv_str2time env.mktime env.tz0 s1.toList
            ∨ _xmltv_str2time env.mktime env.tz0 s2.toList < env.dispatch_clock) :
    _xmltv_parse_programme env (some body) stats st = (false, stats, st) := by
  rcases parse_programme_reaches_guard env body attribs s1 s2 stats st hattr hstart hstop with
    h | ⟨channel, tags, h⟩
  · exact h
  · rw [h, if_pos hbad]

/-- C1 at a concrete entry: on a linked channel, a programme that stops when it starts
is rejected. -/
theorem C1_invalid_interval_rejected_witness :
    _xmltv_parse_programme sample_env
        (some (programme_body "c1" "20300101000000 +0000" "20300101000000 +0000"
          [cdata_tag "title" "News"]))
        zero_stats sample_store
      = (false, zero_stats, sample_store) :=
  C1_invalid_interval_rejected sample_env _
    [("channel", .str "c1"), ("start", .str "20300101000000 +0000"),
      ("stop", .str "20300101000000 +0000")]
    "20300101000000 +0000" "20300101000000 +0000" zero_stats sample_store
    (by rfl) (by rfl) (by rfl) (Or.inl (by decide))

/-! ## C7: unparsable timestamps -/

/-- C7, as the code has it: a programme entry whose stop attribute decodes to the
sentinel 0 is skipped by the interval check whenever the dispatch clock is later than
the epoch or the decoded start is not before the epoch: the result is 0, the store is
the one given (no Episode, no Broadcast) and the statistics are unchanged. -/
theorem C7_unparsable_stop_rejected (env : xmltv_env) (body attribs : htsmsg_t)
    (s1 s2 : String) (stats : epggrab_stats_t) (st : guide_store)
    (hattr : htsmsg_get_map body "attrib" = some attribs)
    (hstart : htsmsg_get_str attribs "start" = some s1)
    (hstop : htsmsg_get_str attribs "stop" = some s2)
    (hbad : _xmltv_str2time env.mktime env.tz0 s2.toList = 0)
    (hclock : 0 < env.dispatch_clock ∨ 0 ≤ _xmltv_str2time env.mktime env.tz0 s1.toList) :
    _xmltv_parse_programme env (some body) stats st = (false, stats, st) := by
  rcases parse_programme_reaches_guard env body attribs s1 s2 stats st hattr hstart hstop with
    h | ⟨channel, tags, h⟩
  · exact h
  · rw [h, if_pos]
    rw [hbad]
    rcases hclock with hc | hs
    · exact Or.inr hc
    · exact Or.inl hs

/-- C7 at a concrete entry: a stop attribute that is not a timestamp. -/
theorem C7_unparsable_stop_rejected_witness :
    _xmltv_parse_programme sample_env
        (some (programme_body "c1" "20300101000000 +0000" "soon"
          [cdata_tag "title" "News"]))
        zero_stats sample_store
      = (false, zero_stats, sample_store) :=
  C7_unparsable_stop_rejected sample_env _
    [("channel", .str "c1"), ("start", .str "20300101000000 +0000"), ("stop", .str "soon")]
    "20300101000000 +0000" "soon" zero_stats sample_store
    (by rfl) (by rfl) (by rfl) (by decide) (Or.inl (by decide))

/-- C7 fails for the start attribute: an entry whose start is unparsable (it decodes
to 0) and whose stop is a valid future instant passes the interval check; an Episode
and a Broadcast are created and counted. It also fails for an unparsable stop when the
dispatch clock reads 0 and the start is before the epoch. -/
theorem C7_unparsable_start_accepted :
    _xmltv_str2time sample_env.mktime sample_env.tz0 "garbage".toList = 0 ∧
    (_xmltv_parse_programme sample_env
        (some (programme_body "c1" "garbage" "20300101000000 +0000"
          [cdata_tag "title" "News"]))
        zero_stats sample_store).1 = true ∧
    (_xmltv_parse_programme sample_env
        (some (programme_body "c1" "garbage" "20300101000000 +0000"
          [cdata_tag "title" "News"]))
        zero_stats sample_store).2.1 = ⟨⟨0, 0, 0⟩, ⟨1, 1, 1⟩, ⟨1, 1, 1⟩⟩ ∧
    ((_xmltv_parse_programme sample_env
        (some (programme_body "c1" "garbage" "20300101000000 +0000"
          [cdata_tag "title" "News"]))
        zero_stats sample_store).2.2.episodes "News").isSome = true ∧
    ((_xmltv_parse_programme sample_env
        (some (programme_body "c1" "garbage" "20300101000000 +0000"
          [cdata_tag "title" "News"]))
        zero_stats sample_store).2.2.broadcasts (7, 0, 1893456000)) = some ⟨some "News"⟩ ∧
    (_xmltv_parse_programme { sample_env with dispatch_clock := 0 }
        (some (programme_body "c1" "19600101000000 +0000" "garbage"
          [cdata_tag "title" "News"]))
        zero_stats sample_store).2.1 = ⟨⟨0, 0, 0⟩, ⟨1, 1, 1⟩, ⟨1, 1, 1⟩⟩ := by
  decide

/-! ## C8: the title is mandatory -/

/-- C8: for a tag set without a title, `_xmltv_parse_programme_tags` returns 0, and the
store and the statistics are the ones it was given, whatever the other tags are. -/
theorem C8_no_title_ignored (env : xmltv_env) (ch : channel_t) (tags : htsmsg_t)
    (start stop : Int) (stats : epggrab_stats_t) (st : guide_store)
    (htitle : htsmsg_xml_get_cdata_str tags "title" = none) :
    _xmltv_parse_programme_tags env ch tags start stop stats st = (false, stats, st) := by
  unfold _xmltv_parse_programme_tags
  simp only [htitle]

/-- C8 at a concrete tag set with a description, a category and an episode number but
no title. -/
theorem C8_no_title_ignored_witness :
    _xmltv_parse_programme_tags sample_env 7
        [cdata_tag "desc" "A story", cdata_tag "category" "Drama",
          ("episode-num", .map [("attrib", .map [("system", .str "xmltv_ns")]),
            ("cdata", .str "1.2.3")])]
        1893456000 1893459600 zero_stats sample_store
      = (false, zero_stats, sample_store) :=
  C8_no_title_ignored sample_env 7 _ 1893456000 1893459600 zero_stats sample_store (by rfl)

/-! ## Scanning runs of digits -/

theorem is_digit_not_space {c : Char} (h : is_digit c = true) : is_space c = false := by
  cases hs : is_space c with
  | false => rfl
  | true =>
    exfalso
    simp only [is_space, Bool.or_eq_true, beq_iff_eq] at hs
    rcases hs with ((((rfl | rfl) | rfl) | rfl) | rfl) | rfl <;> exact absurd h (by decide)

theorem is_digit_not_sign {c : Char} (h : is_digit c = true) :
    (c == '+' || c == '-') = false := by
  cases hs : (c == '+' || c == '-') with
  | false => rfl
  | true =>
    exfalso
    simp only [Bool.or_eq_true, beq_iff_eq] at hs
    rcases hs with rfl | rfl <;> exact absurd h (by decide)

theorem scan_digits_all_digits (s : List Char) :
    ∀ w : Nat, (∀ c ∈ s, is_digit c = true) →
      scan_digits (some w) s = (s.take w, s.drop w) := by
  induction s with
  | nil => intro w _; cases w <;> simp [scan_digits]
  | cons c t ih =>
    intro w hs
    cases w with
    | zero => simp [scan_digits]
    | succ w =>
      have hc : is_digit c = true := hs c (List.mem_cons_self _ _)
      have ht : ∀ x ∈ t, is_digit x = true := fun x hx => hs x (List.mem_cons_of_mem _ hx)
      simp [scan_digits, hc, ih w ht]

theorem scan_int_nil (w : Option Nat) : scan_int w [] = scan_result.input_failure := rfl

theorem scan_int_all_digits (w : Nat) (hw : 0 < w) (s : List Char)
    (hs : ∀ c ∈ s, is_digit c = true) (hne : s ≠ []) :
    ∃ v, scan_int (some w) s = scan_result.ok v (s.drop w) := by
  cases s with
  | nil => exact absurd rfl hne
  | cons c t =>
    have hc : is_digit c = true := hs c (List.mem_cons_self _ _)
    have hsp : skip_space (c :: t) = c :: t := by simp [skip_space, is_digit_not_space hc]
    obtain ⟨w, rfl⟩ : ∃ k, w = k + 1 := ⟨w - 1, by omega⟩
    unfold scan_int
    rw [hsp]
    simp only [is_digit_not_sign hc, Bool.false_eq_true, if_false]
    rw [scan_digits_all_digits (c :: t) (w + 1) hs]
    simp

/-- A string of fewer than thirteen characters, all digits, gives fewer than six
fields. -/
theorem sscanf_short_digits (tz0 : Int) (s : List Char)
    (hs : ∀ c ∈ s, is_digit c = true) (hlen : s.length < 13) :
    (xmltv_sscanf tz0 s).1 < 6 := by
  have hdrop : ∀ k, ∀ c ∈ s.drop k, is_digit c = true :=
    fun k c hc => hs c (List.mem_of_mem_drop hc)
  unfold xmltv_sscanf
  by_cases h0 : s = []
  · subst h0; simp [scan_int_nil]
  obtain ⟨v1, e1⟩ := scan_int_all_digits 4 (by decide) s hs h0
  simp only [e1]
  by_cases h1 : s.drop 4 = []
  · simp [h1, scan_int_nil]
  obtain ⟨v2, e2⟩ := scan_int_all_digits 2 (by decide) _ (hdrop 4) h1
  simp only [e2, List.drop_drop]
  by_cases h2 : s.drop 6 = []
  · simp [h2, scan_int_nil]
  obtain ⟨v3, e3⟩ := scan_int_all_digits 2 (by decide) _ (hdrop 6) h2
  simp only [e3, List.drop_drop]
  by_cases h3 : s.drop 8 = []
  · simp [h3, scan_int_nil]
  obtain ⟨v4, e4⟩ := scan_int_all_digits 2 (by decide) _ (hdrop 8) h3
  simp only [e4, List.drop_drop]
  by_cases h4 : s.drop 10 = []
  · simp [h4, scan_int_nil]
  obtain ⟨v5, e5⟩ := scan_int_all_digits 2 (by decide) _ (hdrop 10) h4
  simp only [e5, List.drop_drop]
  have h5 : s.drop 12 = [] := List.drop_eq_nil_of_le (by omega)
  simp [h5, scan_int_nil]

/-- A string whose first character is neither white space, a sign nor a digit gives
no field. -/
theorem sscanf_bad_first_char (tz0 : Int) (c : Char) (s : List Char)
    (hd : is_digit c = false) (hsp : is_space c = false) (hplus : c ≠ '+')
    (hminus : c ≠ '-') : (xmltv_sscanf tz0 (c :: s)).1 = 0 := by
  have hscan : scan_int (some 4) (c :: s) = scan_result.matching_failure := by
    simp [scan_int, skip_space, hsp, hplus, hminus, scan_digits, hd]
  simp [xmltv_sscanf, hscan]

/-! ## C6: strings that are not timestamps -/

/-- C6: whenever the scan yields a field count other than 6 or 7, `_xmltv_str2time`
returns 0; that is the case of the empty string, of a string of fewer than thirteen
characters that are all digits, and of a string whose first character is neither a
digit, a sign nor white space. The function is total, so it returns and does not
fail. -/
theorem C6_unparsable_is_epoch_zero (mktime : tm → Int) (tz0 : Int) :
    (∀ s, (xmltv_sscanf tz0 s).1 ≠ 6 → (xmltv_sscanf tz0 s).1 ≠ 7 →
      _xmltv_str2time mktime tz0 s = 0) ∧
    _xmltv_str2time mktime tz0 [] = 0 ∧
    (∀ s, (∀ c ∈ s, is_digit c = true) → s.length < 13 →
      _xmltv_str2time mktime tz0 s = 0) ∧
    (∀ c s, is_digit c = false → is_space c = false → c ≠ '+' → c ≠ '-' →
      _xmltv_str2time mktime tz0 (c :: s) = 0) := by
  have main : ∀ s, (xmltv_sscanf tz0 s).1 ≠ 6 → (xmltv_sscanf tz0 s).1 ≠ 7 →
      _xmltv_str2time mktime tz0 s = 0 := by
    intro s h6 h7
    unfold _xmltv_str2time
    simp only [if_neg h6, if_neg h7]
  refine ⟨main, rfl, ?_, ?_⟩
  · intro s hs hlen
    have h := sscanf_short_digits tz0 s hs hlen
    exact main s (by omega) (by omega)
  · intro c s hd hsp hplus hminus
    have h := sscanf_bad_first_char tz0 c s hd hsp hplus hminus
    exact main (c :: s) (by omega) (by omega)

/-- C6 at concrete strings: twelve digits, and a word. -/
theorem C6_unparsable_is_epoch_zero_witness :
    _xmltv_str2time timegm 0 "202301151200".toList = 0 ∧
    _xmltv_str2time timegm 0 "tomorrow".toList = 0 :=
  ⟨(C6_unparsable_is_epoch_zero timegm 0).2.2.1 "202301151200".toList (by decide) (by decide),
   (C6_unparsable_is_epoch_zero timegm 0).2.2.2 't' "omorrow".toList (by decide) (by decide)
     (by decide) (by decide)⟩

/-- The widths of the conversions are maxima: for a string of thirteen digits the scan
yields six fields (the seconds field takes the single last digit), so the string is
decoded as a local civil time by `mktime`; where the local time is UTC the result is
1673784000. A timestamp after a blank yields six fields as well, since the scan skips
the blank. Both strings have the field count 6 and are decoded as timestamps. -/
theorem sscanf_thirteen_digits :
    (∀ c ∈ "2023011512000".toList, is_digit c = true) ∧
    "2023011512000".toList.length < 14 ∧
    (xmltv_sscanf 0 "2023011512000".toList).1 = 6 ∧
    (∀ mktime : tm → Int, _xmltv_str2time mktime 0 "2023011512000".toList
      = mktime ⟨123, 0, 15, 12, 0, 0, -1⟩) ∧
    _xmltv_str2time timegm 0 "2023011512000".toList = 1673784000 ∧
    (xmltv_sscanf 0 " 20230115120000".toList).1 = 6 ∧
    _xmltv_str2time timegm 0 " 20230115120000".toList = 1673784000 := by
  refine ⟨by decide, by decide, by decide, fun mktime => rfl, by decide, by decide, by decide⟩

/-! ## C5: timestamps with an offset -/

theorem digit_char_facts (d : Nat) (hd : d < 10) :
    is_digit (digit_char d) = true ∧ digit_val (digit_char d) = d := by
  interval_cases d <;> exact ⟨by decide, by decide⟩

theorem is_digit_ne_sign {c : Char} (h : is_digit c = true) : c ≠ '+' ∧ c ≠ '-' := by
  constructor <;> (rintro rfl; exact absurd h (by decide))

theorem skip_space_cons (c : Char) (t : List Char) :
    skip_space (c :: t) = if is_space c then skip_space t else c :: t := rfl

theorem scan_int_two (c1 c2 : Char) (rest : List Char)
    (h1 : is_digit c1 = true) (h2 : is_digit c2 = true) :
    scan_int (some 2) (c1 :: c2 :: rest)
      = scan_result.ok (wrap32 (clamp64 (digits_value [c1, c2]))) rest := by
  have hsp : skip_space (c1 :: c2 :: rest) = c1 :: c2 :: rest := by
    simp [skip_space, is_digit_not_space h1]
  obtain ⟨hplus, hminus⟩ := is_digit_ne_sign h1
  have hd : scan_digits (some 2) (c1 :: c2 :: rest) = ([c1, c2], rest) := by
    cases rest <;> simp [scan_digits, h1, h2]
  unfold scan_int
  rw [hsp]
  simp [hplus, hminus, hd]

theorem scan_int_four (c1 c2 c3 c4 : Char) (rest : List Char)
    (h1 : is_digit c1 = true) (h2 : is_digit c2 = true)
    (h3 : is_digit c3 = true) (h4 : is_digit c4 = true) :
    scan_int (some 4) (c1 :: c2 :: c3 :: c4 :: rest)
      = scan_result.ok (wrap32 (clamp64 (digits_value [c1, c2, c3, c4]))) rest := by
  have hsp : skip_space (c1 :: c2 :: c3 :: c4 :: rest) = c1 :: c2 :: c3 :: c4 :: rest := by
    simp [skip_space, is_digit_not_space h1]
  obtain ⟨hplus, hminus⟩ := is_digit_ne_sign h1
  have hd : scan_digits (some 4) (c1 :: c2 :: c3 :: c4 :: rest) = ([c1, c2, c3, c4], rest) := by
    cases rest <;> simp [scan_digits, h1, h2, h3, h4]
  unfold scan_int
  rw [hsp]
  simp [hplus, hminus, hd]

theorem scan_int_offset (neg : Bool) (c1 c2 c3 c4 : Char)
    (h1 : is_digit c1 = true) (h2 : is_digit c2 = true)
    (h3 : is_digit c3 = true) (h4 : is_digit c4 = true) :
    scan_int none (skip_space [' ', if neg then '-' else '+', c1, c2, c3, c4])
      = scan_result.ok (wrap32 (clamp64
          (if neg then -digits_value [c1, c2, c3, c4] else digits_value [c1, c2, c3, c4]))) [] := by
  have hd : scan_digits none [c1, c2, c3, c4] = ([c1, c2, c3, c4], []) := by
    simp [scan_digits, h1, h2, h3, h4]
  cases neg
  · simp only [Bool.false_eq_true, if_false]
    rw [skip_space_cons, if_pos (by decide), skip_space_cons, if_neg (by decide)]
    unfold scan_int
    rw [skip_space_cons, if_neg (by decide)]
    simp [hd]
  · simp only [if_true]
    rw [skip_space_cons, if_pos (by decide), skip_space_cons, if_neg (by decide)]
    unfold scan_int
    rw [skip_space_cons, if_neg (by decide)]
    simp [hd]

theorem wrap32_clamp64_small (v : Int) (h1 : -2147483648 ≤ v) (h2 : v ≤ 2147483647) :
    wrap32 (clamp64 v) = v := by
  unfold wrap32 clamp64
  split_ifs <;> omega

theorem wrap32_small (v : Int) (h1 : -2147483648 ≤ v) (h2 : v ≤ 2147483647) :
    wrap32 v = v := by
  unfold wrap32
  omega

theorem digits_value_two (n : Nat) (hn : n < 100) :
    digits_value (two_digits n) = n := by
  have h1 := (digit_char_facts (n / 10) (by omega)).2
  have h2 := (digit_char_facts (n % 10) (Nat.mod_lt _ (by decide))).2
  simp only [digits_value, two_digits, List.foldl_cons, List.foldl_nil, h1, h2]
  omega

/-- What the scan reads from a timestamp with an offset: seven fields. -/
theorem sscanf_timestamp_text (tz0 : Int) (Y M D h m s oh om : Nat) (neg : Bool)
    (hY : Y < 10000) (hM : M < 100) (hD : D < 100) (hh : h < 100) (hm : m < 100)
    (hs : s < 100) (hoh : oh < 100) (hom : om < 100) :
    xmltv_sscanf tz0 (timestamp_text Y M D h m s neg oh om)
      = (7, ⟨Y, M, D, h, m, s, if neg then -(100 * oh + om : Int) else (100 * oh + om : Int)⟩) := by
  have dg : ∀ d, d < 10 → is_digit (digit_char d) = true := fun d hd => (digit_char_facts d hd).1
  have dv : ∀ d, d < 10 → digit_val (digit_char d) = d := fun d hd => (digit_char_facts d hd).2
  have m10 : ∀ n : Nat, n % 10 < 10 := fun n => Nat.mod_lt _ (by decide)
  have d10 : ∀ n : Nat, n < 100 → n / 10 < 10 := fun n hn => by omega
  have hY1 : Y / 100 < 100 := by omega
  have hY2 : Y % 100 < 100 := Nat.mod_lt _ (by decide)
  have e1 := scan_int_four (digit_char (Y / 100 / 10)) (digit_char (Y / 100 % 10))
    (digit_char (Y % 100 / 10)) (digit_char (Y % 100 % 10))
  have e2 := scan_int_two
  have e3 := scan_int_offset neg (digit_char (oh / 10)) (digit_char (oh % 10))
    (digit_char (om / 10)) (digit_char (om % 10)) (dg _ (d10 _ hoh)) (dg _ (m10 _))
    (dg _ (d10 _ hom)) (dg _ (m10 _))
  unfold xmltv_sscanf timestamp_text four_digits two_digits
  simp only [List.cons_append, List.nil_append, List.append_assoc]
  rw [e1 _ (dg _ (d10 _ hY1)) (dg _ (m10 _)) (dg _ (d10 _ hY2)) (dg _ (m10 _))]
  simp only
  rw [e2 _ _ _ (dg _ (d10 _ hM)) (dg _ (m10 _))]
  simp only
  rw [e2 _ _ _ (dg _ (d10 _ hD)) (dg _ (m10 _))]
  simp only
  rw [e2 _ _ _ (dg _ (d10 _ hh)) (dg _ (m10 _))]
  simp only
  rw [e2 _ _ _ (dg _ (d10 _ hm)) (dg _ (m10 _))]
  simp only
  rw [e2 _ _ _ (dg _ (d10 _ hs)) (dg _ (m10 _))]
  simp only
  rw [e3]
  simp only [digits_value, List.foldl_cons, List.foldl_nil, dv _ (d10 _ hY1), dv _ (m10 _),
    dv _ (d10 _ hY2), dv _ (d10 _ hM), dv _ (d10 _ hD), dv _ (d10 _ hh), dv _ (d10 _ hm),
    dv _ (d10 _ hs), dv _ (d10 _ hoh), dv _ (d10 _ hom)]
  have w1 : ∀ v : Int, -2147483648 ≤ v → v ≤ 2147483647 → wrap32 (clamp64 v) = v :=
    wrap32_clamp64_small
  rw [w1 _ (by omega) (by omega), w1 _ (by omega) (by omega), w1 _ (by omega) (by omega),
    w1 _ (by omega) (by omega), w1 _ (by omega) (by omega), w1 _ (by omega) (by omega),
    w1 _ (by split <;> omega) (by split <;> omega)]
  refine Prod.ext rfl ?_
  simp only
  congr 1
  · omega
  · omega
  · omega
  · omega
  · omega
  · omega
  · split <;> omega

/-- C truncating division and remainder of an offset `HHMM` by 100. -/
theorem offset_tdiv_tmod (neg : Bool) (oh om : Nat) (hom : om < 100) :
    Int.tdiv (if neg then -(100 * oh + om : Int) else (100 * oh + om : Int)) 100
        = (if neg then -(oh : Int) else (oh : Int)) ∧
    Int.tmod (if neg then -(100 * oh + om : Int) else (100 * oh + om : Int)) 100
        = (if neg then -(om : Int) else (om : Int)) := by
  have hd : Int.tdiv (100 * oh + om : Int) 100 = oh := by
    rw [Int.tdiv_eq_ediv (by omega) (by decide)]
    omega
  cases neg
  · simp only [Bool.false_eq_true, if_false]
    refine ⟨hd, ?_⟩
    rw [Int.tmod_def, hd]
    omega
  · simp only [if_true]
    have hn : Int.tdiv (-(100 * oh + om : Int)) 100 = -(oh : Int) := by
      rw [Int.neg_tdiv, hd]
    refine ⟨hn, ?_⟩
    rw [Int.tmod_def, hn]
    omega

/-- C5: for a timestamp `YYYYMMDDHHMMSS`, a blank and a signed offset `HHMM`,
`_xmltv_str2time` returns the UTC epoch seconds of the six civil fields (`timegm`)
minus `60 * ((tz % 100) + (tz / 100) * 60)` with C truncating division and remainder,
which is the UTC reading minus `sign * (60 * hours + minutes)` minutes. -/
theorem C5_offset_timestamp (mktime : tm → Int) (tz0 : Int) (Y M D h m s oh om : Nat)
    (neg : Bool) (hY : Y < 10000) (hM : M < 100) (hD : D < 100) (hh : h < 100)
    (hm : m < 100) (hs : s < 100) (hoh : oh < 100) (hom : om < 100) :
    _xmltv_str2time mktime tz0 (timestamp_text Y M D h m s neg oh om)
      = timegm ⟨(Y : Int) - 1900, (M : Int) - 1, D, h, m, s, -1⟩
        - 60 * (Int.tmod (if neg then -(100 * oh + om : Int) else (100 * oh + om : Int)) 100
            + Int.tdiv (if neg then -(100 * oh + om : Int) else (100 * oh + om : Int)) 100 * 60)
    ∧ _xmltv_str2time mktime tz0 (timestamp_text Y M D h m s neg oh om)
      = timegm ⟨(Y : Int) - 1900, (M : Int) - 1, D, h, m, s, -1⟩
        - (if neg then -1 else 1) * (60 * oh + om : Int) * 60 := by
  obtain ⟨hdiv, hmod⟩ := offset_tdiv_tmod neg oh om hom
  have key : _xmltv_str2time mktime tz0 (timestamp_text Y M D h m s neg oh om)
      = timegm ⟨(Y : Int) - 1900, (M : Int) - 1, D, h, m, s, -1⟩
        - (if neg then -1 else 1) * (60 * oh + om : Int) * 60 := by
    unfold _xmltv_str2time
    rw [sscanf_timestamp_text tz0 Y M D h m s oh om neg hY hM hD hh hm hs hoh hom]
    simp only [hdiv, hmod]
    rw [if_neg (by decide), if_pos trivial]
    rw [wrap32_small ((Y : Int) - 1900) (by omega) (by omega),
      wrap32_small ((M : Int) - 1) (by omega) (by omega)]
    cases neg
    · simp only [Bool.false_eq_true, if_false]
      rw [wrap32_small (om : Int) (by omega) (by omega),
        wrap32_small (oh : Int) (by omega) (by omega),
        wrap32_small ((oh : Int) * 60) (by omega) (by omega),
        wrap32_small ((om : Int) + (oh : Int) * 60) (by omega) (by omega),
        wrap32_small (((om : Int) + (oh : Int) * 60) * 60) (by omega) (by omega)]
      omega
    · simp only [if_true]
      rw [wrap32_small (-(om : Int)) (by omega) (by omega),
        wrap32_small (-(oh : Int)) (by omega) (by omega),
        wrap32_small (-(oh : Int) * 60) (by omega) (by omega),
        wrap32_small (-(om : Int) + -(oh : Int) * 60) (by omega) (by omega),
        wrap32_small ((-(om : Int) + -(oh : Int) * 60) * 60) (by omega) (by omega)]
      omega
  refine ⟨?_, key⟩
  rw [key, hdiv, hmod]
  cases neg
  · simp only [Bool.false_eq_true, if_false]; omega
  · simp only [if_true]; omega

/-- C5 at the timestamp of the specification: `20230115120000 +0200` decodes to
1673776800, the instant of `20230115100000 +0000`. -/
theorem C5_offset_timestamp_witness :
    _xmltv_str2time timegm 0 "20230115120000 +0200".toList = 1673776800 ∧
    _xmltv_str2time timegm 0 "20230115100000 +0000".toList = 1673776800 ∧
    timegm ⟨2023 - 1900, 1 - 1, 15, 12, 0, 0, -1⟩ - 2 * 3600 = 1673776800 :=
  ⟨(C5_offset_timestamp timegm 0 2023 1 15 12 0 0 2 0 false (by decide) (by decide)
      (by decide) (by decide) (by decide) (by decide) (by decide) (by decide)).2,
   (C5_offset_timestamp timegm 0 2023 1 15 10 0 0 0 0 false (by decide) (by decide)
      (by decide) (by decide) (by decide) (by decide) (by decide) (by decide)).2,
   by decide⟩

/-! ## Decimal text of a natural number -/

theorem is_digit_iff (c : Char) : is_digit c = true ↔ 48 ≤ c.toNat ∧ c.toNat ≤ 57 := by
  unfold is_digit
  simp only [Bool.and_eq_true, decide_eq_true_eq]
  exact Iff.rfl

theorem digitChar_is_digit (m : Nat) (hm : m < 10) :
    is_digit (Nat.digitChar m) = true ∧ digit_val (Nat.digitChar m) = m := by
  interval_cases m <;> exact ⟨by decide, by decide⟩

theorem digits_value_snoc (ds : List Char) (c : Char) :
    digits_value (ds ++ [c]) = digits_value ds * 10 + digit_val c := by
  simp [digits_value, List.foldl_append]

/-- The characters that `Nat.toDigitsCore` puts in front of its accumulator are a
non-empty run of digits whose value is the number rendered. -/
theorem toDigitsCore_run : ∀ (fuel n : Nat) (acc : List Char), n < fuel →
    ∃ ds : List Char, Nat.toDigitsCore 10 fuel n acc = ds ++ acc ∧ ds ≠ [] ∧
      (∀ c ∈ ds, is_digit c = true) ∧ digits_value ds = n := by
  intro fuel
  induction fuel with
  | zero => intro n acc h; omega
  | succ fuel ih =>
    intro n acc hn
    have hlast := digitChar_is_digit (n % 10) (Nat.mod_lt _ (by decide))
    unfold Nat.toDigitsCore
    by_cases hq : n / 10 = 0
    · refine ⟨[Nat.digitChar (n % 10)], by simp [hq], by simp, ?_, ?_⟩
      · intro c hc
        rw [List.mem_singleton] at hc
        rw [hc]; exact hlast.1
      · simp only [digits_value, List.foldl_cons, List.foldl_nil, hlast.2]
        omega
    · obtain ⟨ds, hds, hne, hdig, hval⟩ :=
        ih (n / 10) (Nat.digitChar (n % 10) :: acc) (by omega)
      refine ⟨ds ++ [Nat.digitChar (n % 10)], by simp [hq, hds], by simp, ?_, ?_⟩
      · intro c hc
        rcases List.mem_append.mp hc with h | h
        · exact hdig c h
        · rw [List.mem_singleton] at h
          rw [h]; exact hlast.1
      · rw [digits_value_snoc, hval, hlast.2]
        omega

/-- The decimal text of `n` is a non-empty run of digits of value `n`. -/
theorem repr_run (n : Nat) :
    (toString n).toList ≠ [] ∧ (∀ c ∈ (toString n).toList, is_digit c = true) ∧
      digits_value (toString n).toList = n := by
  obtain ⟨ds, hds, hne, hdig, hval⟩ := toDigitsCore_run (n + 1) n [] (by omega)
  have h : (toString n).toList = ds := by
    show (Nat.repr n).toList = ds
    simp [Nat.repr, Nat.toDigits, hds, List.asString]
  rw [h]
  exact ⟨hne, hdig, hval⟩

/-! ## Reading a number of the episode numbering -/

/-- The value of a run of digits read after the value `a`. -/
theorem foldl_digits_ge (ds : List Char) : ∀ a : Int, 0 ≤ a →
    (∀ c ∈ ds, is_digit c = true) →
    a ≤ ds.foldl (fun acc c => acc * 10 + digit_val c) a := by
  induction ds with
  | nil => intro a _ _; exact le_refl _
  | cons c t ih =>
    intro a ha hds
    have hc := (is_digit_iff c).mp (hds c (List.mem_cons_self _ _))
    have ht : ∀ x ∈ t, is_digit x = true := fun x hx => hds x (List.mem_cons_of_mem _ hx)
    have h := ih (a * 10 + digit_val c) (by unfold digit_val; omega) ht
    simp only [List.foldl_cons]
    unfold digit_val at h ⊢
    omega

theorem is_digit_ne_sep {c : Char} (h : is_digit c = true) : c ≠ '.' ∧ c ≠ '/' := by
  constructor <;> (rintro rfl; exact absurd h (by decide))

/-- One digit read by either loop of `xmltv_ns_get_parse_num` when the new value fits
an `int`: the intermediate sum `a * 10 + c` may wrap, and the subtraction of the
character `0` wraps it back. -/
theorem parse_num_step (a : Int) (c : Char) (hc : is_digit c = true) (ha : 0 ≤ a)
    (hb : a * 10 + digit_val c ≤ 2147483647) :
    wrap32 (wrap32 (wrap32 ((if a = -1 then 0 else a) * 10) + c.toNat) - 48)
      = a * 10 + digit_val c := by
  have hc2 := (is_digit_iff c).mp hc
  have hne : a ≠ -1 := by omega
  rw [if_neg hne]
  unfold digit_val at hb ⊢
  unfold wrap32
  omega

theorem parse_num_first (c : Char) (hc : is_digit c = true) :
    wrap32 (wrap32 (wrap32 ((0 : Int) * 10) + c.toNat) - 48) = digit_val c := by
  have hc2 := (is_digit_iff c).mp hc
  unfold digit_val wrap32
  omega

theorem parse_num_a_run (ds : List Char) : ∀ (a : Int) (rest : List Char), 0 ≤ a →
    (∀ c ∈ ds, is_digit c = true) →
    ds.foldl (fun acc c => acc * 10 + digit_val c) a ≤ 2147483647 →
    xmltv_ns_get_parse_num_a (ds ++ rest) a
      = xmltv_ns_get_parse_num_a rest (ds.foldl (fun acc c => acc * 10 + digit_val c) a) := by
  induction ds with
  | nil => intro a rest _ _ _; rfl
  | cons c t ih =>
    intro a rest ha hds hb
    have hc := hds c (List.mem_cons_self _ _)
    have hc2 := (is_digit_iff c).mp hc
    have ht : ∀ x ∈ t, is_digit x = true := fun x hx => hds x (List.mem_cons_of_mem _ hx)
    have ha2 : 0 ≤ a * 10 + digit_val c := by unfold digit_val; omega
    have hge := foldl_digits_ge t (a * 10 + digit_val c) ha2 ht
    simp only [List.foldl_cons] at hb ⊢
    simp only [List.cons_append, xmltv_ns_get_parse_num_a, (is_digit_ne_sep hc).1,
      (is_digit_ne_sep hc).2, hc, if_false, if_true]
    rw [parse_num_step a c hc ha (by omega)]
    exact ih _ rest ha2 ht hb

theorem parse_num_b_run (ds : List Char) : ∀ (b : Int) (rest : List Char), 0 ≤ b →
    (∀ c ∈ ds, is_digit c = true) →
    ds.foldl (fun acc c => acc * 10 + digit_val c) b ≤ 2147483647 →
    xmltv_ns_get_parse_num_b (ds ++ rest) b
      = xmltv_ns_get_parse_num_b rest (ds.foldl (fun acc c => acc * 10 + digit_val c) b) := by
  induction ds with
  | nil => intro b rest _ _ _; rfl
  | cons c t ih =>
    intro b rest hb0 hds hb
    have hc := hds c (List.mem_cons_self _ _)
    have hc2 := (is_digit_iff c).mp hc
    have ht : ∀ x ∈ t, is_digit x = true := fun x hx => hds x (List.mem_cons_of_mem _ hx)
    have hb2 : 0 ≤ b * 10 + digit_val c := by unfold digit_val; omega
    have hge := foldl_digits_ge t (b * 10 + digit_val c) hb2 ht
    simp only [List.foldl_cons] at hb ⊢
    simp only [List.cons_append, xmltv_ns_get_parse_num_b, (is_digit_ne_sep hc).1,
      hc, if_false, if_true]
    rw [parse_num_step b c hc hb0 (by omega)]
    exact ih _ rest hb2 ht hb

/-- The first loop reads the decimal text of `n` as `n`. -/
theorem parse_num_a_repr (n : Nat) (hn : n ≤ 2147483647) (rest : List Char) :
    xmltv_ns_get_parse_num_a ((toString n).toList ++ rest) (-1)
      = xmltv_ns_get_parse_num_a rest n := by
  obtain ⟨hne, hdig, hval⟩ := repr_run n
  cases hds : (toString n).toList with
  | nil => exact absurd hds hne
  | cons c t =>
    rw [hds] at hdig hval
    have hc := hdig c (List.mem_cons_self _ _)
    have hc2 := (is_digit_iff c).mp hc
    have ht : ∀ x ∈ t, is_digit x = true := fun x hx => hdig x (List.mem_cons_of_mem _ hx)
    simp only [digits_value, List.foldl_cons, zero_mul, zero_add] at hval
    simp only [List.cons_append, xmltv_ns_get_parse_num_a, (is_digit_ne_sep hc).1,
      (is_digit_ne_sep hc).2, hc, if_false, if_true, List.append_eq]
    rw [parse_num_first c hc,
      parse_num_a_run t (digit_val c) rest (by unfold digit_val; omega) ht (by omega), hval]

/-- The second loop reads the decimal text of `n` as `n`. -/
theorem parse_num_b_repr (n : Nat) (hn : n ≤ 2147483647) (rest : List Char) :
    xmltv_ns_get_parse_num_b ((toString n).toList ++ rest) (-1)
      = xmltv_ns_get_parse_num_b rest n := by
  obtain ⟨hne, hdig, hval⟩ := repr_run n
  cases hds : (toString n).toList with
  | nil => exact absurd hds hne
  | cons c t =>
    rw [hds] at hdig hval
    have hc := hdig c (List.mem_cons_self _ _)
    have hc2 := (is_digit_iff c).mp hc
    have ht : ∀ x ∈ t, is_digit x = true := fun x hx => hdig x (List.mem_cons_of_mem _ hx)
    simp only [digits_value, List.foldl_cons, zero_mul, zero_add] at hval
    simp only [List.cons_append, xmltv_ns_get_parse_num_b, (is_digit_ne_sep hc).1,
      hc, if_false, if_true, List.append_eq]
    rw [parse_num_first c hc,
      parse_num_b_run t (digit_val c) rest (by unfold digit_val; omega) ht (by omega), hval]

/-- A component `X/Y` followed by a dot. -/
theorem parse_num_frac_dot (a b : Nat) (ha : a ≤ 2147483646) (hb : b ≤ 2147483646)
    (rest : List Char) :
    xmltv_ns_get_parse_num
        ((toString a).toList ++ '/' :: ((toString b).toList ++ '.' :: rest))
      = ((a : Int) + 1, (b : Int) + 1, rest) := by
  unfold xmltv_ns_get_parse_num
  rw [parse_num_a_repr a (by omega)]
  simp only [xmltv_ns_get_parse_num_a, if_true, if_neg (show ¬ ('/' = '.') by decide)]
  rw [parse_num_b_repr b (by omega)]
  simp only [xmltv_ns_get_parse_num_b, if_true]
  rw [wrap32_small _ (by omega) (by omega), wrap32_small _ (by omega) (by omega)]

/-- A component `X/Y` at the end of the string. -/
theorem parse_num_frac_end (a b : Nat) (ha : a ≤ 2147483646) (hb : b ≤ 2147483646) :
    xmltv_ns_get_parse_num ((toString a).toList ++ '/' :: (toString b).toList)
      = ((a : Int) + 1, (b : Int) + 1, []) := by
  have h := parse_num_b_repr b (by omega) []
  rw [List.append_nil] at h
  unfold xmltv_ns_get_parse_num
  rw [parse_num_a_repr a (by omega)]
  simp only [xmltv_ns_get_parse_num_a, if_true, if_neg (show ¬ ('/' = '.') by decide)]
  rw [h]
  simp only [xmltv_ns_get_parse_num_b]
  rw [wrap32_small _ (by omega) (by omega), wrap32_small _ (by omega) (by omega)]

/-- A component `X` followed by a dot. -/
theorem parse_num_whole_dot (a : Nat) (ha : a ≤ 2147483646) (rest : List Char) :
    xmltv_ns_get_parse_num ((toString a).toList ++ '.' :: rest) = ((a : Int) + 1, 0, rest) := by
  unfold xmltv_ns_get_parse_num
  rw [parse_num_a_repr a (by omega)]
  simp only [xmltv_ns_get_parse_num_a, if_true]
  rw [wrap32_small _ (by omega) (by omega)]
  rfl

/-- A component `X` at the end of the string. -/
theorem parse_num_whole_end (a : Nat) (ha : a ≤ 2147483646) :
    xmltv_ns_get_parse_num (toString a).toList = ((a : Int) + 1, 0, []) := by
  have h := parse_num_a_repr a (by omega) []
  rw [List.append_nil] at h
  unfold xmltv_ns_get_parse_num
  rw [h]
  simp only [xmltv_ns_get_parse_num_a]
  rw [wrap32_small _ (by omega) (by omega)]
  rfl

/-! ## C4: decoding is 0-indexed in the text and 1-indexed in the outputs -/

/-- C4: for numbers whose successor fits a 32-bit `int`, `parse_xmltv_ns_episode`
applied to the decimal text `sn/sc.en/ec.pn/pc` outputs every value plus one, and
applied to `sn.en.pn` outputs the three numbers plus one and the three counts 0. -/
theorem C4_episode_numbers_plus_one (sn sc en ec pn pc : Nat)
    (hsn : sn ≤ 2147483646) (hsc : sc ≤ 2147483646) (hen : en ≤ 2147483646)
    (hec : ec ≤ 2147483646) (hpn : pn ≤ 2147483646) (hpc : pc ≤ 2147483646) :
    parse_xmltv_ns_episode
        (toString sn ++ "/" ++ toString sc ++ "." ++ toString en ++ "/" ++ toString ec
          ++ "." ++ toString pn ++ "/" ++ toString pc).toList
      = ⟨sn + 1, sc + 1, en + 1, ec + 1, pn + 1, pc + 1⟩ ∧
    parse_xmltv_ns_episode (toString sn ++ "." ++ toString en ++ "." ++ toString pn).toList
      = ⟨sn + 1, 0, en + 1, 0, pn + 1, 0⟩ := by
  constructor
  · have e : (toString sn ++ "/" ++ toString sc ++ "." ++ toString en ++ "/" ++ toString ec
          ++ "." ++ toString pn ++ "/" ++ toString pc).toList
        = (toString sn).toList ++ '/' :: ((toString sc).toList ++ '.' ::
            ((toString en).toList ++ '/' :: ((toString ec).toList ++ '.' ::
              ((toString pn).toList ++ '/' :: (toString pc).toList)))) := by
      simp [String.toList, String.data_append]
    rw [e]
    unfold parse_xmltv_ns_episode
    simp only [parse_num_frac_dot sn sc hsn hsc, parse_num_frac_dot en ec hen hec,
      parse_num_frac_end pn pc hpn hpc]
  · have e : (toString sn ++ "." ++ toString en ++ "." ++ toString pn).toList
        = (toString sn).toList ++ '.' :: ((toString en).toList ++ '.' :: (toString pn).toList) := by
      simp [String.toList, String.data_append]
    rw [e]
    unfold parse_xmltv_ns_episode
    simp only [parse_num_whole_dot sn hsn, parse_num_whole_dot en hen,
      parse_num_whole_end pn hpn]

/-- C4 at the text of the specification: `1.2.3` gives season 2, episode 3 and part 4,
no counts; and `1/2.3/4.5/6` gives every value plus one. -/
theorem C4_episode_numbers_plus_one_witness :
    parse_xmltv_ns_episode "1/2.3/4.5/6".toList = ⟨2, 3, 4, 5, 6, 7⟩ ∧
    parse_xmltv_ns_episode "1.2.3".toList = ⟨2, 0, 3, 0, 4, 0⟩ :=
  ⟨(C4_episode_numbers_plus_one 1 2 3 4 5 6 (by decide) (by decide) (by decide) (by decide)
      (by decide) (by decide)).1,
   (C4_episode_numbers_plus_one 1 0 2 0 3 0 (by decide) (by decide) (by decide) (by decide)
      (by decide) (by decide)).2⟩

/-! ## The store: replacement at a key -/

theorem upd_self {κ α : Type} [DecidableEq κ] (f : κ → α) (k : κ) (v : α) :
    upd f k v k = v := by simp [upd]

theorem upd_ne {κ α : Type} [DecidableEq κ] (f : κ → α) (k x : κ) (v : α) (h : x ≠ k) :
    upd f k v x = f x := by simp [upd, h]

theorem upd_upd {κ α : Type} [DecidableEq κ] (f : κ → α) (k : κ) (a b : α) :
    upd (upd f k a) k b = upd f k b := by
  funext x; simp only [upd]; split <;> rfl

theorem upd_eq_self {κ α : Type} [DecidableEq κ] (f : κ → α) (k : κ) (v : α) (h : f k = v) :
    upd f k v = f := by
  funext x; simp only [upd]; split
  · next hx => rw [hx, h]
  · rfl

/-- A setter on an existing episode stores the new record and reports whether it
differs from the old one. -/
theorem episode_set_eq (ee : String) (f : epg_episode_t → epg_episode_t) (st : guide_store)
    (r : epg_episode_t) (h : st.episodes ee = some r) :
    episode_set ee f st
      = (decide (f r ≠ r), { st with episodes := upd st.episodes ee (some (f r)) }) := by
  unfold episode_set
  rw [h]
  by_cases hf : f r = r
  · simp only [hf, if_true, ne_eq, not_true_eq_false, decide_False]
    rw [upd_eq_self st.episodes ee (some r) h]
  · simp only [hf, if_false, ne_eq, not_false_eq_true, decide_True]

/-- A setter on the episode that was just written. -/
theorem episode_set_upd (ee : String) (f : epg_episode_t → epg_episode_t) (st : guide_store)
    (r : epg_episode_t) :
    episode_set ee f { st with episodes := upd st.episodes ee (some r) }
      = (decide (f r ≠ r), { st with episodes := upd st.episodes ee (some (f r)) }) := by
  rw [episode_set_eq ee f _ r (upd_self _ _ _)]
  simp only [upd_upd]

/-- The setter calls of a programme entry store the merged record and report whether
it differs from the record found. -/
theorem episode_merge_steps_eq (ee title : String) (desc category : Option String)
    (pn pc en : Int) (save : Bool) (st : guide_store) (r : epg_episode_t)
    (h : st.episodes ee = some r) :
    episode_merge_steps ee title desc category pn pc en save st
      = (save || decide (merged_episode title desc category pn pc en r ≠ r),
          { st with episodes := upd st.episodes ee (some (merged_episode title desc category pn pc en r)) }) := by
  obtain ⟨t0, d0, g0, n0, pn0, pc0⟩ := r
  unfold episode_merge_steps epg_episode_set_title epg_episode_set_description
    epg_episode_set_genre_str epg_episode_set_part epg_episode_set_number merged_episode
  rw [episode_set_eq ee _ st _ h]
  cases desc <;> cases category <;> by_cases hpn : pn = 0 <;> by_cases hen : en = 0 <;>
    simp only [hpn, hen, ne_eq, not_true_eq_false, not_false_eq_true, if_true, if_false] <;>
    repeat rw [episode_set_upd]
  all_goals refine Prod.ext ?_ rfl
  all_goals cases save
  all_goals apply Bool.eq_iff_iff.mpr
  all_goals
    simp only [Bool.true_or, Bool.false_or, epg_episode_t.mk.injEq,
      Bool.or_eq_true, decide_eq_true_eq, true_and, and_true, not_and_or, ne_eq]
  all_goals tauto

/-- The find-or-create of the broadcast and its link store the link and report
whether the stored broadcast differs. -/
theorem broadcast_steps_eq (ch : channel_t) (start stop : Int) (ee : String) (save : Bool)
    (stats : epggrab_stats_t) (st : guide_store) :
    broadcast_steps ch start stop ee save stats st
      = (save || decide (st.broadcasts (ch, start, stop) ≠ some ⟨some ee⟩),
          { stats with broadcasts := (counted stats.broadcasts
              (st.broadcasts (ch, start, stop)).isNone
              (decide (st.broadcasts (ch, start, stop) ≠ some ⟨some ee⟩))) },
          { st with broadcasts := upd st.broadcasts (ch, start, stop) (some ⟨some ee⟩) }) := by
  unfold broadcast_steps epg_broadcast_find_by_time epg_broadcast_set_episode
  cases hb : st.broadcasts (ch, start, stop) with
  | none =>
    simp [upd_self, upd_upd, counted, epggrab_stats_part_t.inc_total,
      epggrab_stats_part_t.inc_created, epggrab_stats_part_t.inc_modified]
  | some b =>
    obtain ⟨e⟩ := b
    by_cases he : e = some ee
    · subst he
      simp [hb, counted, epggrab_stats_part_t.inc_total, upd_eq_self st.broadcasts _ _ hb]
    · simp [hb, he, counted, epggrab_stats_part_t.inc_total,
        epggrab_stats_part_t.inc_modified]

/-- The end of `_xmltv_parse_programme_tags` when the episode existed as `r` and the
setters left the record `m`. -/
theorem found_episode_tail (ch : channel_t) (start stop : Int) (key : String)
    (stats : epggrab_stats_t) (st : guide_store) (r m : epg_episode_t) :
    broadcast_steps ch start stop key (false || decide (m ≠ r))
        (if (false || decide (m ≠ r)) = true then
          { channels := stats.channels, episodes := stats.episodes.inc_total.inc_modified,
            broadcasts := stats.broadcasts }
        else
          { channels := stats.channels, episodes := stats.episodes.inc_total,
            broadcasts := stats.broadcasts })
        { st with episodes := upd st.episodes key (some m) }
      = (decide (some r ≠ some m) || decide (st.broadcasts (ch, start, stop) ≠ some ⟨some key⟩),
         { channels := stats.channels,
           episodes := (counted stats.episodes (some r).isNone (decide (some r ≠ some m))),
           broadcasts := (counted stats.broadcasts (st.broadcasts (ch, start, stop)).isNone
             (decide (st.broadcasts (ch, start, stop) ≠ some ⟨some key⟩))) },
         { st with
           episodes := (upd st.episodes key (some m)),
           broadcasts := (upd st.broadcasts (ch, start, stop) (some ⟨some key⟩)) }) := by
  rw [broadcast_steps_eq]
  by_cases hch : m = r
  · subst hch
    simp [counted, epggrab_stats_part_t.inc_total]
  · have hch2 : ¬ r = m := fun h => hch (Eq.symm h)
    simp [hch, hch2, counted, epggrab_stats_part_t.inc_total,
      epggrab_stats_part_t.inc_modified]

/-- The function `_xmltv_parse_programme_tags` is the find-or-create of the episode,
the setter calls and the broadcast steps. -/
theorem parse_programme_tags_unfold (env : xmltv_env) (ch : channel_t) (tags : htsmsg_t)
    (start stop : Int) (stats : epggrab_stats_t) (st : guide_store) (title : String)
    (htitle : htsmsg_xml_get_cdata_str tags "title" = some title) :
    _xmltv_parse_programme_tags env ch tags start stop stats st =
      match epg_episode_find_by_uri (programme_key env tags title) true st with
      | (none, _, st) => (false, stats, st)
      | (some ee, save, st) =>
        let stats := { stats with episodes := stats.episodes.inc_total }
        let stats := if save then { stats with episodes := stats.episodes.inc_created } else stats
        let r := episode_merge_steps ee title (htsmsg_xml_get_cdata_str tags "desc")
          (htsmsg_xml_get_cdata_str tags "category")
          (get_episode_info tags ⟨none, ⟨0, 0, 0, 0, 0, 0⟩⟩).num.pn
          (get_episode_info tags ⟨none, ⟨0, 0, 0, 0, 0, 0⟩⟩).num.pc
          (get_episode_info tags ⟨none, ⟨0, 0, 0, 0, 0, 0⟩⟩).num.en save st
        let stats := if r.1 then { stats with episodes := stats.episodes.inc_modified } else stats
        broadcast_steps ch start stop ee r.1 stats r.2 := by
  unfold _xmltv_parse_programme_tags
  simp only [htitle]
  rfl

/-- What `_xmltv_parse_programme_tags` does for a tag set with a title: the episode
under the key of the entry becomes the merged record, the broadcast of the interval is
linked to that key, the result tells whether either stored record changed, and the
counters count one episode and one broadcast. -/
theorem parse_programme_tags_eq (env : xmltv_env) (ch : channel_t) (tags : htsmsg_t)
    (start stop : Int) (stats : epggrab_stats_t) (st : guide_store) (title : String)
    (htitle : htsmsg_xml_get_cdata_str tags "title" = some title) :
    _xmltv_parse_programme_tags env ch tags start stop stats st =
      (decide (st.episodes (programme_key env tags title)
            ≠ some (programme_episode tags title (st.episodes (programme_key env tags title))))
        || decide (st.broadcasts (ch, start, stop) ≠ some ⟨some (programme_key env tags title)⟩),
       { channels := stats.channels,
         episodes := (counted stats.episodes (st.episodes (programme_key env tags title)).isNone
           (decide (st.episodes (programme_key env tags title)
              ≠ some (programme_episode tags title (st.episodes (programme_key env tags title)))))),
         broadcasts := (counted stats.broadcasts (st.broadcasts (ch, start, stop)).isNone
           (decide (st.broadcasts (ch, start, stop)
              ≠ some ⟨some (programme_key env tags title)⟩))) },
       { st with
         episodes := (upd st.episodes (programme_key env tags title)
           (some (programme_episode tags title (st.episodes (programme_key env tags title))))),
         broadcasts := (upd st.broadcasts (ch, start, stop)
           (some ⟨some (programme_key env tags title)⟩)) }) := by
  rw [parse_programme_tags_unfold env ch tags start stop stats st title htitle]
  unfold epg_episode_find_by_uri programme_episode
  cases hep : st.episodes (programme_key env tags title) with
  | none =>
    simp only [if_true]
    rw [episode_merge_steps_eq _ _ _ _ _ _ _ _ _ blank_episode (upd_self _ _ _),
      broadcast_steps_eq]
    simp [upd_upd, counted, epggrab_stats_part_t.inc_total, epggrab_stats_part_t.inc_created,
      epggrab_stats_part_t.inc_modified, blank_episode]
  | some r =>
    simp only [Option.getD_some]
    rw [episode_merge_steps_eq _ _ _ _ _ _ _ _ _ r hep]
    exact found_episode_tail ch start stop _ stats st r _

/-! ## C3: the identity of an episode -/

/-- C3: for a tag set with a title, `_xmltv_parse_programme_tags` resolves the episode
under the key `md5sum(desc ?: title)`, the digest of the description when there is one
and of the title otherwise: after the call that episode exists, no episode under
another key has changed, and the broadcast is linked to that key. Consequently a second
entry with the same description, whatever its title, is resolved to the same episode:
its broadcast is linked to the same key, it creates no episode, and the set of episodes
in the store is the same as after the first entry. -/
theorem C3_episode_key_is_digest (env : xmltv_env) (ch : channel_t) (tags : htsmsg_t)
    (start stop : Int) (stats : epggrab_stats_t) (st : guide_store) (title : String)
    (htitle : htsmsg_xml_get_cdata_str tags "title" = some title) :
    ((_xmltv_parse_programme_tags env ch tags start stop stats st).2.2.episodes
        (env.md5sum ((htsmsg_xml_get_cdata_str tags "desc").getD title))).isSome = true ∧
    (∀ k, k ≠ env.md5sum ((htsmsg_xml_get_cdata_str tags "desc").getD title) →
      (_xmltv_parse_programme_tags env ch tags start stop stats st).2.2.episodes k
        = st.episodes k) ∧
    (_xmltv_parse_programme_tags env ch tags start stop stats st).2.2.broadcasts
        (ch, start, stop)
      = some ⟨some (env.md5sum ((htsmsg_xml_get_cdata_str tags "desc").getD title))⟩ ∧
    (∀ (d : String) (ch2 : channel_t) (tags2 : htsmsg_t) (start2 stop2 : Int)
        (title2 : String),
      htsmsg_xml_get_cdata_str tags "desc" = some d →
      htsmsg_xml_get_cdata_str tags2 "desc" = some d →
      htsmsg_xml_get_cdata_str tags2 "title" = some title2 →
      (_xmltv_parse_programme_tags env ch2 tags2 start2 stop2
          (_xmltv_parse_programme_tags env ch tags start stop stats st).2.1
          (_xmltv_parse_programme_tags env ch tags start stop stats st).2.2).2.2.broadcasts
            (ch2, start2, stop2) = some ⟨some (env.md5sum d)⟩ ∧
      (_xmltv_parse_programme_tags env ch tags start stop stats st).2.2.broadcasts
            (ch, start, stop) = some ⟨some (env.md5sum d)⟩ ∧
      (_xmltv_parse_programme_tags env ch2 tags2 start2 stop2
          (_xmltv_parse_programme_tags env ch tags start stop stats st).2.1
          (_xmltv_parse_programme_tags env ch tags start stop stats st).2.2).2.1.episodes.created
        = (_xmltv_parse_programme_tags env ch tags start stop stats st).2.1.episodes.created ∧
      ∀ k, ((_xmltv_parse_programme_tags env ch2 tags2 start2 stop2
          (_xmltv_parse_programme_tags env ch tags start stop stats st).2.1
          (_xmltv_parse_programme_tags env ch tags start stop stats st).2.2).2.2.episodes k).isSome
        = ((_xmltv_parse_programme_tags env ch tags start stop stats st).2.2.episodes k).isSome) := by
  have hkey : env.md5sum ((htsmsg_xml_get_cdata_str tags "desc").getD title)
      = programme_key env tags title := rfl
  rw [hkey, parse_programme_tags_eq env ch tags start stop stats st title htitle]
  refine ⟨by simp [upd_self], fun k hk => by simp [upd_ne _ _ _ _ hk], by simp [upd_self], ?_⟩
  intro d ch2 tags2 start2 stop2 title2 hd hd2 ht2
  have k1 : programme_key env tags title = env.md5sum d := by
    simp [programme_key, hd]
  have k2 : programme_key env tags2 title2 = env.md5sum d := by
    simp [programme_key, hd2]
  rw [parse_programme_tags_eq env ch2 tags2 start2 stop2 _ _ title2 ht2, k1, k2]
  refine ⟨by simp [upd_self], by simp [upd_self], by simp [upd_self, counted], ?_⟩
  intro k
  by_cases hk : k = env.md5sum d
  · subst hk; simp [upd_self]
  · simp [upd_ne _ _ _ _ hk]

/-- C3 at two concrete entries that share the description `Plot` and have the titles
`A` and `B`: both broadcasts are linked to the episode of key `Plot` (the digest is the
identity here), and one episode is created in all. -/
theorem C3_episode_key_is_digest_witness :
    (_xmltv_parse_programme_tags sample_env 7
        [cdata_tag "title" "B", cdata_tag "desc" "Plot"] 1893459600 1893463200
        (_xmltv_parse_programme_tags sample_env 7
          [cdata_tag "title" "A", cdata_tag "desc" "Plot"] 1893456000 1893459600
          zero_stats sample_store).2.1
        (_xmltv_parse_programme_tags sample_env 7
          [cdata_tag "title" "A", cdata_tag "desc" "Plot"] 1893456000 1893459600
          zero_stats sample_store).2.2).2.2.broadcasts (7, 1893459600, 1893463200)
      = some ⟨some "Plot"⟩ ∧
    (_xmltv_parse_programme_tags sample_env 7
        [cdata_tag "title" "A", cdata_tag "desc" "Plot"] 1893456000 1893459600
        zero_stats sample_store).2.2.broadcasts (7, 1893456000, 1893459600)
      = some ⟨some "Plot"⟩ ∧
    (_xmltv_parse_programme_tags sample_env 7
        [cdata_tag "title" "B", cdata_tag "desc" "Plot"] 1893459600 1893463200
        (_xmltv_parse_programme_tags sample_env 7
          [cdata_tag "title" "A", cdata_tag "desc" "Plot"] 1893456000 1893459600
          zero_stats sample_store).2.1
        (_xmltv_parse_programme_tags sample_env 7
          [cdata_tag "title" "A", cdata_tag "desc" "Plot"] 1893456000 1893459600
          zero_stats sample_store).2.2).2.1.episodes.created = 1 :=
  have h := (C3_episode_key_is_digest sample_env 7
    [cdata_tag "title" "A", cdata_tag "desc" "Plot"] 1893456000 1893459600 zero_stats
    sample_store "A" (by rfl)).2.2.2 "Plot" 7 [cdata_tag "title" "B", cdata_tag "desc" "Plot"]
    1893459600 1893463200 "B" (by rfl) (by rfl) (by rfl)
  ⟨h.1, h.2.1, h.2.2.1.trans (by decide)⟩

/-! ## The loop of the discovery parser -/

theorem getElem?_at_length (pre : List Char) (c : Char) (rest : List Char) :
    (pre ++ c :: rest)[pre.length]? = some c := by
  rw [List.getElem?_append_right (le_refl _), Nat.sub_self]
  simp

theorem set_at_length (pre : List Char) (c x : Char) (rest : List Char) :
    (pre ++ c :: rest).set pre.length x = pre ++ x :: rest := by
  induction pre with
  | nil => rfl
  | cons a t ih => simp [ih]

theorem takeWhile_plain (s : List Char) (rest : List Char)
    (hs : s.all is_plain = true) :
    (s ++ '\x00' :: rest).takeWhile (fun c => c != '\x00') = s := by
  induction s with
  | nil => simp
  | cons a t ih =>
    simp only [List.all_cons, Bool.and_eq_true] at hs
    have ha : (a != '\x00') = true := by
      have := hs.1
      simp only [is_plain, Bool.and_eq_true] at this
      exact this.1.2
    simp [List.takeWhile, ha, ih hs.2]

/-- The C string at the end of `pre`, when plain characters and a NUL follow. -/
theorem c_str_at_plain (pre s rest : List Char) (hs : s.all is_plain = true) :
    c_str_at (pre ++ (s ++ '\x00' :: rest)) pre.length = s := by
  unfold c_str_at
  rw [List.drop_left]
  exact takeWhile_plain s rest hs

/-- Over plain characters the loop only advances `i`. -/
theorem loop_plain (outlen : Nat) (w : List Char) :
    ∀ (pre rest : List Char) (fuel p n : Nat) (list : List epggrab_module_t),
      w.all is_plain = true → pre.length + w.length ≤ outlen →
      _xmltv_load_grabbers_loop outlen (fuel + w.length) (pre ++ (w ++ rest)) pre.length p n list
        = _xmltv_load_grabbers_loop outlen fuel (pre ++ (w ++ rest))
            (pre.length + w.length) p n list := by
  induction w with
  | nil => intro pre rest fuel p n list _ _; rfl
  | cons c t ih =>
    intro pre rest fuel p n list hw hlen
    simp only [List.all_cons, Bool.and_eq_true] at hw
    have hc := hw.1
    simp only [is_plain, Bool.and_eq_true, bne_iff_ne, ne_eq] at hc
    simp only [List.length_cons] at hlen ⊢
    have hi : pre.length < outlen := by omega
    rw [show fuel + (t.length + 1) = (fuel + t.length) + 1 from by omega]
    rw [_xmltv_load_grabbers_loop, if_pos hi]
    rw [show pre ++ (c :: t ++ rest) = pre ++ c :: (t ++ rest) from rfl, getElem?_at_length]
    simp only [hc.1.1, hc.1.2, hc.2, or_self, if_false]
    have e : pre ++ c :: (t ++ rest) = (pre ++ [c]) ++ (t ++ rest) := by simp
    have hl : (pre ++ [c]).length = pre.length + 1 := by simp
    rw [e, ← hl, ih (pre ++ [c]) rest fuel p n list hw.2 (by rw [hl]; omega)]
    rw [hl]
    congr 1
    omega

/-- One turn of the loop at a record terminator, with plain strings at `p` and `n`. -/
theorem loop_terminator (outlen fuel : Nat) (buf : List Char) (i p n : Nat) (c : Char)
    (list : List epggrab_module_t) (hi : i < outlen) (hget : buf[i]? = some c)
    (hc : c = '\n' ∨ c = '\x00') :
    _xmltv_load_grabbers_loop outlen (fuel + 1) buf i p n list
      = if 7 + (c_str_at (buf.set i '\x00') n).length + 1 > 200 then none
        else _xmltv_load_grabbers_loop outlen fuel (buf.set i '\x00') (i + 1) (i + 1) (i + 1)
          (grabber_module (c_str_at (buf.set i '\x00') p) (c_str_at (buf.set i '\x00') n)
            :: list) := by
  rw [_xmltv_load_grabbers_loop, if_pos hi, hget]
  simp only [hc, if_true]

/-- One turn of the loop at a field separator. -/
theorem loop_separator (outlen fuel : Nat) (buf : List Char) (i p n : Nat)
    (list : List epggrab_module_t) (hi : i < outlen) (hget : buf[i]? = some '|') :
    _xmltv_load_grabbers_loop outlen (fuel + 1) buf i p n list
      = _xmltv_load_grabbers_loop outlen fuel (buf.set i '\x00') (i + 1) p (i + 1) list := by
  rw [_xmltv_load_grabbers_loop, if_pos hi, hget]
  simp only [show ¬ ('|' = '\n' ∨ '|' = '\x00') by decide, if_false, if_true]

/-- The loop over one well-formed record: it registers the descriptor of the record
and goes on after the record with `p = n = i`, unless the name does not fit the 200
bytes allocated for it. -/
theorem loop_record (outlen : Nat) (r : grabber_record) (hr : r.well_formed = true)
    (pre rest : List Char) (fuel : Nat) (list : List epggrab_module_t)
    (hlen : pre.length + r.render.length ≤ outlen) :
    ∃ pre2 : List Char, pre2.length = pre.length + r.render.length ∧
      _xmltv_load_grabbers_loop outlen (fuel + r.render.length) (pre ++ (r.render ++ rest))
          pre.length pre.length pre.length list
        = if 7 + r.shown.length + 1 > 200 then none
          else _xmltv_load_grabbers_loop outlen fuel (pre2 ++ rest)
            pre2.length pre2.length pre2.length (r.descriptor :: list) := by
  obtain ⟨path, label, term⟩ := r
  simp only [grabber_record.well_formed, Bool.and_eq_true, Bool.or_eq_true, beq_iff_eq] at hr
  obtain ⟨⟨hterm, hpath⟩, hlabel⟩ := hr
  cases label with
  | none =>
    simp only [grabber_record.render, grabber_record.shown, grabber_record.descriptor,
      Option.getD_none, List.length_append, List.length_singleton] at hlen ⊢
    refine ⟨pre ++ (path ++ ['\x00']),
      by simp only [List.length_append, List.length_cons, List.length_nil], ?_⟩
    rw [show fuel + (path.length + 1) = (fuel + 1) + path.length from by omega,
      show pre ++ (path ++ [term] ++ rest) = pre ++ (path ++ (term :: rest)) from by simp,
      loop_plain outlen path pre (term :: rest) (fuel + 1) _ _ list hpath (by omega)]
    have e : pre ++ (path ++ term :: rest) = (pre ++ path) ++ term :: rest := by simp
    have hl : pre.length + path.length = (pre ++ path).length := by simp
    rw [e, hl, loop_terminator outlen fuel _ _ _ _ term list (by rw [← hl]; omega)
      (getElem?_at_length _ _ _) hterm, set_at_length]
    have e2 : pre ++ path ++ '\x00' :: rest = pre ++ (path ++ '\x00' :: rest) := by simp
    rw [← hl, e2, c_str_at_plain pre path rest hpath]
    have e3 : pre ++ (path ++ '\x00' :: rest) = pre ++ (path ++ ['\x00']) ++ rest := by simp
    have hl3 : (pre ++ (path ++ ['\x00'])).length = pre.length + path.length + 1 := by
      simp only [List.length_append, List.length_cons, List.length_nil]
      omega
    rw [e3, hl3]
  | some l =>
    simp only [grabber_record.render, grabber_record.shown, grabber_record.descriptor,
      Option.getD_some, List.length_append, List.length_cons, List.length_singleton,
      List.length_nil] at hlen hlabel ⊢
    refine ⟨pre ++ (path ++ '\x00' :: (l ++ ['\x00'])),
      by simp only [List.length_append, List.length_cons, List.length_nil], ?_⟩
    rw [show fuel + (path.length + (l.length + 0 + 1 + 1)) = (fuel + 1 + l.length + 1) + path.length
        from by omega,
      show pre ++ (path ++ '|' :: (l ++ [term]) ++ rest)
        = pre ++ (path ++ ('|' :: (l ++ term :: rest))) from by simp,
      loop_plain outlen path pre ('|' :: (l ++ term :: rest)) _ _ _ list hpath (by omega)]
    have e : pre ++ (path ++ '|' :: (l ++ term :: rest))
        = (pre ++ path) ++ '|' :: (l ++ term :: rest) := by simp
    have hl : pre.length + path.length = (pre ++ path).length := by simp
    rw [e, hl, loop_separator outlen _ _ _ _ _ list (by rw [← hl]; omega)
      (getElem?_at_length _ _ _), set_at_length]
    have e2 : pre ++ path ++ '\x00' :: (l ++ term :: rest)
        = (pre ++ (path ++ ['\x00'])) ++ (l ++ term :: rest) := by simp
    have hl2 : (pre ++ path).length + 1 = (pre ++ (path ++ ['\x00'])).length := by
      simp only [List.length_append, List.length_cons, List.length_nil]
      omega
    rw [e2, hl2, loop_plain outlen l _ (term :: rest) (fuel + 1) _ _ list hlabel
      (by rw [← hl2, ← hl]; omega)]
    have e3 : pre ++ (path ++ ['\x00']) ++ (l ++ term :: rest)
        = (pre ++ (path ++ ['\x00']) ++ l) ++ term :: rest := by simp
    have hl3 : (pre ++ (path ++ ['\x00'])).length + l.length
        = (pre ++ (path ++ ['\x00']) ++ l).length := by
      simp only [List.length_append, List.length_cons, List.length_nil]
    rw [e3, hl3, loop_terminator outlen fuel _ _ _ _ term list (by rw [← hl3, ← hl2, ← hl]; omega)
      (getElem?_at_length _ _ _) hterm, set_at_length]
    have e4 : pre ++ (path ++ ['\x00']) ++ l ++ '\x00' :: rest
        = pre ++ (path ++ '\x00' :: (l ++ '\x00' :: rest)) := by simp
    have e5 : pre ++ (path ++ ['\x00']) ++ l ++ '\x00' :: rest
        = (pre ++ (path ++ ['\x00'])) ++ (l ++ '\x00' :: rest) := by simp
    rw [show c_str_at (pre ++ (path ++ ['\x00']) ++ l ++ '\x00' :: rest) pre.length = path
        from by rw [e4]; exact c_str_at_plain pre path _ hpath,
      show c_str_at (pre ++ (path ++ ['\x00']) ++ l ++ '\x00' :: rest)
          (pre ++ (path ++ ['\x00'])).length = l
        from by rw [e5]; exact c_str_at_plain _ l rest hlabel]
    have e6 : pre ++ (path ++ ['\x00']) ++ l ++ '\x00' :: rest
        = pre ++ (path ++ '\x00' :: (l ++ ['\x00'])) ++ rest := by simp
    have hl6 : (pre ++ (path ++ ['\x00']) ++ l).length + 1
        = (pre ++ (path ++ '\x00' :: (l ++ ['\x00']))).length := by
      simp only [List.length_append, List.length_cons, List.length_nil]
      omega
    rw [e6, hl6]

/-- The loop over a sequence of well-formed records whose names fit: one descriptor per
record, each inserted at the head of the list. -/
theorem loop_records (outlen : Nat) (rs : List grabber_record) :
    ∀ (pre : List Char) (fuel : Nat) (list : List epggrab_module_t),
      (∀ r ∈ rs, r.well_formed = true ∧ r.shown.length ≤ 192) →
      pre.length + (render_records rs).length = outlen →
      _xmltv_load_grabbers_loop outlen (fuel + 1 + (render_records rs).length)
          (pre ++ render_records rs) pre.length pre.length pre.length list
        = some ((rs.map grabber_record.descriptor).reverse ++ list) := by
  induction rs with
  | nil =>
    intro pre fuel list _ hlen
    simp only [render_records, List.length_nil, Nat.add_zero] at hlen ⊢
    rw [_xmltv_load_grabbers_loop, if_neg (by omega)]
    rfl
  | cons r rs ih =>
    intro pre fuel list hrs hlen
    have hr := hrs r (List.mem_cons_self _ _)
    simp only [render_records, List.length_append] at hlen ⊢
    obtain ⟨pre2, hpre2, hloop⟩ := loop_record outlen r hr.1 pre (render_records rs)
      (fuel + 1 + (render_records rs).length) list (by omega)
    rw [show fuel + 1 + (r.render.length + (render_records rs).length)
        = (fuel + 1 + (render_records rs).length) + r.render.length from by omega,
      hloop, if_neg (by omega),
      ih pre2 fuel _ (fun x hx => hrs x (List.mem_cons_of_mem _ hx)) (by omega)]
    simp

/-- The discovery parser on a buffer made of well-formed records whose names fit the
200 bytes: the list gains one descriptor per record. -/
theorem load_grabbers_records (rs : List grabber_record) (list : List epggrab_module_t)
    (hrs : ∀ r ∈ rs, r.well_formed = true ∧ r.shown.length ≤ 192)
    (hsize : (render_records rs).length < 18446744073709551616) :
    _xmltv_load_grabbers (render_records rs).length (render_records rs) list
      = some ((rs.map grabber_record.descriptor).reverse ++ list) := by
  have hout : (((render_records rs).length : Int) % 18446744073709551616).toNat
      = (render_records rs).length := by omega
  unfold _xmltv_load_grabbers
  simp only [hout]
  by_cases h0 : (render_records rs).length < 1
  · rw [if_pos h0]
    cases rs with
    | nil => rfl
    | cons r rs =>
      exfalso
      obtain ⟨path, label, term⟩ := r
      cases label <;>
        simp [render_records, grabber_record.render] at h0
  · rw [if_neg h0]
    have h := loop_records (render_records rs).length rs [] 0 list hrs (by simp)
    simpa [Nat.add_comm] using h

/-- The discovery parser on a buffer whose first record is well formed and has a name
of more than 192 bytes: `sprintf` leaves the 200 bytes allocated for the name. -/
theorem load_grabbers_long_name (r : grabber_record) (rest : List Char)
    (list : List epggrab_module_t) (hr : r.well_formed = true) (hlong : 192 < r.shown.length)
    (hsize : (r.render ++ rest).length < 18446744073709551616) :
    _xmltv_load_grabbers (r.render ++ rest).length (r.render ++ rest) list = none := by
  have hout : (((r.render ++ rest).length : Int) % 18446744073709551616).toNat
      = (r.render ++ rest).length := by omega
  have hpos : 0 < r.render.length := by
    obtain ⟨path, label, term⟩ := r
    cases label <;> simp [grabber_record.render]
  unfold _xmltv_load_grabbers
  simp only [hout]
  rw [if_neg (by simp only [List.length_append]; omega)]
  obtain ⟨pre2, _, hloop⟩ := loop_record (r.render ++ rest).length r hr [] rest
    (rest.length + 1) list (by simp)
  simp only [List.nil_append, List.length_nil] at hloop
  rw [show (r.render ++ rest).length + 1 = rest.length + 1 + r.render.length from by
    simp only [List.length_append]; omega, hloop, if_pos (by omega)]

/-! ## C9: one descriptor per record -/

/-- The buffer of the specification, `/bin/a|Grabber A` and `/bin/b`, each ended by a
newline: two descriptors, `/bin/a` named `XMLTV: Grabber A` and `/bin/b` named
`XMLTV: /bin/b`; the last record read is at the head of the list. -/
theorem load_grabbers_spec_buffer :
    _xmltv_load_grabbers 24 "/bin/a|Grabber A\n/bin/b\n".toList []
      = some [grabber_module "/bin/b".toList "/bin/b".toList,
          grabber_module "/bin/a".toList "Grabber A".toList] ∧
    (grabber_module "/bin/a".toList "Grabber A".toList).id = some "/bin/a" ∧
    (grabber_module "/bin/a".toList "Grabber A".toList).path = some "/bin/a" ∧
    (grabber_module "/bin/a".toList "Grabber A".toList).name = some "XMLTV: Grabber A" ∧
    (grabber_module "/bin/b".toList "/bin/b".toList).id = some "/bin/b" ∧
    (grabber_module "/bin/b".toList "/bin/b".toList).name = some "XMLTV: /bin/b" := by
  decide

/-- C9 at a record whose label has 193 bytes: the name `XMLTV: ` and the label need 201
bytes with the NUL, `sprintf` writes past the 200 bytes of `malloc(200)`, and the run
leaves defined behaviour instead of registering the descriptor of the record. -/
theorem C9_long_label_overflows :
    _xmltv_load_grabbers 201 ("/bin/a|".toList ++ (List.replicate 193 'x' ++ ['\n'])) []
      = none := by
  have gen : ∀ l : List Char, l.all is_plain = true → l.length = 193 →
      _xmltv_load_grabbers 201 ("/bin/a|".toList ++ (l ++ ['\n'])) [] = none := by
    intro l hl hlen
    have hwf : (grabber_record.mk "/bin/a".toList (some l) '\n').well_formed = true := by
      simp only [grabber_record.well_formed, Option.getD_some, hl, Bool.and_true]
      decide
    have hsz : ((grabber_record.mk "/bin/a".toList (some l) '\n').render ++ []).length = 201 := by
      simp [grabber_record.render, hlen]
    have h := load_grabbers_long_name ⟨"/bin/a".toList, some l, '\n'⟩ [] [] hwf
      (by simp only [grabber_record.shown, Option.getD_some, hlen]; decide)
      (by rw [hsz]; decide)
    rw [hsz] at h
    simpa [grabber_record.render] using h
  exact gen (List.replicate 193 'x')
    (List.all_eq_true.mpr (fun c hc => by rw [List.eq_of_mem_replicate hc]; decide))
    (List.length_replicate _ _)

/-! ## C10: failure of the discovery command -/

/-- C10 at the failure indication `-1`: stored in the `size_t outlen` it is
`2^64 - 1`, the test `outlen < 1` does not hold, and the loop reads `outbuf[0]` through a
pointer that `spawn_and_store_stdout` did not assign (no byte is readable): the run
leaves defined behaviour instead of returning with the list unchanged. With the
length 0 the function does return with the list unchanged. -/
theorem C10_failure_not_caught :
    (((-1 : Int) % 18446744073709551616).toNat = 18446744073709551615) ∧
    (∀ list : List epggrab_module_t, _xmltv_load_grabbers (-1) [] list = none) ∧
    (∀ (outbuf : List Char) (list : List epggrab_module_t),
      _xmltv_load_grabbers 0 outbuf list = some list) := by
  refine ⟨by decide, fun list => ?_, fun outbuf list => rfl⟩
  unfold _xmltv_load_grabbers
  rw [show ((-1 : Int) % 18446744073709551616).toNat = 18446744073709551615 from by decide]
  rw [if_neg (by decide), _xmltv_load_grabbers_loop, if_pos (by decide)]
  rfl

/-! ## Entries: what the reconcilers do -/

/-- A setter on an existing guide channel's name. -/
theorem channel_set_name_eq (ch name : String) (st : guide_store) (r : epggrab_channel_t)
    (h : st.channels ch = some r) :
    epggrab_channel_set_name ch name st
      = (decide (({ r with name := some name } : epggrab_channel_t) ≠ r),
         { st with channels := upd st.channels ch (some { r with name := some name }) }) := by
  obtain ⟨n0, i0, l0⟩ := r
  unfold epggrab_channel_set_name
  rw [h]
  by_cases hn : n0 = some name
  · subst hn
    simp [upd_eq_self st.channels ch _ h]
  · simp [hn]
    intro h2; exact hn h2.symm

theorem channel_set_icon_eq (ch icon : String) (st : guide_store) (r : epggrab_channel_t)
    (h : st.channels ch = some r) :
    epggrab_channel_set_icon ch icon st
      = (decide (({ r with icon := some icon } : epggrab_channel_t) ≠ r),
         { st with channels := upd st.channels ch (some { r with icon := some icon }) }) := by
  obtain ⟨n0, i0, l0⟩ := r
  unfold epggrab_channel_set_icon
  rw [h]
  by_cases hn : i0 = some icon
  · subst hn
    simp [upd_eq_self st.channels ch _ h]
  · simp [hn]
    intro h2; exact hn h2.symm

/-- The two conditional setter calls and the end of `_xmltv_parse_channel`, on a guide
channel that holds the record `r`. -/
theorem channel_merge_steps_eq (ch : String) (name icon : Option String) (save : Bool)
    (stats : epggrab_stats_t) (st : guide_store) (r : epggrab_channel_t)
    (h : st.channels ch = some r) :
    channel_merge_steps ch name icon save stats st
    = (save || decide (merged_channel name icon r ≠ r),
       (if (save || decide (merged_channel name icon r ≠ r)) = true then
          { stats with channels := stats.channels.inc_modified } else stats),
       { st with
         channels := upd st.channels ch (some (merged_channel name icon r)),
         updated := if (save || decide (merged_channel name icon r ≠ r)) = true
           then ch :: st.updated else st.updated }) := by
  unfold channel_merge_steps
  obtain ⟨n0, i0, l0⟩ := r
  cases name with
  | none =>
    cases icon with
    | none =>
      cases save
      · simp only [merged_channel, ne_eq, not_true_eq_false, decide_False, Bool.or_self,
          Bool.false_eq_true, if_false]
        rw [upd_eq_self st.channels ch _ h]
      · simp only [merged_channel, Bool.true_or, if_true, epggrab_channel_updated]
        rw [upd_eq_self st.channels ch _ h]
    | some ic =>
      simp only [merged_channel, channel_set_icon_eq ch ic st _ h, epggrab_channel_updated]
      split <;> rfl
  | some nm =>
    cases icon with
    | none =>
      simp only [merged_channel, channel_set_name_eq ch nm st _ h, epggrab_channel_updated]
      split <;> rfl
    | some ic =>
      simp only [merged_channel, channel_set_name_eq ch nm st _ h]
      rw [channel_set_icon_eq ch ic _ ⟨some nm, i0, l0⟩ (upd_self _ _ _)]
      simp only [upd_upd, epggrab_channel_updated]
      have hb : (save || decide (({ name := some nm, icon := i0, channel := l0 } : epggrab_channel_t)
            ≠ ⟨n0, i0, l0⟩)
          || decide (({ name := some nm, icon := some ic, channel := l0 } : epggrab_channel_t)
            ≠ ⟨some nm, i0, l0⟩))
          = (save || decide (({ name := some nm, icon := some ic, channel := l0 } : epggrab_channel_t)
            ≠ ⟨n0, i0, l0⟩)) := by
        apply Bool.eq_iff_iff.mpr
        cases save <;>
          simp only [Bool.true_or, Bool.false_or, epggrab_channel_t.mk.injEq,
            Bool.or_eq_true, decide_eq_true_eq, true_and, and_true, not_and_or, ne_eq,
            or_self]
      rw [hb]
      split <;> rfl

/-- The function `_xmltv_parse_channel` is its guards, the find-or-create of the guide
channel and the merge steps. -/
theorem parse_channel_unfold (body : htsmsg_t) (stats : epggrab_stats_t) (st : guide_store)
    (c : channel_entry) (hc : resolve_channel (some body) = some c) :
    _xmltv_parse_channel (some body) stats st =
      match _xmltv_channel_find c.id true st with
      | (none, _, st) => (false, stats, st)
      | (some ch, save, st) =>
        channel_merge_steps ch c.name c.icon save
          (if save then { stats with channels := stats.channels.inc_total.inc_created }
            else { stats with channels := stats.channels.inc_total }) st := by
  unfold resolve_channel at hc
  unfold _xmltv_parse_channel
  simp only at hc ⊢
  cases h1 : htsmsg_get_map body "attrib" with
  | none => rw [h1] at hc; exact absurd hc (by simp)
  | some attribs =>
    rw [h1] at hc
    simp only at hc ⊢
    cases h2 : htsmsg_get_str attribs "id" with
    | none => rw [h2] at hc; exact absurd hc (by simp)
    | some id =>
      rw [h2] at hc
      simp only at hc ⊢
      cases h3 : htsmsg_get_map body "tags" with
      | none => rw [h3] at hc; exact absurd hc (by simp)
      | some tags =>
        rw [h3] at hc
        simp only [Option.some.injEq] at hc ⊢
        subst hc
        simp only
        rcases _xmltv_channel_find id true st with ⟨_ | ch, save, st1⟩
        · rfl
        · cases save <;> rfl

/-- The function `_xmltv_parse_channel` skips the element or does what its entry
says. -/
theorem parse_channel_resolved (body : Option htsmsg_t) (stats : epggrab_stats_t)
    (st : guide_store) :
    _xmltv_parse_channel body stats st =
      match resolve_channel body with
      | none => (false, stats, st)
      | some c => apply_channel c stats st := by
  cases body with
  | none => rfl
  | some body =>
    cases hc : resolve_channel (some body) with
    | none =>
      unfold resolve_channel at hc
      unfold _xmltv_parse_channel
      simp only at hc ⊢
      cases h1 : htsmsg_get_map body "attrib" with
      | none => rfl
      | some attribs =>
        rw [h1] at hc
        simp only at hc ⊢
        cases h2 : htsmsg_get_str attribs "id" with
        | none => rfl
        | some id =>
          rw [h2] at hc
          simp only at hc ⊢
          cases h3 : htsmsg_get_map body "tags" with
          | none => rfl
          | some tags => rw [h3] at hc; exact absurd hc (by simp)
    | some c =>
      rw [parse_channel_unfold body stats st c hc]
      simp only [_xmltv_channel_find, epggrab_module_channel_find, apply_channel]
      cases hch : st.channels c.id with
      | none =>
        simp only [if_true]
        rw [channel_merge_steps_eq c.id c.name c.icon true _ _ ⟨none, none, none⟩ (upd_self _ _ _)]
        simp [upd_upd, counted, epggrab_stats_part_t.inc_total, epggrab_stats_part_t.inc_created,
          epggrab_stats_part_t.inc_modified]
      | some r =>
        simp only [Bool.false_eq_true, if_false, Option.getD_some]
        rw [channel_merge_steps_eq c.id c.name c.icon false _ st r hch]
        by_cases hm : merged_channel c.name c.icon r = r
        · simp [hm, counted, epggrab_stats_part_t.inc_total]
        · have hm2 : ¬ r = merged_channel c.name c.icon r := fun h2 => hm h2.symm
          simp [hm, hm2, counted, epggrab_stats_part_t.inc_total,
            epggrab_stats_part_t.inc_modified]

theorem parse_programme_tags_untitled (env : xmltv_env) (ch : channel_t) (tags : htsmsg_t)
    (start stop : Int) (stats : epggrab_stats_t) (st : guide_store)
    (htitle : htsmsg_xml_get_cdata_str tags "title" = none) :
    _xmltv_parse_programme_tags env ch tags start stop stats st = (false, stats, st) := by
  unfold _xmltv_parse_programme_tags
  simp only [htitle]

/-- The function `_xmltv_parse_programme` skips the element or does what its entry
says. -/
theorem parse_programme_resolved (env : xmltv_env) (body : Option htsmsg_t)
    (stats : epggrab_stats_t) (st : guide_store) :
    _xmltv_parse_programme env body stats st =
      match resolve_programme env st body with
      | none => (false, stats, st)
      | some p => apply_programme p stats st := by
  unfold _xmltv_parse_programme resolve_programme
  cases body with
  | none => rfl
  | some body =>
    simp only
    cases htsmsg_get_map body "attrib" with
    | none => rfl
    | some attribs =>
      simp only
      cases htsmsg_get_map body "tags" with
      | none => rfl
      | some tags =>
        simp only
        cases htsmsg_get_str attribs "channel" with
        | none => rfl
        | some chid =>
          simp only [_xmltv_channel_find, epggrab_module_channel_find, channel_link]
          cases hch : st.channels chid with
          | none => rfl
          | some r =>
            simp only [hch, Option.some_bind]
            cases r.channel with
            | none => rfl
            | some channel =>
              simp only
              cases htsmsg_get_str attribs "start" with
              | none => rfl
              | some s1 =>
                simp only
                cases htsmsg_get_str attribs "stop" with
                | none => rfl
                | some s2 =>
                  simp only
                  split
                  · rfl
                  · cases htitle : htsmsg_xml_get_cdata_str tags "title" with
                    | none =>
                      exact parse_programme_tags_untitled env channel tags _ _ stats st htitle
                    | some title =>
                      rw [parse_programme_tags_eq env channel tags _ _ stats st title htitle]
                      rfl

/-- The dispatch of `_xmltv_parse_tv` on one field skips the field or does what its
entry says. -/
theorem parse_tv_field_resolved (env : xmltv_env) (f : htsmsg_field_t)
    (acc : Bool × epggrab_stats_t × guide_store) :
    _xmltv_parse_tv_field env f acc =
      match resolve_field env acc.2.2 f with
      | none => acc
      | some e => (acc.1 || (apply_entry e acc.2.1 acc.2.2).1, (apply_entry e acc.2.1 acc.2.2).2) := by
  unfold _xmltv_parse_tv_field resolve_field
  by_cases h1 : f.1 = "channel"
  · simp only [h1, if_true]
    rw [parse_channel_resolved]
    cases resolve_channel (htsmsg_get_map_by_field f) with
    | none => simp
    | some c => rfl
  · by_cases h2 : f.1 = "programme"
    · simp only [h1, h2, if_true, if_false]
      rw [parse_programme_resolved]
      cases resolve_programme env acc.2.2 (htsmsg_get_map_by_field f) with
      | none => simp
      | some p => rfl
    · simp only [h1, h2, if_false]

/-! ## Entries: links, settled entries, compatible entries -/

theorem merged_channel_link (name icon : Option String) (r : epggrab_channel_t) :
    (merged_channel name icon r).channel = r.channel := by
  cases name <;> cases icon <;> rfl

theorem apply_entry_link (e : xmltv_entry) (stats : epggrab_stats_t) (st : guide_store)
    (chid : String) :
    channel_link (apply_entry e stats st).2.2 chid = channel_link st chid := by
  cases e with
  | programme p => rfl
  | channel c =>
    simp only [apply_entry, apply_channel, channel_link]
    by_cases h : chid = c.id
    · rw [h, upd_self]
      cases st.channels c.id with
      | none => simp [merged_channel_link]
      | some r => simp [merged_channel_link]
    · rw [upd_ne _ _ _ _ h]

theorem resolve_field_link (env : xmltv_env) (st st2 : guide_store) (f : htsmsg_field_t)
    (h : ∀ chid, channel_link st2 chid = channel_link st chid) :
    resolve_field env st2 f = resolve_field env st f := by
  have hp : ∀ body, resolve_programme env st2 body = resolve_programme env st body := by
    intro body
    unfold resolve_programme
    cases body with
    | none => rfl
    | some body =>
      simp only
      cases htsmsg_get_map body "attrib" with
      | none => rfl
      | some attribs =>
        simp only
        cases htsmsg_get_map body "tags" with
        | none => rfl
        | some tags =>
          simp only
          cases htsmsg_get_str attribs "channel" with
          | none => rfl
          | some chid => simp only [h chid]
  unfold resolve_field
  rw [hp]

/-- The records that the merge of an entry leaves unchanged are those that hold the
fields of the entry. -/
theorem merged_episode_fix_iff (title : String) (desc category : Option String)
    (pn pc en : Int) (r : epg_episode_t) :
    merged_episode title desc category pn pc en r = r ↔
      r.title = some title ∧ (∀ x, desc = some x → r.description = some x) ∧
      (∀ x, category = some x → r.genre = [x]) ∧
      (pn ≠ 0 → r.part_number = pn ∧ r.part_count = pc) ∧ (en ≠ 0 → r.number = en) := by
  obtain ⟨t0, d0, g0, n0, pn0, pc0⟩ := r
  unfold merged_episode
  cases desc <;> cases category <;> by_cases hpn : pn = 0 <;> by_cases hen : en = 0 <;>
    simp only [hpn, hen, ne_eq, not_true_eq_false, not_false_eq_true, if_true, if_false,
      epg_episode_t.mk.injEq, true_and, and_true, false_implies, forall_const,
      Option.some.injEq, forall_eq', reduceCtorEq, implies_true] <;>
    constructor <;> intro h <;> simp_all

theorem merged_episode_fields (title : String) (desc category : Option String)
    (pn pc en : Int) (r : epg_episode_t) :
    (merged_episode title desc category pn pc en r).title = some title ∧
    (merged_episode title desc category pn pc en r).description
      = (match desc with | some x => some x | none => r.description) ∧
    (merged_episode title desc category pn pc en r).genre
      = (match category with | some x => [x] | none => r.genre) ∧
    (merged_episode title desc category pn pc en r).part_number
      = (if pn ≠ 0 then pn else r.part_number) ∧
    (merged_episode title desc category pn pc en r).part_count
      = (if pn ≠ 0 then pc else r.part_count) ∧
    (merged_episode title desc category pn pc en r).number
      = (if en ≠ 0 then en else r.number) := by
  unfold merged_episode
  cases desc <;> cases category <;> by_cases hpn : pn = 0 <;> by_cases hen : en = 0 <;>
    simp [hpn, hen]

/-- The merge of an entry is idempotent. -/
theorem merged_episode_idem (title : String) (desc category : Option String)
    (pn pc en : Int) (r : epg_episode_t) :
    merged_episode title desc category pn pc en (merged_episode title desc category pn pc en r)
      = merged_episode title desc category pn pc en r := by
  obtain ⟨ht, hd, hg, hpn, hpc, hen⟩ := merged_episode_fields title desc category pn pc en r
  rw [merged_episode_fix_iff]
  refine ⟨ht, ?_, ?_, ?_, ?_⟩
  · intro x hx; rw [hd, hx]
  · intro x hx; rw [hg, hx]
  · intro h; rw [hpn, hpc, if_pos h, if_pos h]; exact ⟨rfl, rfl⟩
  · intro h; rw [hen, if_pos h]

theorem agree_some {α : Type} [DecidableEq α] (a : Option α) (x y : α)
    (h : agree a (some y) = true) (ha : a = some x) : x = y := by
  subst ha
  simpa [agree] using h

/-- The merge of a compatible entry keeps the fields of a settled entry. -/
theorem merged_episode_keeps (p q : programme_entry) (r : epg_episode_t)
    (hfix : merged_episode p.title p.desc p.category p.pn p.pc p.en r = r)
    (ht : p.title = q.title) (hd : agree p.desc q.desc = true)
    (hc : agree p.category q.category = true)
    (hpn : p.pn ≠ 0 → q.pn ≠ 0 → p.pn = q.pn ∧ p.pc = q.pc)
    (hen : p.en ≠ 0 → q.en ≠ 0 → p.en = q.en) :
    merged_episode p.title p.desc p.category p.pn p.pc p.en
        (merged_episode q.title q.desc q.category q.pn q.pc q.en r)
      = merged_episode q.title q.desc q.category q.pn q.pc q.en r := by
  obtain ⟨ft, fd, fg, fpn, fpc, fen⟩ :=
    merged_episode_fields q.title q.desc q.category q.pn q.pc q.en r
  obtain ⟨rt, rd, rg, rpn, ren⟩ := (merged_episode_fix_iff _ _ _ _ _ _ r).mp hfix
  rw [merged_episode_fix_iff]
  refine ⟨by rw [ft, ht], ?_, ?_, ?_, ?_⟩
  · intro x hx
    rw [fd]
    cases hq : q.desc with
    | none => exact rd x hx
    | some y => rw [hq] at hd; rw [agree_some p.desc x y hd hx]
  · intro x hx
    rw [fg]
    cases hq : q.category with
    | none => exact rg x hx
    | some y => rw [hq] at hc; rw [agree_some p.category x y hc hx]
  · intro h
    rw [fpn, fpc]
    by_cases hq : q.pn = 0
    · simp only [hq, ne_eq, not_true_eq_false, if_false]
      exact rpn h
    · simp only [hq, ne_eq, not_false_eq_true, if_true]
      exact ⟨(hpn h hq).1.symm, (hpn h hq).2.symm⟩
  · intro h
    rw [fen]
    by_cases hq : q.en = 0
    · simp only [hq, ne_eq, not_true_eq_false, if_false]
      exact ren h
    · simp only [hq, ne_eq, not_false_eq_true, if_true]
      exact (hen h hq).symm

theorem merged_channel_fix_iff (name icon : Option String) (r : epggrab_channel_t) :
    merged_channel name icon r = r ↔
      (∀ x, name = some x → r.name = some x) ∧ (∀ x, icon = some x → r.icon = some x) := by
  obtain ⟨n0, i0, l0⟩ := r
  unfold merged_channel
  cases name <;> cases icon <;>
    simp only [epggrab_channel_t.mk.injEq, true_and, and_true, false_implies, forall_const,
      Option.some.injEq, forall_eq', reduceCtorEq, implies_true] <;>
    constructor <;> intro h <;> simp_all

theorem merged_channel_fields (name icon : Option String) (r : epggrab_channel_t) :
    (merged_channel name icon r).name = (match name with | some x => some x | none => r.name) ∧
    (merged_channel name icon r).icon = (match icon with | some x => some x | none => r.icon) := by
  unfold merged_channel
  cases name <;> cases icon <;> simp

theorem merged_channel_idem (name icon : Option String) (r : epggrab_channel_t) :
    merged_channel name icon (merged_channel name icon r) = merged_channel name icon r := by
  obtain ⟨hn, hi⟩ := merged_channel_fields name icon r
  rw [merged_channel_fix_iff]
  refine ⟨?_, ?_⟩
  · intro x hx; rw [hn, hx]
  · intro x hx; rw [hi, hx]

theorem merged_channel_keeps (c d : channel_entry) (r : epggrab_channel_t)
    (hfix : merged_channel c.name c.icon r = r)
    (hn : agree c.name d.name = true) (hi : agree c.icon d.icon = true) :
    merged_channel c.name c.icon (merged_channel d.name d.icon r)
      = merged_channel d.name d.icon r := by
  obtain ⟨fn, fi⟩ := merged_channel_fields d.name d.icon r
  obtain ⟨rn, ri⟩ := (merged_channel_fix_iff _ _ r).mp hfix
  rw [merged_channel_fix_iff]
  refine ⟨?_, ?_⟩
  · intro x hx
    rw [fn]
    cases hq : d.name with
    | none => exact rn x hx
    | some y => rw [hq] at hn; rw [agree_some c.name x y hn hx]
  · intro x hx
    rw [fi]
    cases hq : d.icon with
    | none => exact ri x hx
    | some y => rw [hq] at hi; rw [agree_some c.icon x y hi hx]

/-- An entry is settled once it has been applied. -/
theorem apply_entry_settles (e : xmltv_entry) (stats : epggrab_stats_t) (st : guide_store) :
    e.settled (apply_entry e stats st).2.2 := by
  cases e with
  | channel c =>
    simp only [xmltv_entry.settled, apply_entry, apply_channel]
    exact ⟨_, upd_self _ _ _, merged_channel_idem _ _ _⟩
  | programme p =>
    simp only [xmltv_entry.settled, apply_entry, apply_programme]
    exact ⟨⟨_, upd_self _ _ _, merged_episode_idem _ _ _ _ _ _ _⟩, upd_self _ _ _⟩

/-- A settled entry changes nothing: the result is 0, the store is the same, and no
created or modified counter moves. -/
theorem apply_entry_settled (e : xmltv_entry) (stats : epggrab_stats_t) (st : guide_store)
    (h : e.settled st) :
    (apply_entry e stats st).1 = false ∧ (apply_entry e stats st).2.2 = st ∧
      same_changes stats (apply_entry e stats st).2.1 := by
  cases e with
  | channel c =>
    obtain ⟨r, hr, hfix⟩ := h
    simp only [apply_entry, apply_channel, hr, Option.getD_some, hfix, ne_eq,
      not_true_eq_false, decide_False, if_false, Option.isNone_some, same_changes, counted,
      Bool.false_eq_true, add_zero, and_self, and_true, true_and]
    rw [← hr, upd_eq_self st.channels c.id _ rfl]
  | programme p =>
    obtain ⟨⟨r, hr, hfix⟩, hb⟩ := h
    simp only [apply_entry, apply_programme, hr, hb, Option.getD_some, hfix, ne_eq,
      not_true_eq_false, decide_False, if_false, Option.isNone_some, same_changes, counted,
      Bool.false_eq_true, add_zero, and_self, and_true, true_and, Bool.or_self]
    rw [← hr, ← hb, upd_eq_self st.episodes p.key _ rfl, upd_eq_self st.broadcasts _ _ rfl]

/-- A settled entry stays settled when a compatible entry is applied. -/
theorem apply_entry_preserves (e f : xmltv_entry) (stats : epggrab_stats_t)
    (st : guide_store) (hc : e.compatible f = true) (h : e.settled st) :
    e.settled (apply_entry f stats st).2.2 := by
  cases e with
  | channel c =>
    cases f with
    | programme q => exact h
    | channel d =>
      obtain ⟨r, hr, hfix⟩ := h
      simp only [xmltv_entry.compatible, decide_eq_true_eq] at hc
      simp only [xmltv_entry.settled, apply_entry, apply_channel]
      by_cases hid : c.id = d.id
      · obtain ⟨hn, hi⟩ := hc hid
        rw [← hid, upd_self, hr, Option.getD_some]
        exact ⟨_, rfl, merged_channel_keeps c d r hfix hn hi⟩
      · rw [upd_ne _ _ _ _ hid]
        exact ⟨r, hr, hfix⟩
  | programme p =>
    cases f with
    | channel d => exact h
    | programme q =>
      obtain ⟨⟨r, hr, hfix⟩, hb⟩ := h
      simp only [xmltv_entry.compatible, Bool.and_eq_true, decide_eq_true_eq] at hc
      obtain ⟨hkey, hslot⟩ := hc
      simp only [xmltv_entry.settled, apply_entry, apply_programme]
      constructor
      · by_cases hk : p.key = q.key
        · obtain ⟨ht, hd, hcat, hpn, hen⟩ := hkey hk
          rw [← hk, upd_self, hr, Option.getD_some]
          exact ⟨_, rfl, merged_episode_keeps p q r hfix ht hd hcat hpn hen⟩
        · rw [upd_ne _ _ _ _ hk]
          exact ⟨r, hr, hfix⟩
      · by_cases hs : (p.channel, p.start, p.stop) = (q.channel, q.start, q.stop)
        · rw [← hs, upd_self, hslot hs]
        · rw [upd_ne _ _ _ _ hs]
          exact hb

/-! ## Passes over the entries of a document -/

theorem run_entries_cons (e : xmltv_entry) (es : List xmltv_entry)
    (acc : Bool × epggrab_stats_t × guide_store) :
    run_entries (e :: es) acc
      = run_entries es (acc.1 || (apply_entry e acc.2.1 acc.2.2).1, (apply_entry e acc.2.1 acc.2.2).2) :=
  rfl

theorem run_entries_link (es : List xmltv_entry) :
    ∀ (acc : Bool × epggrab_stats_t × guide_store) (chid : String),
      channel_link (run_entries es acc).2.2 chid = channel_link acc.2.2 chid := by
  induction es with
  | nil => intro acc chid; rfl
  | cons e es ih =>
    intro acc chid
    rw [run_entries_cons, ih]
    exact apply_entry_link e acc.2.1 acc.2.2 chid

/-- The loop of `_xmltv_parse_tv` is the pass over the entries of the fields, resolved
in any store with the same links. -/
theorem parse_tv_loop_entries (env : xmltv_env) (st0 : guide_store) (fields : htsmsg_t) :
    ∀ acc : Bool × epggrab_stats_t × guide_store,
      (∀ chid, channel_link acc.2.2 chid = channel_link st0 chid) →
      fields.foldl (fun acc f => _xmltv_parse_tv_field env f acc) acc
        = run_entries (fields.filterMap (resolve_field env st0)) acc := by
  induction fields with
  | nil => intro acc _; rfl
  | cons f fields ih =>
    intro acc hl
    rw [List.foldl_cons, parse_tv_field_resolved, resolve_field_link env st0 acc.2.2 f hl]
    cases hr : resolve_field env st0 f with
    | none =>
      rw [List.filterMap_cons_none hr]
      exact ih acc hl
    | some e =>
      rw [List.filterMap_cons_some hr, run_entries_cons]
      apply ih
      intro chid
      rw [apply_entry_link]
      exact hl chid

theorem run_entries_preserves (e : xmltv_entry) (es : List xmltv_entry) :
    ∀ acc : Bool × epggrab_stats_t × guide_store,
      (∀ f ∈ es, e.compatible f = true) → e.settled acc.2.2 →
      e.settled (run_entries es acc).2.2 := by
  induction es with
  | nil => intro acc _ h; exact h
  | cons f es ih =>
    intro acc hc h
    rw [run_entries_cons]
    apply ih
    · exact fun g hg => hc g (List.mem_cons_of_mem _ hg)
    · exact apply_entry_preserves e f acc.2.1 acc.2.2 (hc f (List.mem_cons_self _ _)) h

/-- After a pass over pairwise compatible entries every entry is settled. -/
theorem run_entries_settles (es : List xmltv_entry) :
    ∀ acc : Bool × epggrab_stats_t × guide_store,
      es.Pairwise (fun a b => a.compatible b = true) →
      ∀ e ∈ es, e.settled (run_entries es acc).2.2 := by
  induction es with
  | nil => intro acc _ e he; exact absurd he (List.not_mem_nil _)
  | cons f es ih =>
    intro acc hp e he
    rw [List.pairwise_cons] at hp
    rw [run_entries_cons]
    rcases List.mem_cons.mp he with rfl | hmem
    · exact run_entries_preserves e es _ hp.1 (apply_entry_settles e acc.2.1 acc.2.2)
    · exact ih _ hp.2 e hmem

/-- A pass over settled entries changes nothing. -/
theorem run_entries_settled (es : List xmltv_entry) :
    ∀ (b : Bool) (stats : epggrab_stats_t) (st : guide_store),
      (∀ e ∈ es, e.settled st) →
      (run_entries es (b, stats, st)).1 = b ∧ (run_entries es (b, stats, st)).2.2 = st ∧
        same_changes stats (run_entries es (b, stats, st)).2.1 := by
  induction es with
  | nil =>
    intro b stats st _
    exact ⟨rfl, rfl, rfl, rfl, rfl, rfl, rfl, rfl⟩
  | cons e es ih =>
    intro b stats st h
    obtain ⟨h1, h2, h3⟩ := apply_entry_settled e stats st (h e (List.mem_cons_self _ _))
    rw [run_entries_cons]
    simp only
    rw [h1, Bool.or_false]
    have e2 : (apply_entry e stats st).2 = ((apply_entry e stats st).2.1, st) :=
      Prod.ext rfl h2
    rw [e2]
    obtain ⟨i1, i2, i3⟩ := ih b (apply_entry e stats st).2.1 st
      (fun g hg => h g (List.mem_cons_of_mem _ hg))
    refine ⟨i1, i2, ?_⟩
    unfold same_changes at h3 i3 ⊢
    obtain ⟨a1, a2, a3, a4, a5, a6⟩ := h3
    obtain ⟨b1, b2, b3, b4, b5, b6⟩ := i3
    exact ⟨b1.trans a1, b2.trans a2, b3.trans a3, b4.trans a4, b5.trans a5, b6.trans a6⟩

/-! ## C2: idempotence of a document pass -/

/-- C2, as the code has it: when the entries of the document are pairwise compatible
(no two of them ask the store to hold different values in one record), a second run of
`_xmltv_parse_tv` on the same document, with the same dispatch clock, on the store and
statistics left by the first run returns 0, leaves the store as it is, and increments no
created and no modified counter. -/
theorem C2_second_pass_no_change (env : xmltv_env) (body : htsmsg_t)
    (stats : epggrab_stats_t) (st : guide_store) (hfree : conflict_free env st body) :
    (_xmltv_parse_tv env body (_xmltv_parse_tv env body stats st).2.1
        (_xmltv_parse_tv env body stats st).2.2).1 = false ∧
    (_xmltv_parse_tv env body (_xmltv_parse_tv env body stats st).2.1
        (_xmltv_parse_tv env body stats st).2.2).2.2
      = (_xmltv_parse_tv env body stats st).2.2 ∧
    same_changes (_xmltv_parse_tv env body stats st).2.1
      (_xmltv_parse_tv env body (_xmltv_parse_tv env body stats st).2.1
        (_xmltv_parse_tv env body stats st).2.2).2.1 := by
  unfold conflict_free document_entries at hfree
  unfold _xmltv_parse_tv
  cases htags : htsmsg_get_map body "tags" with
  | none => exact ⟨rfl, rfl, rfl, rfl, rfl, rfl, rfl, rfl⟩
  | some tags =>
    rw [htags] at hfree
    simp only [Option.getD_some] at hfree ⊢
    have e1 := parse_tv_loop_entries env st tags (false, stats, st) (fun _ => rfl)
    rw [e1]
    have hl : ∀ chid, channel_link
        (run_entries (tags.filterMap (resolve_field env st)) (false, stats, st)).2.2 chid
          = channel_link st chid :=
      fun chid => run_entries_link _ (false, stats, st) chid
    have e2 := parse_tv_loop_entries env st tags
      (false, (run_entries (tags.filterMap (resolve_field env st)) (false, stats, st)).2.1,
        (run_entries (tags.filterMap (resolve_field env st)) (false, stats, st)).2.2) hl
    rw [e2]
    exact run_entries_settled _ false _ _
      (run_entries_settles _ (false, stats, st) hfree)

/-- C2 at a concrete document with a channel, three programmes and a foreign element:
the second run returns 0 and the created and modified counters stay at the values of
the first run. -/
theorem C2_second_pass_no_change_witness :
    (_xmltv_parse_tv sample_env plain_document
        (_xmltv_parse_tv sample_env plain_document zero_stats sample_store).2.1
        (_xmltv_parse_tv sample_env plain_document zero_stats sample_store).2.2).1 = false ∧
    same_changes (_xmltv_parse_tv sample_env plain_document zero_stats sample_store).2.1
      (_xmltv_parse_tv sample_env plain_document
        (_xmltv_parse_tv sample_env plain_document zero_stats sample_store).2.1
        (_xmltv_parse_tv sample_env plain_document zero_stats sample_store).2.2).2.1 ∧
    (_xmltv_parse_tv sample_env plain_document zero_stats sample_store).1 = true :=
  have h := C2_second_pass_no_change sample_env plain_document zero_stats sample_store
    (by unfold conflict_free; decide)
  ⟨h.1, h.2.2, by decide⟩

/-- C2 fails on a document whose entries conflict: two programmes with the same
description and different titles share one episode, each run writes the title `A` and
then the title `B` into it, so the second run returns changed as the first did and
increments the modified counter of the episodes twice more. -/
theorem C2_second_pass_changes :
    (_xmltv_parse_tv sample_env shared_description_document zero_stats sample_store).1 = true ∧
    (_xmltv_parse_tv sample_env shared_description_document
        (_xmltv_parse_tv sample_env shared_description_document zero_stats sample_store).2.1
        (_xmltv_parse_tv sample_env shared_description_document zero_stats
          sample_store).2.2).1 = true ∧
    (_xmltv_parse_tv sample_env shared_description_document zero_stats
        sample_store).2.1.episodes.modified = 2 ∧
    (_xmltv_parse_tv sample_env shared_description_document
        (_xmltv_parse_tv sample_env shared_description_document zero_stats sample_store).2.1
        (_xmltv_parse_tv sample_env shared_description_document zero_stats
          sample_store).2.2).2.1.episodes.modified = 4 := by
  decide

/-! ## C11: the order of the descriptors -/

/-- C11, as the code has it: for a buffer made of well-formed records whose names fit
the 200 bytes, the descriptors that `_xmltv_load_grabbers` adds stand at the head of the
module list in the reverse order of their records: each descriptor is inserted at the
head, so the descriptor of the last record comes first and the former list follows. -/
theorem C11_descriptors_in_reverse_order (rs : List grabber_record)
    (list : List epggrab_module_t)
    (hrs : ∀ r ∈ rs, r.well_formed = true ∧ r.shown.length ≤ 192)
    (hsize : (render_records rs).length < 18446744073709551616) :
    _xmltv_load_grabbers (render_records rs).length (render_records rs) list
      = some ((rs.reverse.map grabber_record.descriptor) ++ list) := by
  rw [load_grabbers_records rs list hrs hsize, List.map_reverse]

/-- C11 at the buffer of the specification: the descriptor of `/bin/b`, the second
record, is first in the list, before the descriptor of `/bin/a`. -/
theorem C11_descriptors_in_reverse_order_witness :
    _xmltv_load_grabbers 24 "/bin/a|Grabber A\n/bin/b\n".toList []
      = some [grabber_module "/bin/b".toList "/bin/b".toList,
          grabber_module "/bin/a".toList "Grabber A".toList] :=
  C11_descriptors_in_reverse_order spec_records [] (by decide) (by decide)

/-- C11 fails at the buffer of the specification: the list does not hold the descriptor
of `/bin/a` before the descriptor of `/bin/b`, as the order of the records would have
it; it holds them the other way round. -/
theorem C11_record_order_not_kept :
    render_records spec_records = "/bin/a|Grabber A\n/bin/b\n".toList ∧
    _xmltv_load_grabbers 24 "/bin/a|Grabber A\n/bin/b\n".toList []
      ≠ some (spec_records.map grabber_record.descriptor) ∧
    _xmltv_load_grabbers 24 "/bin/a|Grabber A\n/bin/b\n".toList []
      = some (spec_records.map grabber_record.descriptor).reverse := by
  decide

/-! ## C13: programmes of unknown or unlinked channels -/

/-- C13: a programme entry whose channel attribute names no known guide channel, or a
guide channel without a link to a real channel, is skipped by `_xmltv_parse_programme`
whatever its other attributes and tags are: the result is 0, and the store (the guide
channels included: none is created) and the statistics are the ones given. -/
theorem C13_unlinked_channel_skipped (env : xmltv_env) (body attribs : htsmsg_t)
    (chid : String) (stats : epggrab_stats_t) (st : guide_store)
    (hattr : htsmsg_get_map body "attrib" = some attribs)
    (hchan : htsmsg_get_str attribs "channel" = some chid)
    (hlink : st.channels chid = none ∨ ∃ r, st.channels chid = some r ∧ r.channel = none) :
    _xmltv_parse_programme env (some body) stats st = (false, stats, st) := by
  have hl : channel_link st chid = none := by
    unfold channel_link
    rcases hlink with h | ⟨r, h, hr⟩
    · rw [h]; rfl
    · rw [h]; exact hr
  rw [parse_programme_resolved]
  unfold resolve_programme
  simp only [hattr, hchan]
  cases htsmsg_get_map body "tags" with
  | none => rfl
  | some tags => simp only [hl]

/-- C13 at two concrete entries with valid intervals and titles: one on the unknown
channel `c9`, one on the known but unlinked channel `c2`. -/
theorem C13_unlinked_channel_skipped_witness :
    _xmltv_parse_programme sample_env
        (some (programme_body "c9" "20300101000000 +0000" "20300101010000 +0000"
          [cdata_tag "title" "News"])) zero_stats sample_store
      = (false, zero_stats, sample_store) ∧
    _xmltv_parse_programme sample_env
        (some (programme_body "c2" "20300101000000 +0000" "20300101010000 +0000"
          [cdata_tag "title" "News"])) zero_stats sample_store
      = (false, zero_stats, sample_store) :=
  ⟨C13_unlinked_channel_skipped sample_env _
      [("channel", .str "c9"), ("start", .str "20300101000000 +0000"),
        ("stop", .str "20300101010000 +0000")] "c9" zero_stats sample_store
      (by rfl) (by rfl) (Or.inl (by decide)),
   C13_unlinked_channel_skipped sample_env _
      [("channel", .str "c2"), ("start", .str "20300101000000 +0000"),
        ("stop", .str "20300101010000 +0000")] "c2" zero_stats sample_store
      (by rfl) (by rfl) (Or.inr ⟨⟨none, none, none⟩, by decide, rfl⟩)⟩

/-! ## C15, C16, C17: the test vectors of the episode numbering -/

/-- C15, as the code has it: `parse_xmltv_ns_episode` applied to `1.2.3` yields season
number 2, episode number 3 and part number 4, each number of the text plus one, and no
counts. -/
theorem C15_vector_1_2_3 :
    parse_xmltv_ns_episode "1.2.3".toList = ⟨2, 0, 3, 0, 4, 0⟩ := by
  decide

/-- C15 fails: for `1.2.3` the episode number is 3 and the part number is 4, not 1 and
1; the season number is 2. -/
theorem C15_vector_1_2_3_not_ones :
    (parse_xmltv_ns_episode "1.2.3".toList).sn = 2 ∧
    (parse_xmltv_ns_episode "1.2.3".toList).en ≠ 1 ∧
    (parse_xmltv_ns_episode "1.2.3".toList).pn ≠ 1 := by
  decide

/-- C16, as the code has it: `parse_xmltv_ns_episode` applied to the empty string
yields 0 for the season, episode and part numbers and for the three counts: every
component is absent, and the absent value -1 plus one is 0. -/
theorem C16_vector_empty :
    parse_xmltv_ns_episode [] = ⟨0, 0, 0, 0, 0, 0⟩ := by
  decide

/-- C16 fails: for the empty string the season, episode and part numbers are not 1. -/
theorem C16_vector_empty_not_ones :
    (parse_xmltv_ns_episode "".toList).sn ≠ 1 ∧
    (parse_xmltv_ns_episode "".toList).en ≠ 1 ∧
    (parse_xmltv_ns_episode "".toList).pn ≠ 1 := by
  decide

/-- C17 at the example of the documentation, `0 . 12/13 . 0/3`: the code yields season
number 1 without a count, episode number 13 and part number 1, but the episode count 14
and the part count 4, one more than the thirteen episodes and the three parts of the
documented meaning. -/
theorem C17_documented_example :
    parse_xmltv_ns_episode "0 . 12/13 . 0/3".toList = ⟨1, 0, 13, 14, 1, 4⟩ := by
  decide

/-! ## C12: the result of a document pass -/

theorem parse_tv_field_result (env : xmltv_env) (f : htsmsg_field_t)
    (acc : Bool × epggrab_stats_t × guide_store) :
    (_xmltv_parse_tv_field env f acc).1 = true ↔
      acc.1 = true ∨ dispatched_changed env f acc.2.1 acc.2.2 := by
  unfold _xmltv_parse_tv_field dispatched_changed
  by_cases h1 : f.1 = "channel"
  · simp [h1]
  · by_cases h2 : f.1 = "programme"
    · simp [h1, h2]
    · simp [h1, h2]

/-- The loop of `_xmltv_parse_tv` returns changed exactly when it started with changed
or one of the dispatched reconciliations returned changed. -/
theorem parse_tv_loop_result (env : xmltv_env) (fields : htsmsg_t) :
    ∀ acc : Bool × epggrab_stats_t × guide_store,
      (fields.foldl (fun acc f => _xmltv_parse_tv_field env f acc) acc).1 = true ↔
        acc.1 = true ∨ ∃ pre f post, fields = pre ++ f :: post ∧
          dispatched_changed env f
            (pre.foldl (fun acc f => _xmltv_parse_tv_field env f acc) acc).2.1
            (pre.foldl (fun acc f => _xmltv_parse_tv_field env f acc) acc).2.2 := by
  induction fields with
  | nil =>
    intro acc
    simp
  | cons g rest ih =>
    intro acc
    rw [List.foldl_cons, ih, parse_tv_field_result]
    constructor
    · rintro ((h | h) | ⟨pre, f, post, he, h⟩)
      · exact Or.inl h
      · exact Or.inr ⟨[], g, rest, rfl, h⟩
      · exact Or.inr ⟨g :: pre, f, post, by rw [he]; rfl, h⟩
    · rintro (h | ⟨pre, f, post, he, h⟩)
      · exact Or.inl (Or.inl h)
      · cases pre with
        | nil =>
          simp only [List.nil_append, List.cons.injEq] at he
          obtain ⟨rfl, rfl⟩ := he
          exact Or.inl (Or.inr h)
        | cons p pre =>
          simp only [List.cons_append, List.cons.injEq] at he
          obtain ⟨rfl, rfl⟩ := he
          exact Or.inr ⟨pre, f, post, rfl, h⟩

theorem parse_tv_field_other (env : xmltv_env) (f : htsmsg_field_t)
    (acc : Bool × epggrab_stats_t × guide_store) (h1 : f.1 ≠ "channel")
    (h2 : f.1 ≠ "programme") : _xmltv_parse_tv_field env f acc = acc := by
  unfold _xmltv_parse_tv_field
  simp only [h1, h2, if_false]

theorem parse_tv_loop_filter (env : xmltv_env) (fields : htsmsg_t) :
    ∀ acc : Bool × epggrab_stats_t × guide_store,
      (fields.filter (fun f => f.1 = "channel" ∨ f.1 = "programme")).foldl
          (fun acc f => _xmltv_parse_tv_field env f acc) acc
        = fields.foldl (fun acc f => _xmltv_parse_tv_field env f acc) acc := by
  induction fields with
  | nil => intro acc; rfl
  | cons g rest ih =>
    intro acc
    by_cases hg : g.1 = "channel" ∨ g.1 = "programme"
    · rw [List.filter_cons_of_pos (by simpa using hg), List.foldl_cons, List.foldl_cons, ih]
    · rw [List.filter_cons_of_neg (by simpa using hg), List.foldl_cons, ih]
      have h := not_or.mp hg
      rw [parse_tv_field_other env g acc h.1 h.2]

/-- C12: `_xmltv_parse_tv` returns a non-zero result exactly when one of the channel or
programme reconciliations it dispatched returned changed, each run on the statistics
and the store left by the children before it; a child that is neither a `channel` nor a
`programme` leaves the result, the statistics and the store as they are, so that the
pass is the pass over the channel and programme children alone; and a root without a
tags map returns 0 with statistics and store untouched. -/
theorem C12_result_is_or_of_changes (env : xmltv_env) (body : htsmsg_t)
    (stats : epggrab_stats_t) (st : guide_store) :
    (∀ tags, htsmsg_get_map body "tags" = some tags →
      ((_xmltv_parse_tv env body stats st).1 = true ↔
        ∃ pre f post, tags = pre ++ f :: post ∧
          dispatched_changed env f
            (pre.foldl (fun acc f => _xmltv_parse_tv_field env f acc) (false, stats, st)).2.1
            (pre.foldl (fun acc f => _xmltv_parse_tv_field env f acc) (false, stats, st)).2.2)) ∧
    (∀ (f : htsmsg_field_t) (acc : Bool × epggrab_stats_t × guide_store),
      f.1 ≠ "channel" → f.1 ≠ "programme" → _xmltv_parse_tv_field env f acc = acc) ∧
    (∀ tags, htsmsg_get_map body "tags" = some tags →
      _xmltv_parse_tv env body stats st
        = _xmltv_parse_tv env
            [("tags", .map (tags.filter (fun f => f.1 = "channel" ∨ f.1 = "programme")))]
            stats st) ∧
    (htsmsg_get_map body "tags" = none →
      _xmltv_parse_tv env body stats st = (false, stats, st)) := by
  refine ⟨?_, fun f acc h1 h2 => parse_tv_field_other env f acc h1 h2, ?_, ?_⟩
  · intro tags htags
    unfold _xmltv_parse_tv
    simp only [htags]
    rw [parse_tv_loop_result]
    simp
  · intro tags htags
    unfold _xmltv_parse_tv
    rw [htags]
    have h : htsmsg_get_map
        [("tags", htsmsg_value.map (tags.filter (fun f => f.1 = "channel" ∨ f.1 = "programme")))]
        "tags" = some (tags.filter (fun f => f.1 = "channel" ∨ f.1 = "programme")) := rfl
    rw [h]
    exact (parse_tv_loop_filter env tags (false, stats, st)).symm
  · intro htags
    unfold _xmltv_parse_tv
    rw [htags]

/-- C12 at concrete documents: the pass over the sample document returns changed
because the reconciliation of its first child, a channel, does; the same document
without its foreign child gives the same pass; and a root without tags returns 0. -/
theorem C12_result_is_or_of_changes_witness :
    (_xmltv_parse_tv sample_env plain_document zero_stats sample_store).1 = true ∧
    _xmltv_parse_tv sample_env [] zero_stats sample_store = (false, zero_stats, sample_store) :=
  ⟨((C12_result_is_or_of_changes sample_env plain_document zero_stats sample_store).1 _ rfl).mpr
      ⟨[], _, _, rfl, Or.inl ⟨rfl, by decide⟩⟩,
   (C12_result_is_or_of_changes sample_env [] zero_stats sample_store).2.2.2 rfl⟩

/-! ## C18: segmentation of the episode number -/

theorem parse_num_b_segment (s : List Char) : ∀ b : Int,
    (xmltv_ns_get_parse_num_b s b).2 = after_first_dot s ∧
    (xmltv_ns_get_parse_num_b s b).1 = (xmltv_ns_get_parse_num_b (first_segment s) b).1 := by
  induction s with
  | nil => intro b; exact ⟨rfl, rfl⟩
  | cons c t ih =>
    intro b
    unfold after_first_dot first_segment at *
    by_cases hc : c = '.'
    · subst hc
      exact ⟨rfl, rfl⟩
    · have hne : (c != '.') = true := by simpa using hc
      simp only [List.dropWhile_cons, List.takeWhile_cons, hne, if_true,
        xmltv_ns_get_parse_num_b, hc, if_false]
      split
      · exact ih _
      · exact ih _

theorem parse_num_a_segment (s : List Char) : ∀ a : Int,
    (xmltv_ns_get_parse_num_a s a).2.2 = after_first_dot s ∧
    (xmltv_ns_get_parse_num_a s a).1 = (xmltv_ns_get_parse_num_a (first_segment s) a).1 ∧
    (xmltv_ns_get_parse_num_a s a).2.1 = (xmltv_ns_get_parse_num_a (first_segment s) a).2.1 := by
  induction s with
  | nil => intro a; exact ⟨rfl, rfl, rfl⟩
  | cons c t ih =>
    intro a
    have hb := parse_num_b_segment t (-1)
    unfold after_first_dot first_segment at *
    by_cases hc : c = '.'
    · subst hc
      exact ⟨rfl, rfl, rfl⟩
    · have hne : (c != '.') = true := by simpa using hc
      simp only [List.dropWhile_cons, List.takeWhile_cons, hne, if_true,
        xmltv_ns_get_parse_num_a, hc, if_false]
      by_cases hs : c = '/'
      · simp only [hs, if_true]
        exact ⟨hb.1, trivial, hb.2⟩
      · simp only [hs, if_false]
        split
        · exact ih _
        · exact ih _

theorem parse_num_segment (s : List Char) :
    (xmltv_ns_get_parse_num s).2.2 = after_first_dot s ∧
    (xmltv_ns_get_parse_num s).1 = (xmltv_ns_get_parse_num (first_segment s)).1 ∧
    (xmltv_ns_get_parse_num s).2.1 = (xmltv_ns_get_parse_num (first_segment s)).2.1 := by
  obtain ⟨h1, h2, h3⟩ := parse_num_a_segment s (-1)
  unfold xmltv_ns_get_parse_num
  simp only [h1, h2, h3, and_self]

theorem after_first_dot_suffix (s : List Char) : after_first_dot s <:+ s :=
  (List.drop_suffix 1 _).trans (List.dropWhile_suffix _)

/-- C18: `xmltv_ns_get_parse_num` returns as remainder the text that follows the first
dot of the string, or the empty end of the string when it has no dot, and the remainder
is a suffix of the string (the function does not go past its end); the two values it
stores depend on the first segment only, and are 0 and 0 when the segment is empty.
Hence the outputs of `parse_xmltv_ns_episode` are those of the first three segments,
each decoded alone. -/
theorem C18_segmentation (s : List Char) :
    (xmltv_ns_get_parse_num s).2.2 = after_first_dot s ∧
    (xmltv_ns_get_parse_num s).2.2 <:+ s ∧
    (xmltv_ns_get_parse_num s).1 = (xmltv_ns_get_parse_num (first_segment s)).1 ∧
    (xmltv_ns_get_parse_num s).2.1 = (xmltv_ns_get_parse_num (first_segment s)).2.1 ∧
    (first_segment s = [] →
      (xmltv_ns_get_parse_num s).1 = 0 ∧ (xmltv_ns_get_parse_num s).2.1 = 0) ∧
    parse_xmltv_ns_episode s =
      { sn := (xmltv_ns_get_parse_num (first_segment s)).1
        sc := (xmltv_ns_get_parse_num (first_segment s)).2.1
        en := (xmltv_ns_get_parse_num (first_segment (after_first_dot s))).1
        ec := (xmltv_ns_get_parse_num (first_segment (after_first_dot s))).2.1
        pn := (xmltv_ns_get_parse_num (first_segment (after_first_dot (after_first_dot s)))).1
        pc := (xmltv_ns_get_parse_num
          (first_segment (after_first_dot (after_first_dot s)))).2.1 } := by
  obtain ⟨h1, h2, h3⟩ := parse_num_segment s
  refine ⟨h1, ?_, h2, h3, ?_, ?_⟩
  · rw [h1]
    exact after_first_dot_suffix s
  · intro he
    rw [h2, h3, he]
    exact ⟨rfl, rfl⟩
  · obtain ⟨k1, k2, k3⟩ := parse_num_segment (after_first_dot s)
    obtain ⟨m1, m2, m3⟩ := parse_num_segment (after_first_dot (after_first_dot s))
    unfold parse_xmltv_ns_episode
    simp only [h1, k1, ← h2, ← h3, ← k2, ← k3, ← m2, ← m3]

/-- C18 at the text `0..`: the season number is 1, and the episode number, the part
number and all counts are 0, the values of the empty segments. -/
theorem C18_segmentation_witness :
    parse_xmltv_ns_episode "0..".toList = ⟨1, 0, 0, 0, 0, 0⟩ ∧
    first_segment (after_first_dot "0..".toList) = [] ∧
    first_segment (after_first_dot (after_first_dot "0..".toList)) = [] :=
  ⟨(C18_segmentation "0..".toList).2.2.2.2.2, by decide, by decide⟩

/-! ## C14: white space in the episode number -/

theorem parse_num_b_space (t : List Char) (b : Int) :
    xmltv_ns_get_parse_num_b (' ' :: t) b = xmltv_ns_get_parse_num_b t b := by
  rw [xmltv_ns_get_parse_num_b, if_neg (by decide), if_neg (by decide)]

theorem parse_num_a_space (t : List Char) (a : Int) :
    xmltv_ns_get_parse_num_a (' ' :: t) a = xmltv_ns_get_parse_num_a t a := by
  rw [xmltv_ns_get_parse_num_a, if_neg (by decide), if_neg (by decide), if_neg (by decide)]

theorem parse_num_b_spaced {s t : List Char} (h : space_inserted s t) : ∀ b : Int,
    (xmltv_ns_get_parse_num_b s b).1 = (xmltv_ns_get_parse_num_b t b).1 ∧
    space_inserted (xmltv_ns_get_parse_num_b s b).2 (xmltv_ns_get_parse_num_b t b).2 := by
  induction h with
  | nil => intro b; exact ⟨rfl, space_inserted.nil⟩
  | keep c h ih =>
    intro b
    simp only [xmltv_ns_get_parse_num_b]
    split
    · exact ⟨rfl, h⟩
    · split
      · exact ih _
      · exact ih _
  | insert h ih =>
    intro b
    rw [parse_num_b_space]
    exact ih b

theorem parse_num_a_spaced {s t : List Char} (h : space_inserted s t) : ∀ a : Int,
    (xmltv_ns_get_parse_num_a s a).1 = (xmltv_ns_get_parse_num_a t a).1 ∧
    (xmltv_ns_get_parse_num_a s a).2.1 = (xmltv_ns_get_parse_num_a t a).2.1 ∧
    space_inserted (xmltv_ns_get_parse_num_a s a).2.2 (xmltv_ns_get_parse_num_a t a).2.2 := by
  induction h with
  | nil => intro a; exact ⟨rfl, rfl, space_inserted.nil⟩
  | keep c h ih =>
    intro a
    simp only [xmltv_ns_get_parse_num_a]
    split
    · exact ⟨rfl, rfl, h⟩
    · split
      · exact ⟨rfl, (parse_num_b_spaced h (-1)).1, (parse_num_b_spaced h (-1)).2⟩
      · split
        · exact ih _
        · exact ih _
  | insert h ih =>
    intro a
    rw [parse_num_a_space]
    exact ih a

theorem parse_num_spaced {s t : List Char} (h : space_inserted s t) :
    (xmltv_ns_get_parse_num s).1 = (xmltv_ns_get_parse_num t).1 ∧
    (xmltv_ns_get_parse_num s).2.1 = (xmltv_ns_get_parse_num t).2.1 ∧
    space_inserted (xmltv_ns_get_parse_num s).2.2 (xmltv_ns_get_parse_num t).2.2 := by
  obtain ⟨h1, h2, h3⟩ := parse_num_a_spaced h (-1)
  unfold xmltv_ns_get_parse_num
  exact ⟨by simp only [h1], by simp only [h2], h3⟩

/-- C14: when `t` is `s` with space characters inserted at arbitrary positions,
`parse_xmltv_ns_episode` produces the same six outputs for `t` as for `s`. -/
theorem C14_spaces_ignored (s t : List Char) (h : space_inserted s t) :
    parse_xmltv_ns_episode t = parse_xmltv_ns_episode s := by
  obtain ⟨a1, a2, a3⟩ := parse_num_spaced h
  obtain ⟨b1, b2, b3⟩ := parse_num_spaced a3
  obtain ⟨c1, c2, _⟩ := parse_num_spaced b3
  unfold parse_xmltv_ns_episode
  simp only [a1, a2, b1, b2, c1, c2]

/-- C14 at the example of the documentation: `0 . 12/13 . 0/3` is `0.12/13.0/3` with
four spaces inserted, and decodes as it does. -/
theorem C14_spaces_ignored_witness :
    parse_xmltv_ns_episode "0 . 12/13 . 0/3".toList
      = parse_xmltv_ns_episode "0.12/13.0/3".toList :=
  C14_spaces_ignored "0.12/13.0/3".toList "0 . 12/13 . 0/3".toList
    (.keep '0' (.insert (.keep '.' (.insert (.keep '1' (.keep '2' (.keep '/' (.keep '1'
      (.keep '3' (.insert (.keep '.' (.insert (.keep '0' (.keep '/' (.keep '3'
        .nil)))))))))))))))

/-! ## C19: the order of the counters -/

theorem part_step_refl (p : epggrab_stats_part_t) : part_step p p := by
  unfold part_step; omega

theorem part_step_trans {p q r : epggrab_stats_part_t} (h1 : part_step p q)
    (h2 : part_step q r) : part_step p r := by
  unfold part_step at *; omega

theorem stats_step_refl (s : epggrab_stats_t) : stats_step s s :=
  ⟨part_step_refl _, part_step_refl _, part_step_refl _⟩

theorem stats_step_trans {s t u : epggrab_stats_t} (h1 : stats_step s t)
    (h2 : stats_step t u) : stats_step s u :=
  ⟨part_step_trans h1.1 h2.1, part_step_trans h1.2.1 h2.2.1, part_step_trans h1.2.2 h2.2.2⟩

theorem stats_step_ordered {s t : epggrab_stats_t} (h : stats_step s t)
    (hs : stats_ordered s) : stats_ordered t := by
  unfold stats_step part_step at h
  unfold stats_ordered part_ordered at *
  omega

/-- One find-or-create and merge, where a created record counts as changed. -/
theorem counted_step (p : epggrab_stats_part_t) (created modified : Bool)
    (h : created = true → modified = true) : part_step p (counted p created modified) := by
  unfold part_step counted
  cases created <;> cases modified <;> simp at h ⊢

theorem apply_entry_step (e : xmltv_entry) (stats : epggrab_stats_t) (st : guide_store) :
    stats_step stats (apply_entry e stats st).2.1 := by
  have hnone : ∀ {α : Type} [DecidableEq α] (old : Option α) (new : α),
      old.isNone = true → decide (old ≠ some new) = true := by
    intro α _ old new h
    cases old with
    | none => simp
    | some x => simp at h
  cases e with
  | channel c =>
    exact ⟨counted_step _ _ _ (hnone _ _), part_step_refl _, part_step_refl _⟩
  | programme p =>
    exact ⟨part_step_refl _, counted_step _ _ _ (hnone _ _), counted_step _ _ _ (hnone _ _)⟩

theorem parse_channel_step (body : Option htsmsg_t) (stats : epggrab_stats_t)
    (st : guide_store) : stats_step stats (_xmltv_parse_channel body stats st).2.1 := by
  rw [parse_channel_resolved]
  cases resolve_channel body with
  | none => exact stats_step_refl _
  | some c => exact apply_entry_step (.channel c) stats st

theorem parse_programme_step (env : xmltv_env) (body : Option htsmsg_t)
    (stats : epggrab_stats_t) (st : guide_store) :
    stats_step stats (_xmltv_parse_programme env body stats st).2.1 := by
  rw [parse_programme_resolved]
  cases resolve_programme env st body with
  | none => exact stats_step_refl _
  | some p => exact apply_entry_step (.programme p) stats st

theorem parse_tv_field_step (env : xmltv_env) (f : htsmsg_field_t)
    (acc : Bool × epggrab_stats_t × guide_store) :
    stats_step acc.2.1 (_xmltv_parse_tv_field env f acc).2.1 := by
  unfold _xmltv_parse_tv_field
  split
  · exact parse_channel_step _ _ _
  · split
    · exact parse_programme_step env _ _ _
    · exact stats_step_refl _

theorem parse_tv_loop_step (env : xmltv_env) (fields : htsmsg_t) :
    ∀ acc : Bool × epggrab_stats_t × guide_store,
      stats_step acc.2.1
        (fields.foldl (fun acc f => _xmltv_parse_tv_field env f acc) acc).2.1 := by
  induction fields with
  | nil => intro acc; exact stats_step_refl _
  | cons f rest ih =>
    intro acc
    rw [List.foldl_cons]
    exact stats_step_trans (parse_tv_field_step env f acc) (ih _)

theorem parse_tv_step (env : xmltv_env) (body : htsmsg_t) (stats : epggrab_stats_t)
    (st : guide_store) : stats_step stats (_xmltv_parse_tv env body stats st).2.1 := by
  unfold _xmltv_parse_tv
  cases htsmsg_get_map body "tags" with
  | none => exact stats_step_refl _
  | some tags => exact parse_tv_loop_step env tags (false, stats, st)

/-- C19: from statistics in which created <= modified <= total holds for the channels,
the episodes and the broadcasts, every call of `_xmltv_parse_channel`,
`_xmltv_parse_programme` and `_xmltv_parse_tv` leaves statistics in which it holds
again; in each category no counter decreases, the increase of created is at most the
increase of modified, and that is at most the increase of total. -/
theorem C19_counter_invariant (env : xmltv_env) (stats : epggrab_stats_t)
    (st : guide_store) (h : stats_ordered stats) :
    (∀ body, stats_ordered (_xmltv_parse_channel body stats st).2.1 ∧
      stats_step stats (_xmltv_parse_channel body stats st).2.1) ∧
    (∀ body, stats_ordered (_xmltv_parse_programme env body stats st).2.1 ∧
      stats_step stats (_xmltv_parse_programme env body stats st).2.1) ∧
    (∀ body, stats_ordered (_xmltv_parse_tv env body stats st).2.1 ∧
      stats_step stats (_xmltv_parse_tv env body stats st).2.1) :=
  ⟨fun body => ⟨stats_step_ordered (parse_channel_step body stats st) h,
      parse_channel_step body stats st⟩,
   fun body => ⟨stats_step_ordered (parse_programme_step env body stats st) h,
      parse_programme_step env body stats st⟩,
   fun body => ⟨stats_step_ordered (parse_tv_step env body stats st) h,
      parse_tv_step env body stats st⟩⟩

/-- C19 at the sample document, from counters at zero: after the pass the counters are
1 <= 1 for the channels (none created, one modified, one in total) and 2 <= 2 <= 2 for
the episodes and the broadcasts. -/
theorem C19_counter_invariant_witness :
    stats_ordered (_xmltv_parse_tv sample_env plain_document zero_stats sample_store).2.1 ∧
    (_xmltv_parse_tv sample_env plain_document zero_stats sample_store).2.1
      = ⟨⟨0, 1, 1⟩, ⟨2, 2, 2⟩, ⟨2, 2, 2⟩⟩ :=
  ⟨((C19_counter_invariant sample_env zero_stats sample_store
      ⟨⟨Nat.le_refl _, Nat.le_refl _⟩, ⟨Nat.le_refl _, Nat.le_refl _⟩,
        ⟨Nat.le_refl _, Nat.le_refl _⟩⟩).2.2 plain_document).1,
   by decide⟩

/-! ## C20: season and count information -/

theorem after_first_dot_append_dot (a p : List Char) (ha : ∀ x ∈ a, x ≠ '.') :
    after_first_dot (a ++ '.' :: p) = p := by
  unfold after_first_dot
  induction a with
  | nil => rfl
  | cons c t ih =>
    have hc : (c != '.') = true := by simpa using ha c (List.mem_cons_self _ _)
    simp only [List.cons_append, List.dropWhile_cons, hc, if_true]
    exact ih (fun x hx => ha x (List.mem_cons_of_mem _ hx))

theorem after_first_dot_no_dot (a : List Char) (ha : ∀ x ∈ a, x ≠ '.') :
    after_first_dot a = [] := by
  unfold after_first_dot
  induction a with
  | nil => rfl
  | cons c t ih =>
    have hc : (c != '.') = true := by simpa using ha c (List.mem_cons_self _ _)
    simp only [List.dropWhile_cons, hc, if_true]
    exact ih (fun x hx => ha x (List.mem_cons_of_mem _ hx))

theorem first_segment_append_dot (a p : List Char) (ha : ∀ x ∈ a, x ≠ '.') :
    first_segment (a ++ '.' :: p) = a := by
  unfold first_segment
  induction a with
  | nil => rfl
  | cons c t ih =>
    have hc : (c != '.') = true := by simpa using ha c (List.mem_cons_self _ _)
    simp only [List.cons_append, List.takeWhile_cons, hc, if_true]
    rw [ih (fun x hx => ha x (List.mem_cons_of_mem _ hx))]

theorem first_segment_no_dot (a : List Char) (ha : ∀ x ∈ a, x ≠ '.') :
    first_segment a = a := by
  unfold first_segment
  induction a with
  | nil => rfl
  | cons c t ih =>
    have hc : (c != '.') = true := by simpa using ha c (List.mem_cons_self _ _)
    simp only [List.takeWhile_cons, hc, if_true]
    rw [ih (fun x hx => ha x (List.mem_cons_of_mem _ hx))]

/-- The outputs of `parse_xmltv_ns_episode` are those of the first three segments. -/
theorem parse_episode_by_segments (s : List Char) :
    parse_xmltv_ns_episode s =
      { sn := (xmltv_ns_get_parse_num (first_segment s)).1
        sc := (xmltv_ns_get_parse_num (first_segment s)).2.1
        en := (xmltv_ns_get_parse_num (first_segment (after_first_dot s))).1
        ec := (xmltv_ns_get_parse_num (first_segment (after_first_dot s))).2.1
        pn := (xmltv_ns_get_parse_num (first_segment (after_first_dot (after_first_dot s)))).1
        pc := (xmltv_ns_get_parse_num
          (first_segment (after_first_dot (after_first_dot s)))).2.1 } := by
  obtain ⟨h1, h2, h3⟩ := parse_num_segment s
  obtain ⟨k1, k2, k3⟩ := parse_num_segment (after_first_dot s)
  obtain ⟨m1, m2, m3⟩ := parse_num_segment (after_first_dot (after_first_dot s))
  unfold parse_xmltv_ns_episode
  simp only [h1, k1, ← h2, ← h3, ← k2, ← k3, ← m2, ← m3]

/-- The first loop over a numerator: what it has read does not depend on what
follows. -/
theorem parse_num_a_numerator (e : List Char) (he : ∀ x ∈ e, x ≠ '.' ∧ x ≠ '/') :
    ∀ a : Int, ∃ a2 : Int, ∀ rest,
      xmltv_ns_get_parse_num_a (e ++ rest) a = xmltv_ns_get_parse_num_a rest a2 := by
  induction e with
  | nil => intro a; exact ⟨a, fun rest => rfl⟩
  | cons c t ih =>
    intro a
    have hc := he c (List.mem_cons_self _ _)
    have ht : ∀ x ∈ t, x ≠ '.' ∧ x ≠ '/' := fun x hx => he x (List.mem_cons_of_mem _ hx)
    by_cases hd : is_digit c = true
    · obtain ⟨a2, h2⟩ := ih ht
        (wrap32 (wrap32 (wrap32 ((if a = -1 then 0 else a) * 10) + c.toNat) - 48))
      refine ⟨a2, fun rest => ?_⟩
      simp only [List.cons_append, xmltv_ns_get_parse_num_a, hc.1, hc.2, hd, if_false, if_true]
      exact h2 rest
    · obtain ⟨a2, h2⟩ := ih ht a
      refine ⟨a2, fun rest => ?_⟩
      simp only [List.cons_append, xmltv_ns_get_parse_num_a, hc.1, hc.2, hd, if_false]
      exact h2 rest

/-- The number of a component does not depend on its denominator. -/
theorem parse_num_numerator (e d1 d2 : List Char) (he : ∀ x ∈ e, x ≠ '.' ∧ x ≠ '/')
    (h1 : is_denominator d1) (h2 : is_denominator d2) :
    (xmltv_ns_get_parse_num (e ++ d1)).1 = (xmltv_ns_get_parse_num (e ++ d2)).1 := by
  obtain ⟨a2, ha⟩ := parse_num_a_numerator e he (-1)
  have key : ∀ d, is_denominator d → (xmltv_ns_get_parse_num_a d a2).1 = a2 := by
    intro d hd
    rcases hd.1 with rfl | ⟨c, rfl⟩
    · rfl
    · rfl
  unfold xmltv_ns_get_parse_num
  simp only [ha, key d1 h1, key d2 h2]

/-- The numbers that reach the store do not depend on the season component or on the
episode-count denominator. -/
theorem variant_decodes_alike (t1 t2 : List Char) (h : season_count_variant t1 t2) :
    (parse_xmltv_ns_episode t1).en = (parse_xmltv_ns_episode t2).en ∧
    (parse_xmltv_ns_episode t1).pn = (parse_xmltv_ns_episode t2).pn ∧
    (parse_xmltv_ns_episode t1).pc = (parse_xmltv_ns_episode t2).pc := by
  rw [parse_episode_by_segments t1, parse_episode_by_segments t2]
  rcases h with ⟨h1, h2⟩ | ⟨s1, s2, e, d1, d2, t, rfl, rfl, hs1, hs2, he, hd1, hd2, ht⟩
  · simp only [after_first_dot_no_dot t1 h1, after_first_dot_no_dot t2 h2]
    exact ⟨trivial, trivial, trivial⟩
  · have hn1 : ∀ x ∈ e ++ d1, x ≠ '.' := by
      intro x hx
      rcases List.mem_append.mp hx with hx | hx
      · exact (he x hx).1
      · exact hd1.2 x hx
    have hn2 : ∀ x ∈ e ++ d2, x ≠ '.' := by
      intro x hx
      rcases List.mem_append.mp hx with hx | hx
      · exact (he x hx).1
      · exact hd2.2 x hx
    have hen := parse_num_numerator e d1 d2 he hd1 hd2
    rw [after_first_dot_append_dot s1 _ hs1, after_first_dot_append_dot s2 _ hs2,
      ← List.append_assoc e d1 t, ← List.append_assoc e d2 t]
    rcases ht with rfl | ⟨p, rfl⟩
    · simp only [List.append_nil, first_segment_no_dot _ hn1, first_segment_no_dot _ hn2,
        after_first_dot_no_dot _ hn1, after_first_dot_no_dot _ hn2]
      exact ⟨hen, trivial, trivial⟩
    · simp only [first_segment_append_dot _ p hn1, first_segment_append_dot _ p hn2,
        after_first_dot_append_dot _ p hn1, after_first_dot_append_dot _ p hn2]
      exact ⟨hen, trivial, trivial⟩

/-- A field either leaves the numbers as they are or sets them to numbers of its
own. -/
theorem episode_info_field_num (f : htsmsg_field_t) :
    (∀ acc, (get_episode_info_field f acc).num = acc.num) ∨
    (∃ n, ∀ acc, (get_episode_info_field f acc).num = n) := by
  cases h1 : htsmsg_get_map_by_field f with
  | none => left; intro acc; simp only [get_episode_info_field, h1]
  | some c =>
    by_cases h2 : f.1 = "episode-num"
    · cases h3 : htsmsg_get_map c "attrib" with
      | none => left; intro acc; simp [get_episode_info_field, h1, h2, h3]
      | some a =>
        cases h4 : htsmsg_get_str c "cdata" with
        | none => left; intro acc; simp [get_episode_info_field, h1, h2, h3, h4]
        | some cdata =>
          cases h5 : htsmsg_get_str a "system" with
          | none => left; intro acc; simp [get_episode_info_field, h1, h2, h3, h4, h5]
          | some sys =>
            by_cases h6 : sys = "onscreen"
            · left; intro acc; simp [get_episode_info_field, h1, h2, h3, h4, h5, h6]
            · by_cases h7 : sys = "xmltv_ns"
              · right
                refine ⟨parse_xmltv_ns_episode cdata.toList, fun acc => ?_⟩
                simp [get_episode_info_field, h1, h2, h3, h4, h5, h6, h7]
              · left; intro acc; simp [get_episode_info_field, h1, h2, h3, h4, h5, h6, h7]
    · left; intro acc; simp [get_episode_info_field, h1, h2]

theorem episode_info_field_variant (f g : htsmsg_field_t) (a b : episode_info)
    (h : episode_num_variant f g) (hab : same_numbers a b) :
    same_numbers (get_episode_info_field f a) (get_episode_info_field g b) := by
  obtain ⟨hf, hg, cf, cg, att, sys, t1, t2, hcf, hcg, haf, hag, hsys, h1, h2, hv⟩ := h
  have mf : htsmsg_get_map_by_field f = some cf := by
    unfold htsmsg_get_map_by_field
    rw [hcf]
  have mg : htsmsg_get_map_by_field g = some cg := by
    unfold htsmsg_get_map_by_field
    rw [hcg]
  rcases hv with rfl | ⟨rfl, hv⟩
  · have e1 : (get_episode_info_field f a).num = a.num := by
      simp [get_episode_info_field, mf, hf, haf, h1, hsys]
    have e2 : (get_episode_info_field g b).num = b.num := by
      simp [get_episode_info_field, mg, hg, hag, h2, hsys]
    unfold same_numbers
    rw [e1, e2]
    exact hab
  · have e1 : (get_episode_info_field f a).num = parse_xmltv_ns_episode t1.toList := by
      simp [get_episode_info_field, mf, hf, haf, h1, hsys]
    have e2 : (get_episode_info_field g b).num = parse_xmltv_ns_episode t2.toList := by
      simp [get_episode_info_field, mg, hg, hag, h2, hsys]
    unfold same_numbers
    rw [e1, e2]
    exact variant_decodes_alike _ _ hv

theorem episode_info_field_same (f : htsmsg_field_t) (a b : episode_info)
    (hab : same_numbers a b) :
    same_numbers (get_episode_info_field f a) (get_episode_info_field f b) := by
  rcases episode_info_field_num f with hk | ⟨n, hn⟩
  · unfold same_numbers
    rw [hk a, hk b]
    exact hab
  · unfold same_numbers
    rw [hn a, hn b]
    exact ⟨rfl, rfl, rfl⟩

/-- An `onscreen` number leaves the decoded numbers as they are. -/
theorem episode_info_field_onscreen (f : htsmsg_field_t) (a : episode_info)
    (h : is_onscreen f) : (get_episode_info_field f a).num = a.num := by
  obtain ⟨hf, cf, att, hcf, haf, hsys⟩ := h
  have mf : htsmsg_get_map_by_field f = some cf := by
    unfold htsmsg_get_map_by_field
    rw [hcf]
  cases h1 : htsmsg_get_str cf "cdata" with
  | none => simp [get_episode_info_field, mf, hf, haf, h1]
  | some cdata => simp [get_episode_info_field, mf, hf, haf, h1, hsys]

theorem episode_info_variant (tags1 tags2 : htsmsg_t) (h : season_variant_tags tags1 tags2) :
    ∀ a b, same_numbers a b →
      same_numbers (get_episode_info tags1 a) (get_episode_info tags2 b) := by
  induction h with
  | nil => intro a b hab; exact hab
  | same f _ ih =>
    intro a b hab
    unfold get_episode_info
    simp only [List.foldl_cons]
    exact ih _ _ (episode_info_field_same f a b hab)
  | variant hfg _ ih =>
    intro a b hab
    unfold get_episode_info
    simp only [List.foldl_cons]
    exact ih _ _ (episode_info_field_variant _ _ a b hfg hab)
  | @left f l1 l2 hf _ ih =>
    intro a b hab
    have h1 : get_episode_info (f :: l1) a = get_episode_info l1 (get_episode_info_field f a) :=
      rfl
    rw [h1]
    refine ih _ _ ?_
    unfold same_numbers
    rw [episode_info_field_onscreen f a hf]
    exact hab
  | @right g l1 l2 hg _ ih =>
    intro a b hab
    have h1 : get_episode_info (g :: l2) b = get_episode_info l2 (get_episode_info_field g b) :=
      rfl
    rw [h1]
    refine ih _ _ ?_
    unfold same_numbers
    rw [episode_info_field_onscreen g b hg]
    exact hab

theorem field_find_variant (tags1 tags2 : htsmsg_t) (h : season_variant_tags tags1 tags2)
    (name : String) (hname : name ≠ "episode-num") :
    htsmsg_field_find tags1 name = htsmsg_field_find tags2 name := by
  have skip : ∀ f : htsmsg_field_t, f.1 = "episode-num" → (f.1 == name) = false := by
    intro f hf
    rw [hf]
    exact beq_false_of_ne (fun hh => hname hh.symm)
  unfold htsmsg_field_find
  induction h with
  | nil => rfl
  | same f _ ih => simp only [List.find?_cons, ih]
  | variant hfg _ ih =>
    simp only [List.find?_cons, skip _ hfg.1, skip _ hfg.2.1, ih]
  | left hf _ ih => simp only [List.find?_cons, skip _ hf.1, ih]
  | right hg _ ih => simp only [List.find?_cons, skip _ hg.1, ih]

theorem cdata_str_variant (tags1 tags2 : htsmsg_t) (h : season_variant_tags tags1 tags2)
    (name : String) (hname : name ≠ "episode-num") :
    htsmsg_xml_get_cdata_str tags1 name = htsmsg_xml_get_cdata_str tags2 name := by
  unfold htsmsg_xml_get_cdata_str htsmsg_get_map
  rw [field_find_variant tags1 tags2 h name hname]

/-- What `_xmltv_parse_programme_tags` does is determined by the title, the
description, the category and the three numbers `en`, `pn`, `pc`. -/
theorem parse_programme_tags_determined (env : xmltv_env) (ch : channel_t)
    (start stop : Int) (stats : epggrab_stats_t) (st : guide_store) (tags1 tags2 : htsmsg_t)
    (htitle : htsmsg_xml_get_cdata_str tags1 "title" = htsmsg_xml_get_cdata_str tags2 "title")
    (hdesc : htsmsg_xml_get_cdata_str tags1 "desc" = htsmsg_xml_get_cdata_str tags2 "desc")
    (hcat : htsmsg_xml_get_cdata_str tags1 "category"
      = htsmsg_xml_get_cdata_str tags2 "category")
    (hnum : same_numbers (get_episode_info tags1 ⟨none, ⟨0, 0, 0, 0, 0, 0⟩⟩)
      (get_episode_info tags2 ⟨none, ⟨0, 0, 0, 0, 0, 0⟩⟩)) :
    _xmltv_parse_programme_tags env ch tags1 start stop stats st =
      _xmltv_parse_programme_tags env ch tags2 start stop stats st := by
  cases h2 : htsmsg_xml_get_cdata_str tags2 "title" with
  | none =>
    rw [parse_programme_tags_untitled env ch tags1 start stop stats st (htitle.trans h2),
      parse_programme_tags_untitled env ch tags2 start stop stats st h2]
  | some title =>
    have hkey : programme_key env tags1 title = programme_key env tags2 title := by
      unfold programme_key
      rw [hdesc]
    have hep : ∀ old, programme_episode tags1 title old = programme_episode tags2 title old := by
      intro old
      unfold programme_episode
      rw [hdesc, hcat, hnum.1, hnum.2.1, hnum.2.2]
    rw [parse_programme_tags_eq env ch tags1 start stop stats st title (htitle.trans h2),
      parse_programme_tags_eq env ch tags2 start stop stats st title h2]
    simp only [hkey, hep]

/-- C20: season and count information never influences the reconciliation. For every
channel, interval, statistics and store state: two tag sets that differ only in the
season component or the episode-count denominator of an `xmltv_ns` `episode-num`, or in
their `onscreen` `episode-num` fields, give the same result, counters and store; more
generally the outcome is determined by the title, description, category and the decoded
episode number, part number and part count; and the stored part and episode number are
replaced only when the decoded number is non-zero. -/
theorem C20_season_and_counts_ignored (env : xmltv_env) (ch : channel_t) (start stop : Int)
    (stats : epggrab_stats_t) (st : guide_store) :
    (∀ tags1 tags2, season_variant_tags tags1 tags2 →
      _xmltv_parse_programme_tags env ch tags1 start stop stats st =
        _xmltv_parse_programme_tags env ch tags2 start stop stats st) ∧
    (∀ tags1 tags2,
      htsmsg_xml_get_cdata_str tags1 "title" = htsmsg_xml_get_cdata_str tags2 "title" →
      htsmsg_xml_get_cdata_str tags1 "desc" = htsmsg_xml_get_cdata_str tags2 "desc" →
      htsmsg_xml_get_cdata_str tags1 "category" = htsmsg_xml_get_cdata_str tags2 "category" →
      same_numbers (get_episode_info tags1 ⟨none, ⟨0, 0, 0, 0, 0, 0⟩⟩)
        (get_episode_info tags2 ⟨none, ⟨0, 0, 0, 0, 0, 0⟩⟩) →
      _xmltv_parse_programme_tags env ch tags1 start stop stats st =
        _xmltv_parse_programme_tags env ch tags2 start stop stats st) ∧
    (∀ tags title, htsmsg_xml_get_cdata_str tags "title" = some title →
      ∃ ep, (_xmltv_parse_programme_tags env ch tags start stop stats st).2.2.episodes
          (programme_key env tags title) = some ep ∧
        ep.part_number =
          (if (get_episode_info tags ⟨none, ⟨0, 0, 0, 0, 0, 0⟩⟩).num.pn ≠ 0
            then (get_episode_info tags ⟨none, ⟨0, 0, 0, 0, 0, 0⟩⟩).num.pn
            else ((st.episodes (programme_key env tags title)).getD blank_episode).part_number) ∧
        ep.part_count =
          (if (get_episode_info tags ⟨none, ⟨0, 0, 0, 0, 0, 0⟩⟩).num.pn ≠ 0
            then (get_episode_info tags ⟨none, ⟨0, 0, 0, 0, 0, 0⟩⟩).num.pc
            else ((st.episodes (programme_key env tags title)).getD blank_episode).part_count) ∧
        ep.number =
          (if (get_episode_info tags ⟨none, ⟨0, 0, 0, 0, 0, 0⟩⟩).num.en ≠ 0
            then (get_episode_info tags ⟨none, ⟨0, 0, 0, 0, 0, 0⟩⟩).num.en
            else ((st.episodes (programme_key env tags title)).getD blank_episode).number)) := by
  refine ⟨?_, ?_, ?_⟩
  · intro tags1 tags2 h
    exact parse_programme_tags_determined env ch start stop stats st tags1 tags2
      (cdata_str_variant tags1 tags2 h "title" (by decide))
      (cdata_str_variant tags1 tags2 h "desc" (by decide))
      (cdata_str_variant tags1 tags2 h "category" (by decide))
      (episode_info_variant tags1 tags2 h _ _ ⟨rfl, rfl, rfl⟩)
  · intro tags1 tags2 h1 h2 h3 h4
    exact parse_programme_tags_determined env ch start stop stats st tags1 tags2 h1 h2 h3 h4
  · intro tags title htitle
    rw [parse_programme_tags_eq env ch tags start stop stats st title htitle]
    refine ⟨_, upd_self _ _ _, ?_⟩
    obtain ⟨_, _, _, h4, h5, h6⟩ := merged_episode_fields title
      (htsmsg_xml_get_cdata_str tags "desc") (htsmsg_xml_get_cdata_str tags "category")
      (get_episode_info tags ⟨none, ⟨0, 0, 0, 0, 0, 0⟩⟩).num.pn
      (get_episode_info tags ⟨none, ⟨0, 0, 0, 0, 0, 0⟩⟩).num.pc
      (get_episode_info tags ⟨none, ⟨0, 0, 0, 0, 0, 0⟩⟩).num.en
      ((st.episodes (programme_key env tags title)).getD blank_episode)
    exact ⟨h4, h5, h6⟩

theorem first_and_other_season_variant :
    season_variant_tags first_season_tags other_season_tags := by
  unfold first_season_tags other_season_tags
  refine .same _ (.same _ (.variant ?_ (.variant ?_ (.right ?_ .nil))))
  · refine ⟨rfl, rfl, _, _, [("system", .str "xmltv_ns")], "xmltv_ns", "1.4.0/2",
      "7/9.4/12.0/2", rfl, rfl, rfl, rfl, by decide, by decide, by decide,
      Or.inr ⟨rfl, Or.inr ⟨['1'], ['7', '/', '9'], ['4'], [], ['/', '1', '2'],
        ['.', '0', '/', '2'], by decide, by decide, by decide, by decide, by decide, ?_, ?_,
        Or.inr ⟨_, rfl⟩⟩⟩⟩
    · exact ⟨Or.inl rfl, by decide⟩
    · exact ⟨Or.inr ⟨_, rfl⟩, by decide⟩
  · exact ⟨rfl, rfl, _, _, [("system", .str "onscreen")], "onscreen", "S2E5", "Season 8",
      rfl, rfl, rfl, rfl, by decide, by decide, by decide, Or.inl rfl⟩
  · exact ⟨rfl, _, [("system", .str "onscreen")], rfl, rfl, by decide⟩

/-- Witness for C20: two tag sets with different seasons, episode counts and onscreen
numbers are reconciled alike in the sample store. -/
theorem C20_season_and_counts_ignored_witness :
    season_variant_tags first_season_tags other_season_tags ∧
    _xmltv_parse_programme_tags sample_env 7 first_season_tags 0 3600 zero_stats sample_store =
      _xmltv_parse_programme_tags sample_env 7 other_season_tags 0 3600 zero_stats
        sample_store :=
  ⟨first_and_other_season_variant,
   (C20_season_and_counts_ignored sample_env 7 0 3600 zero_stats sample_store).1
     first_season_tags other_season_tags first_and_other_season_variant⟩

end Xmltv
